import Mathlib

/-!
# Statistics calculators of `modules/stochastic_tools`

A shallow embedding of `Calculators.h` (`CalculatorValue`, the nine classes under
`Calculator`, `makeCalculator`) and of `BootstrapCalculators.h` (`BootstrapCalculator`,
`Percentile`, `BiasCorrectedAccelerated`, `makeBootstrapCalculator`), followed by the
properties proved about them.

Conventions of the embedding.

* The instantiation modelled is the default one, `InType = std::vector<Real>` and
  `OutType = Real`: in-values and out-values share one type `α`, a linearly ordered
  field, so arithmetic is exact.  `dof_id_type` counters are natural numbers.
* A member function that mutates its object becomes a function returning the new object.
* Code from outside the repository is a parameter: `std::sqrt` is `sqrtFn`, and the two
  constants of `std::numeric_limits<T2>` are a `NumericLimits` record.
* The communicator is modelled by `group`, the list (by rank) of what every process of
  the group holds when a collective is entered; every process runs the same program, so a
  collective is a fold over `group`.  `group` contains the calling process itself.
* `while (true)` of the distributed median is a recursion on a fuel counter; running out
  of fuel is `none`.
* A call that can end in `mooseError` is a `Result`: a value, the message of the error, or
  no defined result (an index outside a vector, a quotient by zero, fuel used up).  A
  `mooseAssert` is tested when `Library.assertsActive` holds.
* The calculator a bootstrap calculator refers to through `_calc` is passed to each call
  and returned with its result.
* Where the template argument matters (`BiasCorrectedAccelerated` has a primary template
  and a specialisation for `Real`), it is an `OutType`, and the virtual call on an object is
  `BootstrapCalculator.computeFor`.
* Where the rounding of `Real` arithmetic matters (the average of equal jackknife estimates
  in `acceleration`), the same statements are embedded a second time over binary64, in the
  namespace `Binary64`: every operation returns the `double` nearest to its exact result.
-/

namespace StochasticTools

/-- The constants `std::numeric_limits<T2>::min()` and `std::numeric_limits<T2>::max()`
read by `CalculatorValue::min()` and `CalculatorValue::max()`. -/
structure NumericLimits (α : Type) where
  /-- Value of `std::numeric_limits<T2>::min()`. -/
  min : α
  /-- Value of `std::numeric_limits<T2>::max()`. -/
  max : α

/-- The limits of `T2 = Real` (an IEEE-754 binary64 `double`), as exact rationals:
`std::numeric_limits<double>::min()` is the smallest positive normalised value `2^-1022`
and `std::numeric_limits<double>::max()` is `(2^53 - 1) * 2^971`. -/
def doubleLimits : NumericLimits ℚ where
  min := 1 / 2 ^ 1022
  max := (2 ^ 53 - 1) * 2 ^ 971

/-- Class `CalculatorValue<T1, T2>`: one wrapped out-value `_value`. -/
structure CalculatorValue (α : Type) where
  /-- The member `_value`. -/
  _value : α
deriving DecidableEq

namespace CalculatorValue

variable {α : Type} [LinearOrderedField α]

/-- Default constructor `CalculatorValue() : _value() {}`. -/
def mk0 : CalculatorValue α := ⟨0⟩

/-- Member `get()`. -/
def get (c : CalculatorValue α) : α := c._value

/-- Member `zero()`: `_value = T2()`. -/
def zero (_c : CalculatorValue α) : CalculatorValue α := ⟨0⟩

/-- Member `divide(num)`: `_value /= num`. -/
def divide (c : CalculatorValue α) (num : Nat) : CalculatorValue α := ⟨c._value / (num : α)⟩

/-- Member `pow(p)`: `_value = MathUtils::pow(_value, p)`. -/
def pow (c : CalculatorValue α) (p : Int) : CalculatorValue α := ⟨c._value ^ p⟩

/-- Member `sqrt()`: `_value = std::sqrt(_value)`. -/
def sqrt (sqrtFn : α → α) (c : CalculatorValue α) : CalculatorValue α := ⟨sqrtFn c._value⟩

/-- Member `min()` without argument: `_value = std::numeric_limits<T2>::min()`. -/
def setMin (lim : NumericLimits α) (_c : CalculatorValue α) : CalculatorValue α := ⟨lim.min⟩

/-- Member `max()` without argument: `_value = std::numeric_limits<T2>::max()`. -/
def setMax (lim : NumericLimits α) (_c : CalculatorValue α) : CalculatorValue α := ⟨lim.max⟩

/-- Member `add(a)`: `_value += a`. -/
def add (c : CalculatorValue α) (a : α) : CalculatorValue α := ⟨c._value + a⟩

/-- Member `addPow(a, p)`: `_value += MathUtils::pow(a, p)`. -/
def addPow (c : CalculatorValue α) (a : α) (p : Int) : CalculatorValue α := ⟨c._value + a ^ p⟩

/-- Member `min(a)`: `_value = std::min(a, _value)`, and `std::min(x, y)` is
`(y < x) ? y : x`. -/
def min (c : CalculatorValue α) (a : α) : CalculatorValue α :=
  ⟨if c._value < a then c._value else a⟩

/-- Member `max(a)`: `_value = std::max(a, _value)`, and `std::max(x, y)` is
`(x < y) ? y : x`. -/
def max (c : CalculatorValue α) (a : α) : CalculatorValue α :=
  ⟨if a < c._value then c._value else a⟩

/-- Member `operator+=`. -/
def plusEq (c : CalculatorValue α) (b : α) : CalculatorValue α := ⟨c._value + b⟩

/-- Member `operator-=`. -/
def minusEq (c : CalculatorValue α) (b : α) : CalculatorValue α := ⟨c._value - b⟩

/-- Member `operator/=`. -/
def divEq (c : CalculatorValue α) (b : α) : CalculatorValue α := ⟨c._value / b⟩

/-- Member `less_than(b)`: `_value < b`. -/
def less_than (c : CalculatorValue α) (b : α) : Bool := decide (c._value < b)

/-- Member `sum(comm)`: all-reduce with `+`; `group` holds the value of every rank. -/
def sum (group : List (CalculatorValue α)) (_c : CalculatorValue α) : CalculatorValue α :=
  ⟨(group.map (fun v => v._value)).sum⟩

/-- Member `min(comm)`: all-reduce with minimum; `group` holds the value of every rank. -/
def commMin (group : List (CalculatorValue α)) (c : CalculatorValue α) : CalculatorValue α :=
  match group with
  | [] => c
  | v :: vs => ⟨vs.foldl (fun acc w => if w._value < acc then w._value else acc) v._value⟩

/-- Member `max(comm)`: all-reduce with maximum; `group` holds the value of every rank. -/
def commMax (group : List (CalculatorValue α)) (c : CalculatorValue α) : CalculatorValue α :=
  match group with
  | [] => c
  | v :: vs => ⟨vs.foldl (fun acc w => if acc < w._value then w._value else acc) v._value⟩

end CalculatorValue

/-- All-reduce `comm.sum` of a `dof_id_type` counter over the ranks of the group. -/
def commSumNat (group : List Nat) : Nat := group.sum

/-! ## Mean -/

/-- Data members of class `Mean`. -/
structure Mean (α : Type) where
  /-- Member `_count`. -/
  _count : Nat
  /-- Member `_sum`. -/
  _sum : CalculatorValue α

namespace Mean

variable {α : Type} [LinearOrderedField α]

/-- Function `Mean::initialize`. -/
def init (self : Mean α) : Mean α :=
  { _count := 0, _sum := self._sum.zero }

/-- Function `Mean::update`. -/
def update (self : Mean α) (val : α) : Mean α :=
  { _count := self._count + 1, _sum := self._sum.add val }

/-- Function `Mean::finalize`; `group` is the state of every rank entering the collectives. -/
def finalize (group : List (Mean α)) (is_distributed : Bool) (self : Mean α) : Mean α :=
  let s : Mean α :=
    if is_distributed then
      { _count := commSumNat (group.map (fun p => p._count)),
        _sum := self._sum.sum (group.map (fun p => p._sum)) }
    else self
  if s._count > 0 then { s with _sum := s._sum.divide s._count }
  else { s with _sum := s._sum.zero }

/-- Function `Mean::get`. -/
def get (self : Mean α) : α := self._sum.get

/-- The object after `initialize()` and one `update` per element of `data`. -/
def accumulate (self : Mean α) (data : List α) : Mean α :=
  data.foldl update self.init

/-- Function `Calculator::compute` for `Mean`: `group` lists the `data` argument of every
rank of the communicator, the calling one included. -/
def compute (self : Mean α) (group : List (List α)) (data : List α) (is_distributed : Bool) :
    α :=
  ((self.accumulate data).finalize (group.map self.accumulate) is_distributed).get

end Mean

/-! ## Min -/

/-- Data members of class `Min`. -/
structure Min (α : Type) where
  /-- Member `_min`. -/
  _min : CalculatorValue α

namespace Min

variable {α : Type} [LinearOrderedField α]

/-- Function `Min::initialize`. -/
def init (lim : NumericLimits α) (self : Min α) : Min α :=
  { _min := self._min.setMax lim }

/-- Function `Min::update`. -/
def update (self : Min α) (val : α) : Min α :=
  { _min := self._min.min val }

/-- Function `Min::finalize`. -/
def finalize (group : List (Min α)) (is_distributed : Bool) (self : Min α) : Min α :=
  if is_distributed then { _min := self._min.commMin (group.map (fun p => p._min)) }
  else self

/-- Function `Min::get`. -/
def get (self : Min α) : α := self._min.get

/-- The object after `initialize()` and one `update` per element of `data`. -/
def accumulate (lim : NumericLimits α) (self : Min α) (data : List α) : Min α :=
  data.foldl update (self.init lim)

/-- Function `Calculator::compute` for `Min`. -/
def compute (lim : NumericLimits α) (self : Min α) (group : List (List α)) (data : List α)
    (is_distributed : Bool) : α :=
  ((self.accumulate lim data).finalize (group.map (self.accumulate lim)) is_distributed).get

end Min

/-! ## Max -/

/-- Data members of class `Max`. -/
structure Max (α : Type) where
  /-- Member `_max`. -/
  _max : CalculatorValue α

namespace Max

variable {α : Type} [LinearOrderedField α]

/-- Function `Max::initialize`. -/
def init (lim : NumericLimits α) (self : Max α) : Max α :=
  { _max := self._max.setMin lim }

/-- Function `Max::update`. -/
def update (self : Max α) (val : α) : Max α :=
  { _max := self._max.max val }

/-- Function `Max::finalize`. -/
def finalize (group : List (Max α)) (is_distributed : Bool) (self : Max α) : Max α :=
  if is_distributed then { _max := self._max.commMax (group.map (fun p => p._max)) }
  else self

/-- Function `Max::get`. -/
def get (self : Max α) : α := self._max.get

/-- The object after `initialize()` and one `update` per element of `data`. -/
def accumulate (lim : NumericLimits α) (self : Max α) (data : List α) : Max α :=
  data.foldl update (self.init lim)

/-- Function `Calculator::compute` for `Max`. -/
def compute (lim : NumericLimits α) (self : Max α) (group : List (List α)) (data : List α)
    (is_distributed : Bool) : α :=
  ((self.accumulate lim data).finalize (group.map (self.accumulate lim)) is_distributed).get

end Max

/-! ## Sum -/

/-- Data members of class `Sum`. -/
structure Sum (α : Type) where
  /-- Member `_sum`. -/
  _sum : CalculatorValue α

namespace Sum

variable {α : Type} [LinearOrderedField α]

/-- Function `Sum::initialize`. -/
def init (self : Sum α) : Sum α :=
  { _sum := self._sum.zero }

/-- Function `Sum::update`. -/
def update (self : Sum α) (val : α) : Sum α :=
  { _sum := self._sum.add val }

/-- Function `Sum::finalize`. -/
def finalize (group : List (Sum α)) (is_distributed : Bool) (self : Sum α) : Sum α :=
  if is_distributed then { _sum := self._sum.sum (group.map (fun p => p._sum)) }
  else self

/-- Function `Sum::get`. -/
def get (self : Sum α) : α := self._sum.get

/-- The object after `initialize()` and one `update` per element of `data`. -/
def accumulate (self : Sum α) (data : List α) : Sum α :=
  data.foldl update self.init

/-- Function `Calculator::compute` for `Sum`. -/
def compute (self : Sum α) (group : List (List α)) (data : List α) (is_distributed : Bool) :
    α :=
  ((self.accumulate data).finalize (group.map self.accumulate) is_distributed).get

end Sum

/-! ## StdDev and StdErr -/

/-- Data members of class `StdDev` (inherited unchanged by `StdErr`). -/
structure StdDev (α : Type) where
  /-- Member `_count`. -/
  _count : Nat
  /-- Member `_sum`. -/
  _sum : CalculatorValue α
  /-- Member `_sum_of_square`. -/
  _sum_of_square : CalculatorValue α

namespace StdDev

variable {α : Type} [LinearOrderedField α]

/-- Function `StdDev::initialize`. -/
def init (self : StdDev α) : StdDev α :=
  { _count := 0, _sum := self._sum.zero, _sum_of_square := self._sum_of_square.zero }

/-- Function `StdDev::update`. -/
def update (self : StdDev α) (val : α) : StdDev α :=
  { _count := self._count + 1,
    _sum := self._sum.add val,
    _sum_of_square := self._sum_of_square.addPow val 2 }

/-- The three all-reduces at the head of `StdDev::finalize` and `StdErr::finalize`. -/
def reduce (group : List (StdDev α)) (is_distributed : Bool) (self : StdDev α) : StdDev α :=
  if is_distributed then
    { _count := commSumNat (group.map (fun p => p._count)),
      _sum := self._sum.sum (group.map (fun p => p._sum)),
      _sum_of_square := self._sum_of_square.sum (group.map (fun p => p._sum_of_square)) }
  else self

/-- Function `StdDev::finalize`. -/
def finalize (sqrtFn : α → α) (group : List (StdDev α)) (is_distributed : Bool)
    (self : StdDev α) : StdDev α :=
  let s := self.reduce group is_distributed
  if s._count ≤ 1 then { s with _sum_of_square := s._sum_of_square.zero }
  else
    let sum := (s._sum.pow 2).divide s._count
    let sq := (s._sum_of_square.minusEq sum.get).divide (s._count - 1)
    let sq := (((sq.pow 2).sqrt sqrtFn).sqrt sqrtFn)
    { s with _sum := sum, _sum_of_square := sq }

/-- Function `StdDev::get`. -/
def get (self : StdDev α) : α := self._sum_of_square.get

/-- The object after `initialize()` and one `update` per element of `data`. -/
def accumulate (self : StdDev α) (data : List α) : StdDev α :=
  data.foldl update self.init

/-- Function `Calculator::compute` for `StdDev`. -/
def compute (sqrtFn : α → α) (self : StdDev α) (group : List (List α)) (data : List α)
    (is_distributed : Bool) : α :=
  ((self.accumulate data).finalize sqrtFn (group.map self.accumulate) is_distributed).get

end StdDev

namespace StdErr

variable {α : Type} [LinearOrderedField α]

/-- Function `StdErr::finalize`, the only member `StdErr` overrides. -/
def finalize (sqrtFn : α → α) (group : List (StdDev α)) (is_distributed : Bool)
    (self : StdDev α) : StdDev α :=
  let s := self.reduce group is_distributed
  if s._count ≤ 1 then { s with _sum_of_square := s._sum_of_square.zero }
  else
    let sum := (s._sum.pow 2).divide s._count
    let sq := (s._sum_of_square.minusEq sum.get).divide (s._count - 1)
    let sq := (sq.divide s._count).sqrt sqrtFn
    { s with _sum := sum, _sum_of_square := sq }

/-- Function `Calculator::compute` for `StdErr`. -/
def compute (sqrtFn : α → α) (self : StdDev α) (group : List (List α)) (data : List α)
    (is_distributed : Bool) : α :=
  (StdErr.finalize sqrtFn (group.map self.accumulate) is_distributed
    (self.accumulate data)).get

end StdErr

/-! ## Median -/

/-- Data members of class `Median`. -/
structure Median (α : Type) where
  /-- Member `_storage`. -/
  _storage : List (CalculatorValue α)
  /-- Member `_median`. -/
  _median : CalculatorValue α

namespace Median

variable {α : Type} [LinearOrderedField α]

/-- Function `Median::initialize`. -/
def init (self : Median α) : Median α :=
  { self with _storage := [] }

/-- Function `Median::update`: `emplace_back()` appends a default-constructed value, to
which `val` is added. -/
def update (self : Median α) (val : α) : Median α :=
  { self with _storage := self._storage ++ [CalculatorValue.mk0.add val] }

/-- The object after `initialize()` and one `update` per element of `data`. -/
def accumulate (self : Median α) (data : List α) : Median α :=
  data.foldl update self.init

/-- Library call `std::sort(first, last, comp)` with the comparator of `Median::finalize`,
`comp(a, b) = a.less_than(b.get())`: `a` may stand before `b` unless `comp(b, a)`. -/
def sortStorage (storage : List (CalculatorValue α)) : List (CalculatorValue α) :=
  storage.insertionSort (fun a b => b.less_than a.get = false)

/-- Idiom `v.erase(std::remove_if(v.begin(), v.end(), pred), v.end())`. -/
def eraseIf (pred : CalculatorValue α → Bool) (storage : List (CalculatorValue α)) :
    List (CalculatorValue α) :=
  storage.filter (fun val => !pred val)

/-- The serial branch of `Median::finalize` (`!is_distributed || n_processors() == 1`):
the sorted storage and `_median`.  An index outside the storage is `none`. -/
def serialMedian (count : Nat) (storage : List (CalculatorValue α))
    (median : CalculatorValue α) :
    Option (List (CalculatorValue α) × CalculatorValue α) :=
  let sorted := sortStorage storage
  if count % 2 ≠ 0 then
    sorted[count / 2]?.map (fun hi => (sorted, median.plusEq hi.get))
  else
    sorted[count / 2]?.bind (fun hi =>
      sorted[count / 2 - 1]?.map (fun lo =>
        (sorted, ((median.plusEq hi.get).plusEq lo.get).divide 2)))

/-- The pivot as every rank holds it after the broadcast: `_median` is zeroed, the first
rank whose size is non-zero adds its `_storage[0]` and broadcasts; when no rank has
values `_median` stays zero. -/
def pivot (median : CalculatorValue α) :
    List (List (CalculatorValue α)) → CalculatorValue α
  | [] => median.zero
  | [] :: rest => pivot median rest
  | (v :: _) :: _ => median.zero.plusEq v.get

/-- The local loop filling `m[0]` (values greater than `_median`) and `m[1]` (values less
than `_median`) on one rank. -/
def tally (median : CalculatorValue α) (storage : List (CalculatorValue α)) : Nat × Nat :=
  storage.foldl
    (fun m val =>
      if median.less_than val.get then (m.1 + 1, m.2)
      else if val.less_than median.get then (m.1, m.2 + 1)
      else m)
    (0, 0)

/-- The local loop "find the next greater than" on one rank, from `num2.max()`. -/
def nextGreater (lim : NumericLimits α) (median : CalculatorValue α)
    (storage : List (CalculatorValue α)) : CalculatorValue α :=
  storage.foldl
    (fun num2 val =>
      if median.less_than val.get && val.less_than num2.get then num2.zero.plusEq val.get
      else num2)
    (CalculatorValue.mk0.setMax lim)

/-- The local loop "find the next less than" on one rank, from `num2.min()`. -/
def nextLess (lim : NumericLimits α) (median : CalculatorValue α)
    (storage : List (CalculatorValue α)) : CalculatorValue α :=
  storage.foldl
    (fun num2 val =>
      if val.less_than median.get && num2.less_than val.get then num2.zero.plusEq val.get
      else num2)
    (CalculatorValue.mk0.setMin lim)

/-- The `while (true)` loop of `Median::finalize`, all ranks in lockstep.  `storages` is
the `_storage` of every rank, `mine` the `_storage` of the calling rank, `median` its
`_median`; `kgt`, `klt` and `count` are equal on all ranks because they only depend on
all-reduced values.  The result is `_storage` and `_median` of the calling rank at the
`break`; `none` when `fuel` iterations did not reach a `break`. -/
def loop (lim : NumericLimits α) (count : Nat) :
    Nat → List (List (CalculatorValue α)) → List (CalculatorValue α) → CalculatorValue α →
    Nat → Nat → Option (List (CalculatorValue α) × CalculatorValue α)
  | 0, _, _, _, _, _ => none
  | fuel + 1, storages, mine, median, kgt, klt =>
    let n := commSumNat (storages.map List.length)
    let median := pivot median storages
    let m0 := commSumNat (storages.map (fun s => (tally median s).1))
    let m1 := commSumNat (storages.map (fun s => (tally median s).2))
    let m2 := n - m0 - m1
    if m0 + m2 ≤ kgt then
      loop lim count fuel
        (storages.map (eraseIf (fun val => !val.less_than median.get)))
        (eraseIf (fun val => !val.less_than median.get) mine)
        median (kgt - (m0 + m2)) klt
    else if m1 + m2 ≤ klt then
      loop lim count fuel
        (storages.map (eraseIf (fun val => !median.less_than val.get)))
        (eraseIf (fun val => !median.less_than val.get) mine)
        median kgt (klt - (m1 + m2))
    else if count % 2 ≠ 0 then
      some (mine, median)
    else
      let num2 : CalculatorValue α :=
        if m0 > kgt then
          (nextGreater lim median mine).commMin (storages.map (nextGreater lim median))
        else if m1 > klt then
          (nextLess lim median mine).commMax (storages.map (nextLess lim median))
        else
          CalculatorValue.mk0.plusEq median.get
      some (mine, (median.plusEq num2.get).divide 2)

/-- Function `Median::finalize`; `group` is the state of every rank entering the
collectives and `group.length` is `n_processors()`. -/
def finalize (lim : NumericLimits α) (fuel : Nat) (group : List (Median α))
    (is_distributed : Bool) (self : Median α) : Option (Median α) :=
  let median := self._median.zero
  let count :=
    if is_distributed then commSumNat (group.map (fun p => p._storage.length))
    else self._storage.length
  if count = 0 then some { self with _median := median }
  else if !is_distributed || group.length = 1 then
    (serialMedian count self._storage median).map
      (fun r => { _storage := r.1, _median := r.2 })
  else
    let kgt := if count % 2 ≠ 0 then count / 2 else count / 2 - 1
    let klt := kgt
    (loop lim count fuel (group.map (fun p => p._storage)) self._storage median kgt klt).map
      (fun r => { _storage := r.1, _median := r.2 })

/-- Function `Median::get`. -/
def get (self : Median α) : α := self._median.get

/-- Function `Calculator::compute` for `Median`: `group` lists the `data` argument of every
rank of the communicator, the calling one included.  `none` when the loop of `finalize`
ran out of `fuel`. -/
def compute (lim : NumericLimits α) (fuel : Nat) (self : Median α) (group : List (List α))
    (data : List α) (is_distributed : Bool) : Option α :=
  ((self.accumulate data).finalize lim fuel (group.map self.accumulate) is_distributed).map
    get

end Median

/-! ## Ratio -/

/-- Data members of class `Ratio`. -/
structure Ratio (α : Type) where
  /-- Member `_min`. -/
  _min : CalculatorValue α
  /-- Member `_max`. -/
  _max : CalculatorValue α

namespace Ratio

variable {α : Type} [LinearOrderedField α]

/-- Function `Ratio::initialize`. -/
def init (lim : NumericLimits α) (self : Ratio α) : Ratio α :=
  { _min := self._min.setMax lim, _max := self._max.setMin lim }

/-- Function `Ratio::update`. -/
def update (self : Ratio α) (val : α) : Ratio α :=
  { _min := self._min.min val, _max := self._max.max val }

/-- Function `Ratio::finalize`: the quotient `_max /= _min.get()` is formed without a test
of the divisor. -/
def finalize (group : List (Ratio α)) (is_distributed : Bool) (self : Ratio α) : Ratio α :=
  let s : Ratio α :=
    if is_distributed then
      { _min := self._min.commMin (group.map (fun p => p._min)),
        _max := self._max.commMax (group.map (fun p => p._max)) }
    else self
  { s with _max := s._max.divEq s._min.get }

/-- Function `Ratio::get`. -/
def get (self : Ratio α) : α := self._max.get

/-- The object after `initialize()` and one `update` per element of `data`. -/
def accumulate (lim : NumericLimits α) (self : Ratio α) (data : List α) : Ratio α :=
  data.foldl update (self.init lim)

/-- Function `Calculator::compute` for `Ratio`. -/
def compute (lim : NumericLimits α) (self : Ratio α) (group : List (List α)) (data : List α)
    (is_distributed : Bool) : α :=
  ((self.accumulate lim data).finalize (group.map (self.accumulate lim)) is_distributed).get

end Ratio

/-! ## L2Norm -/

/-- Data members of class `L2Norm`. -/
structure L2Norm (α : Type) where
  /-- Member `_l2_norm`. -/
  _l2_norm : CalculatorValue α

namespace L2Norm

variable {α : Type} [LinearOrderedField α]

/-- Function `L2Norm::initialize`. -/
def init (self : L2Norm α) : L2Norm α :=
  { _l2_norm := self._l2_norm.zero }

/-- Function `L2Norm::update`. -/
def update (self : L2Norm α) (val : α) : L2Norm α :=
  { _l2_norm := self._l2_norm.addPow val 2 }

/-- Function `L2Norm::finalize`. -/
def finalize (sqrtFn : α → α) (group : List (L2Norm α)) (is_distributed : Bool)
    (self : L2Norm α) : L2Norm α :=
  let s : L2Norm α :=
    if is_distributed then { _l2_norm := self._l2_norm.sum (group.map (fun p => p._l2_norm)) }
    else self
  { _l2_norm := s._l2_norm.sqrt sqrtFn }

/-- Function `L2Norm::get`. -/
def get (self : L2Norm α) : α := self._l2_norm.get

/-- The object after `initialize()` and one `update` per element of `data`. -/
def accumulate (self : L2Norm α) (data : List α) : L2Norm α :=
  data.foldl update self.init

/-- Function `Calculator::compute` for `L2Norm`. -/
def compute (sqrtFn : α → α) (self : L2Norm α) (group : List (List α)) (data : List α)
    (is_distributed : Bool) : α :=
  ((self.accumulate data).finalize sqrtFn (group.map self.accumulate) is_distributed).get

end L2Norm

/-! ## The class hierarchy under `Calculator` and `makeCalculator` -/

/-- How a call ends: with a value, in `mooseError` (a fatal error carrying its message), or
without a defined result (an index outside a vector, a quotient by zero, fuel used up). -/
inductive Result (β : Type) where
  /-- The call returns. -/
  | value (b : β)
  /-- The call ends in `mooseError(message)`. -/
  | mooseError (message : String)
  /-- The call has no defined result. -/
  | undefined

/-- The concrete class of an object behind a `Calculator<InType, OutType> &`, with the data
members of that class. -/
inductive Variant (α : Type) where
  /-- Class `Mean`. -/
  | mean (c : Mean α)
  /-- Class `Min`. -/
  | min (c : Min α)
  /-- Class `Max`. -/
  | max (c : Max α)
  /-- Class `Sum`. -/
  | sum (c : Sum α)
  /-- Class `StdDev`. -/
  | stddev (c : StdDev α)
  /-- Class `StdErr`, whose data members are those of `StdDev`. -/
  | stderr (c : StdDev α)
  /-- Class `Ratio`. -/
  | ratio (c : Ratio α)
  /-- Class `L2Norm`. -/
  | l2norm (c : L2Norm α)
  /-- Class `Median`. -/
  | median (c : Median α)

/-- The tag of a `Variant`: the class without its data members. -/
inductive Statistic where
  | mean | min | max | sum | stddev | stderr | ratio | l2norm | median
deriving DecidableEq

/-- The class of a variant. -/
def Variant.statistic {α : Type} : Variant α → Statistic
  | .mean _ => .mean
  | .min _ => .min
  | .max _ => .max
  | .sum _ => .sum
  | .stddev _ => .stddev
  | .stderr _ => .stderr
  | .ratio _ => .ratio
  | .l2norm _ => .l2norm
  | .median _ => .median

/-- Base class `Calculator<InType, OutType>`: the member `_name` and the object of one of
the nine derived classes. -/
structure Calculator (α : Type) where
  /-- Member `_name`. -/
  _name : String
  /-- The derived-class part of the object. -/
  variant : Variant α

namespace Calculator

variable {α : Type} [LinearOrderedField α]

/-- Virtual call `initialize()`. -/
def init (lim : NumericLimits α) (self : Calculator α) : Calculator α :=
  { self with
    variant :=
      match self.variant with
      | .mean c => .mean c.init
      | .min c => .min (c.init lim)
      | .max c => .max (c.init lim)
      | .sum c => .sum c.init
      | .stddev c => .stddev c.init
      | .stderr c => .stderr c.init
      | .ratio c => .ratio (c.init lim)
      | .l2norm c => .l2norm c.init
      | .median c => .median c.init }

/-- Virtual call `update(val)`. -/
def update (self : Calculator α) (val : α) : Calculator α :=
  { self with
    variant :=
      match self.variant with
      | .mean c => .mean (c.update val)
      | .min c => .min (c.update val)
      | .max c => .max (c.update val)
      | .sum c => .sum (c.update val)
      | .stddev c => .stddev (c.update val)
      | .stderr c => .stderr (c.update val)
      | .ratio c => .ratio (c.update val)
      | .l2norm c => .l2norm (c.update val)
      | .median c => .median (c.update val) }

/-- Virtual call `finalize(is_distributed)`.  `group` lists, by rank, the values every rank
of the communicator has passed to `update` since `initialize` (all ranks hold an object of
the same class); `none` when the loop of `Median::finalize` ran out of `fuel`. -/
def finalize (lim : NumericLimits α) (sqrtFn : α → α) (fuel : Nat) (group : List (List α))
    (is_distributed : Bool) (self : Calculator α) : Option (Calculator α) :=
  let v : Option (Variant α) :=
    match self.variant with
    | .mean c => some (.mean (c.finalize (group.map c.accumulate) is_distributed))
    | .min c => some (.min (c.finalize (group.map (c.accumulate lim)) is_distributed))
    | .max c => some (.max (c.finalize (group.map (c.accumulate lim)) is_distributed))
    | .sum c => some (.sum (c.finalize (group.map c.accumulate) is_distributed))
    | .stddev c =>
      some (.stddev (c.finalize sqrtFn (group.map c.accumulate) is_distributed))
    | .stderr c =>
      some (.stderr (StdErr.finalize sqrtFn (group.map c.accumulate) is_distributed c))
    | .ratio c => some (.ratio (c.finalize (group.map (c.accumulate lim)) is_distributed))
    | .l2norm c =>
      some (.l2norm (c.finalize sqrtFn (group.map c.accumulate) is_distributed))
    | .median c =>
      (c.finalize lim fuel (group.map c.accumulate) is_distributed).map Variant.median
  v.map (fun w => { self with variant := w })

/-- Virtual call `get()`. -/
def get (self : Calculator α) : α :=
  match self.variant with
  | .mean c => c.get
  | .min c => c.get
  | .max c => c.get
  | .sum c => c.get
  | .stddev c => c.get
  | .stderr c => c.get
  | .ratio c => c.get
  | .l2norm c => c.get
  | .median c => c.get

/-- Function `Calculator::compute`, called through the base class: the value returned and
the object as the call leaves it.  `group` lists the `data` argument of every rank. -/
def compute (lim : NumericLimits α) (sqrtFn : α → α) (fuel : Nat) (self : Calculator α)
    (group : List (List α)) (data : List α) (is_distributed : Bool) :
    Option (α × Calculator α) :=
  ((data.foldl update (self.init lim)).finalize lim sqrtFn fuel group is_distributed).map
    (fun c => (c.get, c))

end Calculator

/-- Modelled from the spec: class `MooseEnumItem`, whose header is not among the sources.
An item carries the token it was made from; comparing it with a string is the
"case-insensitive token lookup" of the factory, and writing it to an error message or
converting it to a string gives the token. -/
structure MooseEnumItem where
  /-- The token. -/
  name : String

/-- Modelled from the spec: the letters of a token, in upper case. -/
def MooseEnumItem.upper (s : String) : List Char := s.toList.map Char.toUpper

/-- Modelled from the spec: `item == "token"`, the case-insensitive comparison. -/
def MooseEnumItem.eq (item : MooseEnumItem) (token : String) : Bool :=
  MooseEnumItem.upper item.name == MooseEnumItem.upper token

/-- An object as `libmesh_make_unique<Class<InType, OutType>>(other, item)` builds it:
`_name` is the item, a `CalculatorValue` member is value-initialised, `_storage` is empty.
The counter `_count` has no initialiser in the source; it stands as 0 here and no member
function reads it before `initialize()` has written it. -/
def Calculator.construct {α : Type} [LinearOrderedField α] (s : Statistic)
    (item : MooseEnumItem) : Calculator α :=
  { _name := item.name,
    variant :=
      match s with
      | .mean => .mean { _count := 0, _sum := CalculatorValue.mk0 }
      | .min => .min { _min := CalculatorValue.mk0 }
      | .max => .max { _max := CalculatorValue.mk0 }
      | .sum => .sum { _sum := CalculatorValue.mk0 }
      | .stddev =>
        .stddev { _count := 0, _sum := CalculatorValue.mk0, _sum_of_square := CalculatorValue.mk0 }
      | .stderr =>
        .stderr { _count := 0, _sum := CalculatorValue.mk0, _sum_of_square := CalculatorValue.mk0 }
      | .ratio => .ratio { _min := CalculatorValue.mk0, _max := CalculatorValue.mk0 }
      | .l2norm => .l2norm { _l2_norm := CalculatorValue.mk0 }
      | .median => .median { _storage := [], _median := CalculatorValue.mk0 } }

/-- Function `makeCalculator(item, other)`; the communicator of `other` is the `group`
handed to the calls on the object.  The closing `return nullptr` stands behind
`mooseError`, which does not return. -/
def makeCalculator {α : Type} [LinearOrderedField α] (item : MooseEnumItem) :
    Result (Calculator α) :=
  if item.eq "min" then .value (Calculator.construct .min item)
  else if item.eq "max" then .value (Calculator.construct .max item)
  else if item.eq "sum" then .value (Calculator.construct .sum item)
  else if item.eq "mean" || item.eq "average" then .value (Calculator.construct .mean item)
  else if item.eq "stddev" then .value (Calculator.construct .stddev item)
  else if item.eq "stderr" then .value (Calculator.construct .stderr item)
  else if item.eq "norm2" then .value (Calculator.construct .l2norm item)
  else if item.eq "ratio" then .value (Calculator.construct .ratio item)
  else if item.eq "median" then .value (Calculator.construct .median item)
  else .mooseError ("Failed to create Statistics::Calculator object for " ++ item.name)

/-! ## Bootstrap calculators (`BootstrapCalculators.h`) -/

/-- What the bootstrap code takes from outside the sources, as parameters: the numeric
library, `NormalDistribution`, the generator `MooseRandom` (a state of type `γ`) with
`MooseUtils::resampleAct`, and whether `mooseAssert` is compiled in. -/
structure Library (γ α : Type) where
  /-- Constants `std::numeric_limits<Real>`. -/
  limits : NumericLimits α
  /-- Function `std::sqrt`. -/
  sqrt : α → α
  /-- Function `std::pow(base, exponent)`. -/
  pow : α → α → α
  /-- Function `std::lrint`. -/
  lrint : α → Int
  /-- Function `NormalDistribution::quantile(p, 0, 1)`. -/
  quantile : α → α
  /-- Function `NormalDistribution::cdf(x, 0, 1)`. -/
  cdf : α → α
  /-- A default-constructed `MooseRandom` after `generator.seed(0, seed)`. -/
  seed : Nat → γ
  /-- Call `resampleAct(data, functor, generator, 0, nullptr)`: the values `functor` is
  called with, in call order, and the generator as the call leaves it. -/
  resampleLocal : γ → List α → List α × γ
  /-- Call `resampleAct(data, functor, generator, 0, &comm)` made by all ranks, whose
  generators are in the same state: from the `data` of every rank, the values `functor` is
  called with on every rank, and the generator as the call leaves it on every rank. -/
  resampleDistributed : γ → List (List α) → List (List α) × γ
  /-- Whether `mooseAssert` tests its condition (a build with assertions). -/
  assertsActive : Bool

/-- The derived class of a bootstrap calculator. -/
inductive BootstrapMethod where
  /-- Class `Percentile`. -/
  | percentile
  /-- Class `BiasCorrectedAccelerated`. -/
  | bca
deriving DecidableEq

/-- Class `BootstrapCalculator` with the tag of its derived class, which adds no data
member.  The reference member `_calc` is not a field: the calculator it refers to is an
argument and a result of every call.  `_replicates` and `_seed` are `unsigned int`, taken
below `2^32`. -/
structure BootstrapCalculator (α : Type) where
  /-- The derived class of the object. -/
  method : BootstrapMethod
  /-- Member `_levels`. -/
  _levels : List α
  /-- Member `_replicates`. -/
  _replicates : Nat
  /-- Member `_seed`. -/
  _seed : Nat
  /-- Member `_name`. -/
  _name : String

/-- Modelled from the spec: function `inplaceSort` of `StochasticToolsUtils.h`, a header
that is not among the sources; the replicate values are "sorted ascending before quantile
extraction". -/
def inplaceSort {α : Type} [LinearOrderedField α] (values : List α) : List α :=
  values.insertionSort (fun a b => a ≤ b)

namespace BootstrapCalculator

variable {γ α : Type} [LinearOrderedField α]

/-- Expression `*std::min_element(levels.begin(), levels.end())`; on an empty vector the
iterator dereferenced is `end()`. -/
def minElement : List α → Option α
  | [] => none
  | x :: xs => some (xs.foldl (fun smallest y => if y < smallest then y else smallest) x)

/-- Expression `*std::max_element(levels.begin(), levels.end())`. -/
def maxElement : List α → Option α
  | [] => none
  | x :: xs => some (xs.foldl (fun largest y => if largest < y then y else largest) x)

/-- Constructor `BootstrapCalculator::BootstrapCalculator` reached from the constructor of
the derived class `method`.  A failing `mooseAssert` ends like `mooseError`, with the text
given to the assertion. -/
def construct (L : Library γ α) (method : BootstrapMethod) (name : String)
    (levels : List α) (replicates seed : Nat) : Result (BootstrapCalculator α) :=
  let self : BootstrapCalculator α :=
    { method := method, _levels := levels, _replicates := replicates, _seed := seed,
      _name := name }
  if L.assertsActive then
    match minElement levels, maxElement levels with
    | some lo, some hi =>
      if ¬ lo > 0 then .mooseError "The supplied levels must be greater than zero."
      else if ¬ hi < 1 then .mooseError "The supplied levels must be less than one"
      else .value self
    | _, _ => .undefined
  else .value self

/-- Call `MooseUtils::resampleAct(data, calc_update, generator, 0,
is_distributed ? &this->_communicator : nullptr)` on rank `rank`: the values every rank
passes to `calc_update`, those of the calling rank, and the generator afterwards. -/
def resampleAct (L : Library γ α) (generator : γ) (group : List (List α)) (rank : Nat)
    (data : List α) (is_distributed : Bool) : List (List α) × List α × γ :=
  if is_distributed then
    let r := L.resampleDistributed generator group
    (r.1, r.1.getD rank [], r.2)
  else
    let r := L.resampleLocal generator data
    ([r.1], r.1, r.2)

/-- The loop `for (std::size_t i = 0; i < _replicates; ++i)` of `computeBootstrapEstimates`
with `n` iterations left: the values it stores, in the order of `i`, and `_calc` at the
end. -/
def replicateLoop (L : Library γ α) (fuel : Nat) (group : List (List α)) (rank : Nat)
    (data : List α) (is_distributed : Bool) :
    Nat → γ → Calculator α → Option (List α × Calculator α)
  | 0, _, _calc => some ([], _calc)
  | n + 1, generator, _calc =>
    let _calc := _calc.init L.limits
    let r := resampleAct L generator group rank data is_distributed
    let _calc := r.2.1.foldl Calculator.update _calc
    match _calc.finalize L.limits L.sqrt fuel r.1 is_distributed with
    | none => none
    | some _calc =>
      (replicateLoop L fuel group rank data is_distributed n r.2.2 _calc).map
        (fun rest => (_calc.get :: rest.1, rest.2))

/-- Function `BootstrapCalculator::computeBootstrapEstimates`: the sorted replicate values
and `_calc` as the call leaves it. -/
def computeBootstrapEstimates (L : Library γ α) (fuel : Nat) (self : BootstrapCalculator α)
    (_calc : Calculator α) (group : List (List α)) (rank : Nat) (data : List α)
    (is_distributed : Bool) : Option (List α × Calculator α) :=
  (replicateLoop L fuel group rank data is_distributed self._replicates
    (L.seed self._seed) _calc).map (fun r => (inplaceSort r.1, r.2))

/-- Expression `long unsigned int index = std::lrint(x * (this->_replicates - 1))`: the
subtraction is made in `unsigned int` and the `long` result is converted to
`long unsigned int`. -/
def replicateIndex (L : Library γ α) (self : BootstrapCalculator α) (x : α) : Nat :=
  (L.lrint (x * (((self._replicates + 4294967295) % 4294967296 : Nat) : α))
    % 18446744073709551616).toNat

/-- The statements `output.push_back(values[index])`, one per index; an index outside
`values` leaves no defined result. -/
def collect (values : List α) : List (Option Nat) → Option (List α)
  | [] => some []
  | none :: _ => none
  | some index :: rest =>
    match values[index]? with
    | none => none
    | some v => (collect values rest).map (fun output => v :: output)

end BootstrapCalculator

namespace Percentile

variable {γ α : Type} [LinearOrderedField α]

/-- Function `Percentile::compute` on the rank `rank = processor_id()`. -/
def compute (L : Library γ α) (fuel : Nat) (self : BootstrapCalculator α)
    (_calc : Calculator α) (group : List (List α)) (rank : Nat) (data : List α)
    (is_distributed : Bool) : Result (List α) × Calculator α :=
  match self.computeBootstrapEstimates L fuel _calc group rank data is_distributed with
  | none => (.undefined, _calc)
  | some (values, _calc) =>
    if rank = 0 then
      match BootstrapCalculator.collect values
          (self._levels.map (fun level => some (self.replicateIndex L level))) with
      | some output => (.value output, _calc)
      | none => (.undefined, _calc)
    else (.value [], _calc)

end Percentile

namespace BiasCorrectedAccelerated

variable {γ α : Type} [LinearOrderedField α]

/-- The loop of `acceleration` filling `theta_i`: `_calc.compute` on `data` without its
element `i`, for the indices listed. -/
def jackknife (L : Library γ α) (fuel : Nat) (group : List (List α)) (data : List α)
    (is_distributed : Bool) : List Nat → Calculator α → Option (List α × Calculator α)
  | [], _calc => some ([], _calc)
  | i :: rest, _calc =>
    match _calc.compute L.limits L.sqrt fuel (group.map (fun d => d.eraseIdx i))
        (data.eraseIdx i) is_distributed with
    | none => none
    | some (theta, _calc) =>
      (jackknife L fuel group data is_distributed rest _calc).map
        (fun r => (theta :: r.1, r.2))

/-- Function `BiasCorrectedAccelerated::acceleration`, called with a non-empty `data`.  The
quotient returned has no value in exact arithmetic when its divisor is zero. -/
def acceleration (L : Library γ α) (fuel : Nat) (_calc : Calculator α)
    (group : List (List α)) (data : List α) (is_distributed : Bool) :
    Result α × Calculator α :=
  let count : α := (data.length : α)
  match jackknife L fuel group data is_distributed (List.range data.length) _calc with
  | none => (.undefined, _calc)
  | some (theta_i, _calc) =>
    let theta_dot := theta_i.foldl (fun s t => s + t) 0 / count
    let numerator := theta_i.foldl (fun s jk => s + L.pow (theta_dot - jk) 3) 0
    let denomenator := theta_i.foldl (fun s jk => s + L.pow (theta_dot - jk) 2) 0
    if L.assertsActive && decide (denomenator = 0) then
      (.mooseError "The acceleration denomenator must not be zero.", _calc)
    else if 6 * L.pow denomenator (3 / 2) = 0 then (.undefined, _calc)
    else (.value (numerator / (6 * L.pow denomenator (3 / 2))), _calc)

/-- The index computed for one `level` in the last loop of `compute`; a zero divisor in `x`
leaves no value in exact arithmetic. -/
def levelIndex (L : Library γ α) (self : BootstrapCalculator α) (bias acc level : α) :
    Option Nat :=
  let z := L.quantile level
  if 1 - acc * (bias + z) = 0 then none
  else
    let x := bias + (bias + (bias + z) / (1 - acc * (bias + z)))
    let alpha := L.cdf x
    some (self.replicateIndex L alpha)

/-- Function `BiasCorrectedAccelerated<InType, Real>::compute`.  With `_replicates` zero
the quotient `count / _replicates` is 0/0, which has no value in exact arithmetic. -/
def compute (L : Library γ α) (fuel : Nat) (self : BootstrapCalculator α)
    (_calc : Calculator α) (group : List (List α)) (rank : Nat) (data : List α)
    (is_distributed : Bool) : Result (List α) × Calculator α :=
  if is_distributed then
    (.mooseError ("Due to the computational demands, the BiasCorrectedAccelerated does not "
      ++ "work with distributed data."), _calc)
  else
    match self.computeBootstrapEstimates L fuel _calc group rank data is_distributed with
    | none => (.undefined, _calc)
    | some (values, _calc) =>
      match _calc.compute L.limits L.sqrt fuel group data is_distributed with
      | none => (.undefined, _calc)
      | some (value, _calc) =>
        let count : α := ((values.countP (fun v => decide (v < value)) : Nat) : α)
        if self._replicates = 0 then (.undefined, _calc)
        else
          let bias := L.quantile (count / (self._replicates : α))
          let acc : Result α × Calculator α :=
            if data.isEmpty then (.value 0, _calc)
            else acceleration L fuel _calc group data is_distributed
          match acc with
          | (.mooseError message, _calc) => (.mooseError message, _calc)
          | (.undefined, _calc) => (.undefined, _calc)
          | (.value acc, _calc) =>
            match BootstrapCalculator.collect values
                (self._levels.map (levelIndex L self bias acc)) with
            | some output => (.value output, _calc)
            | none => (.undefined, _calc)

end BiasCorrectedAccelerated

/-- Virtual call `compute(data, is_distributed)` on a `BootstrapCalculator &`. -/
def BootstrapCalculator.compute {γ α : Type} [LinearOrderedField α] (L : Library γ α)
    (fuel : Nat) (self : BootstrapCalculator α) (_calc : Calculator α)
    (group : List (List α)) (rank : Nat) (data : List α) (is_distributed : Bool) :
    Result (List α) × Calculator α :=
  match self.method with
  | .percentile => Percentile.compute L fuel self _calc group rank data is_distributed
  | .bca => BiasCorrectedAccelerated.compute L fuel self _calc group rank data is_distributed

/-- Modelled from the spec: class `MooseEnum`, whose header is not among the sources: it
holds the selected token, compares with a string like `MooseEnumItem`, and is written to
an error message as that token. -/
structure MooseEnum where
  /-- The selected item. -/
  current : MooseEnumItem

/-- Function `makeBootstrapCalculator(item, other, levels, replicates, seed, _calc)`; `ptr`
stays null unless one of the two tokens matches. -/
def makeBootstrapCalculator {γ α : Type} [LinearOrderedField α] (L : Library γ α)
    (item : MooseEnum) (levels : List α) (replicates seed : Nat) :
    Result (BootstrapCalculator α) :=
  let ptr : Result (Option (BootstrapCalculator α)) :=
    if item.current.eq "percentile" then
      match BootstrapCalculator.construct L .percentile item.current.name levels replicates
          seed with
      | .value p => .value (some p)
      | .mooseError message => .mooseError message
      | .undefined => .undefined
    else if item.current.eq "bca" then
      match BootstrapCalculator.construct L .bca item.current.name levels replicates seed with
      | .value p => .value (some p)
      | .mooseError message => .mooseError message
      | .undefined => .undefined
    else .value none
  match ptr with
  | .value (some p) => .value p
  | .value none =>
    .mooseError
      ("Failed to create Statistics::BootstrapCalculator object for " ++ item.current.name)
  | .mooseError message => .mooseError message
  | .undefined => .undefined

/-! ## The replicates of a bootstrap, one stand-alone run of the calculator each -/

namespace BootstrapCalculator

variable {γ α : Type} [LinearOrderedField α]

/-- The generator at the head of iteration `i` of the loop of `computeBootstrapEstimates`:
seeded from `_seed`, then passed through one `resampleAct` per earlier iteration. -/
def generatorAt (L : Library γ α) (self : BootstrapCalculator α) (group : List (List α))
    (rank : Nat) (data : List α) (is_distributed : Bool) : Nat → γ
  | 0 => L.seed self._seed
  | i + 1 =>
    (resampleAct L (generatorAt L self group rank data is_distributed i) group rank data
      is_distributed).2.2

/-- The resample number `i`: the values every rank, and the calling rank, hand to the
wrapped calculator in iteration `i`. -/
def resampleAt (L : Library γ α) (self : BootstrapCalculator α) (group : List (List α))
    (rank : Nat) (data : List α) (is_distributed : Bool) (i : Nat) :
    List (List α) × List α :=
  let r := resampleAct L (generatorAt L self group rank data is_distributed i) group rank data
    is_distributed
  (r.1, r.2.1)

/-- The replicate number `i` as the spec words it: the wrapped calculator run once
(initialize, update on each resampled element, finalize, get) on resample `i`, starting
from the object `_calc` as it is before the bootstrap. -/
def replicateAt (L : Library γ α) (fuel : Nat) (self : BootstrapCalculator α)
    (_calc : Calculator α) (group : List (List α)) (rank : Nat) (data : List α)
    (is_distributed : Bool) (i : Nat) : Option α :=
  (_calc.compute L.limits L.sqrt fuel
    (resampleAt L self group rank data is_distributed i).1
    (resampleAt L self group rank data is_distributed i).2 is_distributed).map Prod.fst

end BootstrapCalculator

/-! ## One pass through the loop of `Median::finalize` -/

/-- How one pass through the body of the `while (true)` loop of `Median::finalize` ends. -/
inductive LoopStep (α : Type) where
  /-- The end of the body is reached and the loop goes on: `_storage` of every rank,
  `_storage` and `_median` of the calling rank, `kgt` and `klt`. -/
  | next (storages : List (List (CalculatorValue α))) (mine : List (CalculatorValue α))
      (median : CalculatorValue α) (kgt klt : Nat)
  /-- The pass ends in `break`: `_storage` and `_median` of the calling rank. -/
  | done (mine : List (CalculatorValue α)) (median : CalculatorValue α)

/-- The body of the `while (true)` loop of `Median::finalize`, the statements of
`Median.loop` for a single pass. -/
def Median.iteration {α : Type} [LinearOrderedField α] (lim : NumericLimits α) (count : Nat)
    (storages : List (List (CalculatorValue α))) (mine : List (CalculatorValue α))
    (median : CalculatorValue α) (kgt klt : Nat) : LoopStep α :=
  let n := commSumNat (storages.map List.length)
  let median := Median.pivot median storages
  let m0 := commSumNat (storages.map (fun s => (Median.tally median s).1))
  let m1 := commSumNat (storages.map (fun s => (Median.tally median s).2))
  let m2 := n - m0 - m1
  if m0 + m2 ≤ kgt then
    .next (storages.map (Median.eraseIf (fun val => !val.less_than median.get)))
      (Median.eraseIf (fun val => !val.less_than median.get) mine)
      median (kgt - (m0 + m2)) klt
  else if m1 + m2 ≤ klt then
    .next (storages.map (Median.eraseIf (fun val => !median.less_than val.get)))
      (Median.eraseIf (fun val => !median.less_than val.get) mine)
      median kgt (klt - (m1 + m2))
  else if count % 2 ≠ 0 then
    .done mine median
  else
    let num2 : CalculatorValue α :=
      if m0 > kgt then
        (Median.nextGreater lim median mine).commMin
          (storages.map (Median.nextGreater lim median))
      else if m1 > klt then
        (Median.nextLess lim median mine).commMax (storages.map (Median.nextLess lim median))
      else
        CalculatorValue.mk0.plusEq median.get
    .done mine ((median.plusEq num2.get).divide 2)

/-- Function `compute` of the primary template `BiasCorrectedAccelerated<InType, OutType>`,
the class instantiated for every `OutType` other than `Real`: nothing but `mooseError`.
`outType` is the string `MooseUtils::prettyCppType<OutType>()`, whose header is not among
the sources; `β` is the type of the output values and `σ`, `δ` those of the wrapped
calculator and of the data. -/
def BiasCorrectedAccelerated.computePlaceholder {β σ δ : Type} (outType : String)
    (_calc : σ) (_data : δ) (_is_distributed : Bool) : Result (List β) × σ :=
  (.mooseError ("Cannot compute bias corrected accelerated statistics with calculator "
    ++ "output value type " ++ outType ++ "."), _calc)

/-- The statements of `BiasCorrectedAccelerated<InType, Real>::compute` that give `bias`
from the sorted estimates `values` and the statistic `value` of the data: `count` is
`std::count_if` with the test `v < value`, held as a `Real`, and `bias` is
`NormalDistribution::quantile(count / _replicates, 0, 1)`.  With `_replicates` zero the
quotient is 0/0, which has no value in exact arithmetic. -/
def BiasCorrectedAccelerated.bias {γ α : Type} [LinearOrderedField α] (L : Library γ α)
    (self : BootstrapCalculator α) (values : List α) (value : α) : Option α :=
  let count : α := ((values.countP (fun v => decide (v < value)) : Nat) : α)
  if self._replicates = 0 then none
  else some (L.quantile (count / (self._replicates : α)))

/-- The template argument `OutType` of the bootstrap classes, as far as the choice of the
class template goes: `BiasCorrectedAccelerated` has a partial specialisation for `Real`; for
any other type the primary template is instantiated, and the type is known here by the
string `MooseUtils::prettyCppType<OutType>()` gives for it. -/
inductive OutType where
  /-- The type `Real`. -/
  | real
  /-- A type other than `Real`, with its pretty name. -/
  | other (pretty : String)

/-- The type `Calculator<InType, OutType>` of the wrapped calculator: the embedded
`Calculator` for `Real`, a type `σ` left open for another out-type. -/
def OutType.calculator (α σ : Type) : OutType → Type
  | .real => Calculator α
  | .other _ => σ

/-- The type `InType` of the data: a vector of `Real` with the out-type `Real`, a type `δ`
left open for another out-type. -/
def OutType.data (α δ : Type) : OutType → Type
  | .real => List α
  | .other _ => δ

/-- The type `OutType` of the values returned. -/
def OutType.value (α β : Type) : OutType → Type
  | .real => α
  | .other _ => β

/-- Virtual call `compute(data, is_distributed)` on a `BootstrapCalculator<InType, OutType> &`
for the object `self` built with the template argument `outType`.  With `Real` the
overrides are `Percentile<InType, Real>::compute` and the partial specialisation
`BiasCorrectedAccelerated<InType, Real>::compute`.  With another type the override of class
`BiasCorrectedAccelerated` is that of the primary template; `percentile` stands for
`Percentile<InType, OutType>::compute`, whose wrapped calculator for such a type is not
embedded. -/
def BootstrapCalculator.computeFor {γ α β σ δ : Type} [LinearOrderedField α]
    (L : Library γ α) (fuel : Nat) (group : List (List α)) (rank : Nat)
    (percentile : BootstrapCalculator α → σ → δ → Bool → Result (List β) × σ) :
    (outType : OutType) → BootstrapCalculator α → outType.calculator α σ →
      outType.data α δ → Bool →
      Result (List (outType.value α β)) × outType.calculator α σ
  | .real, self, _calc, data, is_distributed =>
    (BootstrapCalculator.compute L fuel self _calc group rank data is_distributed :
      Result (List α) × Calculator α)
  | .other pretty, self, _calc, data, is_distributed =>
    match self.method with
    | .percentile => percentile self _calc data is_distributed
    | .bca => BiasCorrectedAccelerated.computePlaceholder pretty _calc data is_distributed

/-- The `while (true)` loop of `Median::finalize` unrolled: the variables at the head of
pass number `k` (counted from 0) of a loop entered with the values given, that is after `k`
passes of `Median.iteration` that went on; `none` when the loop reached its `break` in an
earlier pass. -/
def Median.passes {α : Type} [LinearOrderedField α] (lim : NumericLimits α) (count : Nat) :
    Nat → List (List (CalculatorValue α)) → List (CalculatorValue α) → CalculatorValue α →
    Nat → Nat →
    Option (List (List (CalculatorValue α)) × List (CalculatorValue α) × CalculatorValue α
      × Nat × Nat)
  | 0, storages, mine, median, kgt, klt => some (storages, mine, median, kgt, klt)
  | k + 1, storages, mine, median, kgt, klt =>
    match Median.iteration lim count storages mine median kgt klt with
    | .next storages1 mine1 median1 kgt1 klt1 =>
      Median.passes lim count k storages1 mine1 median1 kgt1 klt1
    | .done _ _ => none

/-! ## Binary64 arithmetic on the path of `acceleration` with `Mean` wrapped -/

/-- The integer nearest to `y`, the even one of the two when `y` lies halfway between two
integers: the rounding of IEEE-754 arithmetic in its default mode. -/
def roundHalfEven (y : ℚ) : Int :=
  if y - (⌊y⌋ : ℚ) < 1 / 2 then ⌊y⌋
  else if 1 / 2 < y - (⌊y⌋ : ℚ) then ⌊y⌋ + 1
  else if ⌊y⌋ % 2 = 0 then ⌊y⌋ else ⌊y⌋ + 1

/-- The value of type `Real` (an IEEE-754 binary64 `double`) nearest to `x`, the result of
one arithmetic operation whose exact result is `x`: around `x` the binary64 values are the
multiples of `2^e` with `e = max(⌊log2 |x|⌋, -1022) - 52`.  Results of magnitude `2^1024`
or more, which round to infinity, are outside this model. -/
def binary64 (x : ℚ) : ℚ :=
  if x = 0 then 0
  else (roundHalfEven (x / 2 ^ (max (Int.log 2 |x|) (-1022) - 52)) : ℚ)
    * 2 ^ (max (Int.log 2 |x|) (-1022) - 52)

namespace Binary64

/-- Function `Calculator::compute` for `Mean<std::vector<Real>, Real>` in serial mode, in
binary64 arithmetic: `initialize()`, then `_count++; _sum.add(val)` for each element, then
`finalize(false)`, which divides `_sum` by `_count` when `_count > 0` and zeroes it
otherwise, and `get()`.  Every sum and the quotient are rounded. -/
def meanCompute (data : List ℚ) : ℚ :=
  let _count := data.length
  let _sum := data.foldl (fun sum val => binary64 (sum + val)) 0
  if _count > 0 then binary64 (_sum / (_count : ℚ)) else 0

/-- The loop of `acceleration` filling `theta_i`, with `Mean` wrapped: `_calc.compute` on
`data` without its element `i`. -/
def jackknife (data : List ℚ) : List ℚ :=
  (List.range data.length).map (fun i => meanCompute (data.eraseIdx i))

/-- The statements `Real theta_dot = std::accumulate(theta_i.begin(), theta_i.end(), 0.);
theta_dot /= count;` of `acceleration`, every sum and the quotient rounded. -/
def thetaDot (theta_i : List ℚ) (count : Nat) : ℚ :=
  binary64 (theta_i.foldl (fun sum t => binary64 (sum + t)) 0 / (count : ℚ))

/-- The variable `denomenator` of `acceleration` after its loop
`denomenator += std::pow(theta_dot - jk, 2)`, the difference and every sum rounded; `pow`
is `std::pow`, which returns a `double`. -/
def denomenator (pow : ℚ → ℚ → ℚ) (theta_i : List ℚ) (count : Nat) : ℚ :=
  theta_i.foldl
    (fun sum jk => binary64 (sum + pow (binary64 (thetaDot theta_i count - jk)) 2)) 0

end Binary64

/-! ## Properties -/

section
variable {α : Type} [LinearOrderedField α]

theorem mean_foldl_update_count (D : List α) (s : Mean α) :
    (D.foldl Mean.update s)._count = s._count + D.length := by
  induction D generalizing s with
  | nil => simp
  | cons x xs ih => simp [ih, Mean.update]; omega

theorem mean_foldl_update_sum (D : List α) (s : Mean α) :
    (D.foldl Mean.update s)._sum._value = s._sum._value + D.sum := by
  induction D generalizing s with
  | nil => simp
  | cons x xs ih => simp [ih, Mean.update, CalculatorValue.add, add_assoc]

theorem mean_accumulate_count (self : Mean α) (D : List α) :
    (self.accumulate D)._count = D.length := by
  simp [Mean.accumulate, mean_foldl_update_count, Mean.init]

theorem mean_accumulate_sum (self : Mean α) (D : List α) :
    (self.accumulate D)._sum._value = D.sum := by
  simp [Mean.accumulate, mean_foldl_update_sum, Mean.init, CalculatorValue.zero]

theorem sum_foldl_update_sum (D : List α) (s : Sum α) :
    (D.foldl Sum.update s)._sum._value = s._sum._value + D.sum := by
  induction D generalizing s with
  | nil => simp
  | cons x xs ih => simp [ih, Sum.update, CalculatorValue.add, add_assoc]

theorem sum_accumulate_sum (self : Sum α) (D : List α) :
    (self.accumulate D)._sum._value = D.sum := by
  simp [Sum.accumulate, sum_foldl_update_sum, Sum.init, CalculatorValue.zero]

theorem sum_compute_serial (self : Sum α) (group : List (List α)) (D : List α) :
    Sum.compute self group D false = D.sum := by
  simp [Sum.compute, Sum.finalize, Sum.get, CalculatorValue.get, sum_accumulate_sum]

theorem mean_compute_serial (self : Mean α) (group : List (List α)) (D : List α) :
    Mean.compute self group D false = if 0 < D.length then D.sum / (D.length : α) else 0 := by
  by_cases h : 0 < D.length
  · have h' : D ≠ [] := by intro e; simp [e] at h
    simp [Mean.compute, Mean.finalize, Mean.get, CalculatorValue.get, mean_accumulate_sum,
      mean_accumulate_count, CalculatorValue.divide, h, h']
  · have h' : D = [] := by simpa using h
    subst h'
    simp [Mean.compute, Mean.finalize, Mean.get, CalculatorValue.get, Mean.accumulate,
      Mean.init, CalculatorValue.zero]

/-- C1: for every non-empty dataset `D`, `Mean.compute(D, false)` equals
`Sum.compute(D, false)` divided by the number of elements of `D`. -/
theorem mean_eq_sum_div_count (selfM : Mean α) (selfS : Sum α) (groupM groupS : List (List α))
    (D : List α) (hD : D ≠ []) :
    Mean.compute selfM groupM D false = Sum.compute selfS groupS D false / (D.length : α) := by
  have h : 0 < D.length := List.length_pos.mpr hD
  rw [mean_compute_serial, sum_compute_serial, if_pos h]

theorem mean_eq_sum_div_count_witness :
    ([1, 2, 6] : List ℚ) ≠ [] ∧
      Mean.compute ⟨5, ⟨7⟩⟩ [] ([1, 2, 6] : List ℚ) false
        = Sum.compute ⟨⟨4⟩⟩ [] ([1, 2, 6] : List ℚ) false / (([1, 2, 6] : List ℚ).length : ℚ) :=
  ⟨by decide, mean_eq_sum_div_count _ _ _ _ _ (by decide)⟩

theorem mean_compute_distributed (self : Mean α) (group : List (List α)) (D : List α) :
    Mean.compute self group D true =
      if 0 < (group.map List.length).sum then
        (group.map List.sum).sum / (((group.map List.length).sum : Nat) : α)
      else 0 := by
  have hc : (List.map (fun p => p._count) (List.map self.accumulate group))
      = group.map List.length := by
    simp [List.map_map, Function.comp_def, mean_accumulate_count]
  have hs : (List.map (fun v => v._value) (List.map (fun p => p._sum)
      (List.map self.accumulate group))) = group.map List.sum := by
    simp [List.map_map, Function.comp_def, mean_accumulate_sum]
  simp only [Mean.compute, Mean.finalize, Mean.get, CalculatorValue.get, commSumNat,
    CalculatorValue.sum, hc, hs, if_true]
  split <;> simp [CalculatorValue.divide, CalculatorValue.zero]

/-- C7: `Mean.compute` on an empty dataset returns zero, and in distributed mode it returns
zero on every worker (whatever its local `D`) when the counts of all workers sum to zero. -/
theorem mean_empty_is_zero (self : Mean α) (group : List (List α)) (D : List α) :
    Mean.compute self group [] false = 0 ∧
      ((group.map List.length).sum = 0 → Mean.compute self group D true = 0) := by
  refine ⟨by simp [mean_compute_serial], fun h => ?_⟩
  rw [mean_compute_distributed, if_neg (by omega)]

theorem mean_empty_is_zero_witness :
    Mean.compute ⟨5, ⟨7⟩⟩ [[], []] ([] : List ℚ) false = 0 ∧
      Mean.compute ⟨5, ⟨7⟩⟩ [[], []] ([] : List ℚ) true = 0 :=
  ⟨(mean_empty_is_zero _ _ []).1, (mean_empty_is_zero _ [[], []] []).2 (by decide)⟩
end


section
variable {α : Type} [LinearOrderedField α]

theorem min_foldl_update (D : List α) (s : Min α) :
    (D.foldl Min.update s)._min._value = D.foldl min s._min._value := by
  induction D generalizing s with
  | nil => simp
  | cons x xs ih =>
    simp only [List.foldl_cons, ih, Min.update, CalculatorValue.min]
    congr 1
    rcases lt_or_le s._min._value x with h | h
    · rw [if_pos h, min_eq_left h.le]
    · rw [if_neg (not_lt.mpr h), min_eq_right h]

theorem max_foldl_update (D : List α) (s : Max α) :
    (D.foldl Max.update s)._max._value = D.foldl max s._max._value := by
  induction D generalizing s with
  | nil => simp
  | cons x xs ih =>
    simp only [List.foldl_cons, ih, Max.update, CalculatorValue.max]
    congr 1
    rcases lt_or_le x s._max._value with h | h
    · rw [if_pos h, max_eq_left h.le]
    · rw [if_neg (not_lt.mpr h), max_eq_right h]

theorem min_compute_serial (lim : NumericLimits α) (self : Min α) (group : List (List α))
    (D : List α) : Min.compute lim self group D false = D.foldl min lim.max := by
  simp [Min.compute, Min.finalize, Min.get, CalculatorValue.get, Min.accumulate,
    min_foldl_update, Min.init, CalculatorValue.setMax]

theorem max_compute_serial (lim : NumericLimits α) (self : Max α) (group : List (List α))
    (D : List α) : Max.compute lim self group D false = D.foldl max lim.min := by
  simp [Max.compute, Max.finalize, Max.get, CalculatorValue.get, Max.accumulate,
    max_foldl_update, Max.init, CalculatorValue.setMin]

theorem foldl_min_le (D : List α) (a : α) :
    D.foldl min a ≤ a ∧ ∀ x ∈ D, D.foldl min a ≤ x := by
  induction D generalizing a with
  | nil => simp
  | cons y ys ih =>
    simp only [List.foldl_cons, List.mem_cons, forall_eq_or_imp]
    have h := ih (min a y)
    exact ⟨h.1.trans (min_le_left _ _), h.1.trans (min_le_right _ _), h.2⟩

theorem foldl_min_mem (D : List α) (a : α) :
    D.foldl min a = a ∨ D.foldl min a ∈ D := by
  induction D generalizing a with
  | nil => simp
  | cons y ys ih =>
    simp only [List.foldl_cons, List.mem_cons]
    rcases ih (min a y) with h | h
    · rcases min_choice a y with h' | h'
      · left; rw [h, h']
      · right; left; rw [h, h']
    · right; right; exact h

/-- C3: for every non-empty dataset `D` of representable values (none above
`std::numeric_limits<OutType>::max()`), `Min.compute(D, false)` is an element of `D` that is
less than or equal to every element of `D`, that is the smallest element. -/
theorem min_compute_is_smallest (lim : NumericLimits α) (self : Min α)
    (group : List (List α)) (D : List α) (hD : D ≠ []) (hlim : ∀ x ∈ D, x ≤ lim.max) :
    Min.compute lim self group D false ∈ D ∧
      ∀ x ∈ D, Min.compute lim self group D false ≤ x := by
  rw [min_compute_serial]
  refine ⟨?_, (foldl_min_le D lim.max).2⟩
  rcases foldl_min_mem D lim.max with h | h
  · obtain ⟨y, hy⟩ := List.exists_mem_of_ne_nil D hD
    have h1 := (foldl_min_le D lim.max).2 y hy
    have h2 := hlim y hy
    have h3 : y ≤ D.foldl min lim.max := by rw [h]; exact h2
    have h4 : y = D.foldl min lim.max := le_antisymm h3 h1
    rw [← h4]; exact hy
  · exact h

end

theorem min_compute_is_smallest_witness :
    (([-3, 5, -8] : List ℚ) ≠ [] ∧ ∀ x ∈ ([-3, 5, -8] : List ℚ), x ≤ doubleLimits.max) ∧
      (Min.compute doubleLimits ⟨⟨7⟩⟩ [] ([-3, 5, -8] : List ℚ) false ∈ ([-3, 5, -8] : List ℚ) ∧
        ∀ x ∈ ([-3, 5, -8] : List ℚ),
          Min.compute doubleLimits ⟨⟨7⟩⟩ [] ([-3, 5, -8] : List ℚ) false ≤ x) :=
  have h : ∀ x ∈ ([-3, 5, -8] : List ℚ), x ≤ doubleLimits.max := by
    simp [doubleLimits]; norm_num
  ⟨⟨by decide, h⟩, min_compute_is_smallest _ _ _ _ (by decide) h⟩

/-- C2: on the all-negative dataset `{-1}` of `Real` values `Max.compute` returns
`std::numeric_limits<double>::min() = 2^-1022`, a value that is not in the dataset, and not
the largest element `-1`. -/
theorem max_compute_negative_dataset (self : Max ℚ) (group : List (List ℚ)) :
    Max.compute doubleLimits self group [-1] false = 1 / 2 ^ 1022 ∧
      Max.compute doubleLimits self group [-1] false ∉ ([-1] : List ℚ) := by
  rw [max_compute_serial]
  simp [doubleLimits]
  constructor <;> norm_num


section
variable {α : Type} [LinearOrderedField α]

theorem stddev_foldl_update (D : List α) (s : StdDev α) :
    (D.foldl StdDev.update s)._count = s._count + D.length ∧
    (D.foldl StdDev.update s)._sum._value = s._sum._value + D.sum ∧
    (D.foldl StdDev.update s)._sum_of_square._value
      = s._sum_of_square._value + (D.map (fun x => x ^ 2)).sum := by
  induction D generalizing s with
  | nil => simp
  | cons x xs ih =>
    obtain ⟨h1, h2, h3⟩ := ih (s.update x)
    simp only [List.foldl_cons, h1, h2, h3, List.length_cons, List.sum_cons, List.map_cons]
    refine ⟨?_, ?_, ?_⟩
    · simp [StdDev.update]; omega
    · simp [StdDev.update, CalculatorValue.add, add_assoc]
    · have : x ^ (2 : ℤ) = x ^ 2 := zpow_ofNat x 2
      simp [StdDev.update, CalculatorValue.addPow, add_assoc, this]

theorem stddev_accumulate (self : StdDev α) (D : List α) :
    (self.accumulate D)._count = D.length ∧
    (self.accumulate D)._sum._value = D.sum ∧
    (self.accumulate D)._sum_of_square._value = (D.map (fun x => x ^ 2)).sum := by
  obtain ⟨h1, h2, h3⟩ := stddev_foldl_update D self.init
  simp only [StdDev.accumulate, h1, h2, h3]
  simp [StdDev.init, CalculatorValue.zero]

/-- Serial `StdDev.compute`: zero for at most one element, otherwise `sqrt(sqrt(v^2))` with
`v = (Q - S^2 / n) / (n - 1)` formed from the sum `S` and the sum of squares `Q`. -/
theorem stddev_compute_serial (sqrtFn : α → α) (self : StdDev α) (group : List (List α))
    (D : List α) :
    StdDev.compute sqrtFn self group D false =
      if D.length ≤ 1 then 0
      else sqrtFn (sqrtFn
        ((((D.map (fun x => x ^ 2)).sum - D.sum ^ 2 / (D.length : α))
          / ((D.length - 1 : Nat) : α)) ^ 2)) := by
  obtain ⟨h1, h2, h3⟩ := stddev_accumulate self D
  have e2 : ∀ x : α, x ^ (2 : ℤ) = x ^ 2 := fun x => zpow_ofNat x 2
  simp only [StdDev.compute, StdDev.finalize, StdDev.reduce, StdDev.get, CalculatorValue.get,
    h1, Bool.false_eq_true, if_false]
  split
  · simp [CalculatorValue.zero]
  · simp [CalculatorValue.sqrt, CalculatorValue.pow, CalculatorValue.divide,
      CalculatorValue.minusEq, CalculatorValue.get, h2, h3, e2]

theorem stderr_compute_serial (sqrtFn : α → α) (self : StdDev α) (group : List (List α))
    (D : List α) :
    StdErr.compute sqrtFn self group D false =
      if D.length ≤ 1 then 0
      else sqrtFn
        ((((D.map (fun x => x ^ 2)).sum - D.sum ^ 2 / (D.length : α))
          / ((D.length - 1 : Nat) : α)) / (D.length : α)) := by
  obtain ⟨h1, h2, h3⟩ := stddev_accumulate self D
  have e2 : ∀ x : α, x ^ (2 : ℤ) = x ^ 2 := fun x => zpow_ofNat x 2
  simp only [StdErr.compute, StdErr.finalize, StdDev.reduce, StdDev.get, CalculatorValue.get,
    h1, Bool.false_eq_true, if_false]
  split
  · simp [CalculatorValue.zero]
  · simp [CalculatorValue.sqrt, CalculatorValue.pow, CalculatorValue.divide,
      CalculatorValue.minusEq, CalculatorValue.get, h2, h3, e2]

theorem stddev_reduce_count (self : StdDev α) (group : List (List α)) (s : StdDev α) :
    (StdDev.reduce (group.map self.accumulate) true s)._count = (group.map List.length).sum := by
  have hc : (List.map (fun p => p._count) (List.map self.accumulate group))
      = group.map List.length := by
    simp [List.map_map, Function.comp_def, (stddev_accumulate self _).1]
  simp [StdDev.reduce, commSumNat, hc]

/-- C6: for a dataset with at most one element `StdDev.compute(D, false)` and
`StdErr.compute(D, false)` are zero, and in distributed mode both are zero on every worker
when the counts of all workers sum to at most one. -/
theorem stddev_stderr_zero_of_count_le_one (sqrtFn : α → α) (self : StdDev α)
    (group : List (List α)) (D : List α) :
    (D.length ≤ 1 → StdDev.compute sqrtFn self group D false = 0 ∧
        StdErr.compute sqrtFn self group D false = 0) ∧
    ((group.map List.length).sum ≤ 1 → StdDev.compute sqrtFn self group D true = 0 ∧
        StdErr.compute sqrtFn self group D true = 0) := by
  constructor
  · intro h
    rw [stddev_compute_serial, stderr_compute_serial, if_pos h, if_pos h]
    exact ⟨rfl, rfl⟩
  · intro h
    have hc := stddev_reduce_count self group (self.accumulate D)
    constructor
    · simp only [StdDev.compute, StdDev.finalize, hc, if_pos h]
      simp [StdDev.get, CalculatorValue.get, CalculatorValue.zero]
    · simp only [StdErr.compute, StdErr.finalize, hc, if_pos h]
      simp [StdDev.get, CalculatorValue.get, CalculatorValue.zero]

theorem stddev_stderr_zero_of_count_le_one_witness :
    (StdDev.compute (fun x : ℚ => x) ⟨3, ⟨7⟩, ⟨1⟩⟩ [[], [5]] [5] false = 0 ∧
        StdErr.compute (fun x : ℚ => x) ⟨3, ⟨7⟩, ⟨1⟩⟩ [[], [5]] [5] false = 0) ∧
    (StdDev.compute (fun x : ℚ => x) ⟨3, ⟨7⟩, ⟨1⟩⟩ [[], [5]] [5] true = 0 ∧
        StdErr.compute (fun x : ℚ => x) ⟨3, ⟨7⟩, ⟨1⟩⟩ [[], [5]] [5] true = 0) :=
  ⟨(stddev_stderr_zero_of_count_le_one _ _ _ _).1 (by decide),
   (stddev_stderr_zero_of_count_le_one _ _ _ _).2 (by decide)⟩

theorem list_sum_sq_le (D : List α) :
    D.sum ^ 2 ≤ (D.length : α) * (D.map (fun x => x ^ 2)).sum := by
  induction D with
  | nil => simp
  | cons x xs ih =>
    simp only [List.sum_cons, List.length_cons, List.map_cons, Nat.cast_add, Nat.cast_one]
    rcases Nat.eq_zero_or_pos xs.length with h0 | hpos
    · have hxs : xs = [] := List.length_eq_zero.mp h0
      subst hxs
      simp
    · have hn : (0 : α) < (xs.length : α) := Nat.cast_pos.mpr hpos
      have key : (xs.length : α) * (2 * x * xs.sum)
          ≤ (xs.length : α) * ((xs.length : α) * x ^ 2 + (xs.map (fun x => x ^ 2)).sum) := by
        nlinarith [sq_nonneg ((xs.length : α) * x - xs.sum)]
      have key2 := le_of_mul_le_mul_left key hn
      nlinarith

end

/-- Over the reals a dataset's variance is non-negative, so the guard
`pow(2); sqrt(); sqrt()` of `StdDev::finalize` leaves the square root of the variance. -/
theorem stddev_compute_real (self : StdDev ℝ) (group : List (List ℝ))
    (D : List ℝ) (hn : 1 < D.length) :
    StdDev.compute Real.sqrt self group D false =
      Real.sqrt (max 0 (((D.map (fun x => x ^ 2)).sum - D.sum ^ 2 / (D.length : ℝ))
        / ((D.length : ℝ) - 1))) := by
  rw [stddev_compute_serial, if_neg (by omega), Real.sqrt_sq_eq_abs]
  have hcast : ((D.length - 1 : Nat) : ℝ) = (D.length : ℝ) - 1 := by
    rw [Nat.cast_sub (by omega)]; simp
  rw [hcast]
  have hlen : (1 : ℝ) < (D.length : ℝ) := by exact_mod_cast hn
  have hv : 0 ≤ ((D.map (fun x => x ^ 2)).sum - D.sum ^ 2 / (D.length : ℝ))
      / ((D.length : ℝ) - 1) := by
    apply div_nonneg _ (by linarith)
    rw [sub_nonneg, div_le_iff₀ (by linarith)]
    have := list_sum_sq_le D
    linarith
  rw [abs_of_nonneg hv, max_eq_right hv]

/-- C4: for every dataset `D` with `n = |D| > 1` over exact real arithmetic,
`StdDev.compute(D, false)` is `sqrt(max(0, (Σx² - (Σx)²/n) / (n - 1)))`, the sample standard
deviation with the `n - 1` denominator. -/
theorem stddev_compute_sample_formula (self : StdDev ℝ) (group : List (List ℝ))
    (D : List ℝ) (hn : 1 < D.length) :
    StdDev.compute Real.sqrt self group D false =
      Real.sqrt (max 0 (((D.map (fun x => x ^ 2)).sum - D.sum ^ 2 / (D.length : ℝ))
        / ((D.length : ℝ) - 1))) :=
  stddev_compute_real self group D hn

theorem stddev_compute_sample_formula_witness :
    1 < ([1, 3] : List ℝ).length ∧
      StdDev.compute Real.sqrt ⟨3, ⟨7⟩, ⟨1⟩⟩ [] ([1, 3] : List ℝ) false =
        Real.sqrt (max 0 (((([1, 3] : List ℝ).map (fun x => x ^ 2)).sum
          - ([1, 3] : List ℝ).sum ^ 2 / (([1, 3] : List ℝ).length : ℝ))
          / ((([1, 3] : List ℝ).length : ℝ) - 1))) :=
  ⟨by decide, stddev_compute_sample_formula _ _ _ (by decide)⟩

/-- C5: for every dataset `D` with `|D| > 1` over exact real arithmetic,
`StdErr.compute(D, false)` equals `StdDev.compute(D, false)` divided by `sqrt(|D|)`. -/
theorem stderr_eq_stddev_div_sqrt_count (selfE selfD : StdDev ℝ)
    (groupE groupD : List (List ℝ)) (D : List ℝ) (hn : 1 < D.length) :
    StdErr.compute Real.sqrt selfE groupE D false =
      StdDev.compute Real.sqrt selfD groupD D false / Real.sqrt (D.length : ℝ) := by
  rw [stddev_compute_real selfD groupD D hn, stderr_compute_serial,
    if_neg (by omega)]
  have hcast : ((D.length - 1 : Nat) : ℝ) = (D.length : ℝ) - 1 := by
    rw [Nat.cast_sub (by omega)]; simp
  rw [hcast]
  have hlen : (1 : ℝ) < (D.length : ℝ) := by exact_mod_cast hn
  have hv : 0 ≤ ((D.map (fun x => x ^ 2)).sum - D.sum ^ 2 / (D.length : ℝ))
      / ((D.length : ℝ) - 1) := by
    apply div_nonneg _ (by linarith)
    rw [sub_nonneg, div_le_iff₀ (by linarith)]
    have := list_sum_sq_le D
    linarith
  rw [max_eq_right hv, Real.sqrt_div hv]

theorem stderr_eq_stddev_div_sqrt_count_witness :
    1 < ([1, 3] : List ℝ).length ∧
      StdErr.compute Real.sqrt ⟨3, ⟨7⟩, ⟨1⟩⟩ [] ([1, 3] : List ℝ) false =
        StdDev.compute Real.sqrt ⟨0, ⟨0⟩, ⟨0⟩⟩ [] ([1, 3] : List ℝ) false
          / Real.sqrt (([1, 3] : List ℝ).length : ℝ) :=
  ⟨by decide, stderr_eq_stddev_div_sqrt_count _ _ _ _ _ (by decide)⟩


section
variable {α : Type} [LinearOrderedField α]

theorem calcvalue_less_than_iff (a : CalculatorValue α) (b : α) :
    a.less_than b = true ↔ a._value < b := by
  simp [CalculatorValue.less_than]

theorem median_foldl_update (D : List α) (s : Median α) :
    (D.foldl Median.update s)._storage = s._storage ++ D.map (fun v => ⟨v⟩) ∧
    (D.foldl Median.update s)._median = s._median := by
  induction D generalizing s with
  | nil => simp
  | cons x xs ih =>
    obtain ⟨h1, h2⟩ := ih (s.update x)
    simp only [List.foldl_cons, h1, h2]
    simp [Median.update, CalculatorValue.mk0, CalculatorValue.add]

theorem median_accumulate (self : Median α) (D : List α) :
    (self.accumulate D)._storage = D.map (fun v => ⟨v⟩) ∧
    (self.accumulate D)._median = self._median := by
  obtain ⟨h1, h2⟩ := median_foldl_update D self.init
  simp only [Median.accumulate, h1, h2]
  simp [Median.init]

theorem median_sortStorage_eq (D S : List α) (hS : S.Sorted (fun a b => a ≤ b))
    (hP : S.Perm D) :
    Median.sortStorage (D.map (fun v => (⟨v⟩ : CalculatorValue α)))
      = S.map (fun v => ⟨v⟩) := by
  let r : CalculatorValue α → CalculatorValue α → Prop :=
    fun a b => b.less_than a.get = false
  have hr : ∀ a b : CalculatorValue α, r a b ↔ a._value ≤ b._value := by
    intro a b
    simp [r, CalculatorValue.less_than, CalculatorValue.get]
  haveI : IsTotal (CalculatorValue α) r :=
    ⟨fun a b => by rw [hr, hr]; exact le_total _ _⟩
  haveI : IsTrans (CalculatorValue α) r :=
    ⟨fun a b c => by rw [hr, hr, hr]; exact le_trans⟩
  haveI : IsAntisymm (CalculatorValue α) r :=
    ⟨fun a b => by
      rw [hr, hr]
      intro h1 h2
      cases a; cases b
      simp only at h1 h2
      simp [le_antisymm h1 h2]⟩
  have h1 : List.Sorted r (List.insertionSort r (D.map (fun v => (⟨v⟩ : CalculatorValue α)))) :=
    List.sorted_insertionSort r _
  have h2 : List.Sorted r (S.map (fun v => (⟨v⟩ : CalculatorValue α))) := by
    unfold List.Sorted
    rw [List.pairwise_map]
    exact List.Pairwise.imp (fun {a b} hab => (hr ⟨a⟩ ⟨b⟩).mpr hab) hS
  have h3 : (List.insertionSort r (D.map (fun v => (⟨v⟩ : CalculatorValue α)))).Perm
      (S.map (fun v => ⟨v⟩)) :=
    (List.perm_insertionSort r _).trans (hP.map _).symm
  exact List.eq_of_perm_of_sorted h3 h1 h2

/-- The value the serial branch of `finalize` produces from a sorted copy `S` of the data. -/
theorem median_compute_serial_eq (lim : NumericLimits α) (fuel : Nat) (self : Median α)
    (group : List (List α)) (D S : List α) (hS : S.Sorted (fun a b => a ≤ b))
    (hP : S.Perm D) :
    Median.compute lim fuel self group D false =
      some (if D.length = 0 then 0
        else if D.length % 2 = 1 then S.getD (D.length / 2) 0
        else (S.getD (D.length / 2) 0 + S.getD (D.length / 2 - 1) 0) / 2) := by
  obtain ⟨h1, h2⟩ := median_accumulate self D
  have hlen : S.length = D.length := hP.length_eq
  simp only [Median.compute, Median.finalize, h1, List.length_map, Bool.false_eq_true,
    if_false, Bool.not_false, Bool.true_or, if_true]
  by_cases h0 : D.length = 0
  · simp [h0, Median.get, CalculatorValue.get, CalculatorValue.zero]
  · have hpos : 0 < D.length := Nat.pos_of_ne_zero h0
    have hi : D.length / 2 < S.length := by omega
    have hj : D.length / 2 - 1 < S.length := by omega
    simp only [h0, if_false, Median.serialMedian, median_sortStorage_eq D S hS hP,
      List.getElem?_map, List.getElem?_eq_getElem hi, List.getElem?_eq_getElem hj]
    by_cases hodd : D.length % 2 = 1
    · have hne : D.length % 2 ≠ 0 := by omega
      simp [hodd, Median.get, CalculatorValue.get, CalculatorValue.plusEq,
        CalculatorValue.zero, List.getElem?_eq_getElem hi]
    · have he : D.length % 2 = 0 := by omega
      simp [he, Median.get, CalculatorValue.get, CalculatorValue.plusEq,
        CalculatorValue.zero, CalculatorValue.divide, List.getElem?_eq_getElem hi,
        List.getElem?_eq_getElem hj]

end



section
variable {α : Type} [LinearOrderedField α]

theorem median_tally_foldl (p : CalculatorValue α) (s : List (CalculatorValue α)) (m : Nat × Nat) :
    s.foldl
      (fun m val =>
        if p.less_than val.get then (m.1 + 1, m.2)
        else if val.less_than p.get then (m.1, m.2 + 1)
        else m) m
      = (m.1 + s.countP (fun v => decide (p._value < v._value)),
         m.2 + s.countP (fun v => decide (v._value < p._value))) := by
  induction s generalizing m with
  | nil => simp
  | cons x xs ih =>
    rw [List.foldl_cons, ih, List.countP_cons, List.countP_cons]
    rcases lt_trichotomy p._value x._value with h | h | h
    · have h' : ¬ x._value < p._value := not_lt.mpr h.le
      simp only [CalculatorValue.less_than, CalculatorValue.get, h, h', decide_True,
        decide_False, if_true, Bool.false_eq_true, if_false, Prod.mk.injEq]
      omega
    · have h1 : ¬ p._value < x._value := by rw [h]; exact lt_irrefl _
      have h2 : ¬ x._value < p._value := by rw [h]; exact lt_irrefl _
      simp only [CalculatorValue.less_than, CalculatorValue.get, h1, h2, decide_False,
        Bool.false_eq_true, if_false, Prod.mk.injEq]
      omega
    · have h' : ¬ p._value < x._value := not_lt.mpr h.le
      simp only [CalculatorValue.less_than, CalculatorValue.get, h, h', decide_True,
        decide_False, if_true, Bool.false_eq_true, if_false, Prod.mk.injEq]
      omega

theorem median_tally_eq (p : CalculatorValue α) (s : List (CalculatorValue α)) :
    Median.tally p s
      = (s.countP (fun v => decide (p._value < v._value)),
         s.countP (fun v => decide (v._value < p._value))) := by
  simp [Median.tally, median_tally_foldl]

omit [LinearOrderedField α] in
theorem median_sum_counts (q : CalculatorValue α → Bool) (L : List (List (CalculatorValue α))) :
    commSumNat (L.map (fun s => s.countP q)) = L.flatten.countP q := by
  simp [commSumNat, List.countP_flatten]

omit [LinearOrderedField α] in
theorem median_sum_sizes (L : List (List (CalculatorValue α))) :
    commSumNat (L.map List.length) = L.flatten.length := by
  simp [commSumNat, List.length_flatten]

theorem median_pivot_mem (m : CalculatorValue α) (L : List (List (CalculatorValue α)))
    (h : L.flatten ≠ []) : Median.pivot m L ∈ L.flatten := by
  induction L with
  | nil => simp at h
  | cons s rest ih =>
    cases s with
    | nil =>
      simp only [List.flatten_cons, List.nil_append] at h ⊢
      simpa [Median.pivot] using ih h
    | cons v vs =>
      cases v
      simp [Median.pivot, CalculatorValue.zero, CalculatorValue.plusEq, CalculatorValue.get]

theorem median_erase_ge_flatten (p : CalculatorValue α) (L : List (List (CalculatorValue α))) :
    (L.map (Median.eraseIf (fun val => !val.less_than p.get))).flatten
      = L.flatten.filter (fun v => decide (v._value < p._value)) := by
  rw [List.filter_flatten]
  congr 1
  apply List.map_congr_left
  intro s _
  simp [Median.eraseIf, CalculatorValue.less_than, CalculatorValue.get]

theorem median_erase_le_flatten (p : CalculatorValue α) (L : List (List (CalculatorValue α))) :
    (L.map (Median.eraseIf (fun val => !p.less_than val.get))).flatten
      = L.flatten.filter (fun v => decide (p._value < v._value)) := by
  rw [List.filter_flatten]
  congr 1
  apply List.map_congr_left
  intro s _
  simp [Median.eraseIf, CalculatorValue.less_than, CalculatorValue.get]

theorem count_gt_add_le (p : α) (G : List (CalculatorValue α)) :
    G.countP (fun v => decide (p < v._value)) + G.countP (fun v => decide (v._value ≤ p))
      = G.length := by
  induction G with
  | nil => simp
  | cons x xs ih =>
    simp only [List.countP_cons, List.length_cons, decide_eq_true_eq]
    rcases lt_or_le p x._value with h | h
    · simp [h, not_le.mpr h]; omega
    · simp [h, not_lt.mpr h]; omega

theorem count_lt_add_eq (p : α) (G : List (CalculatorValue α)) :
    G.countP (fun v => decide (v._value < p)) + G.countP (fun v => decide (v._value = p))
      = G.countP (fun v => decide (v._value ≤ p)) := by
  induction G with
  | nil => simp
  | cons x xs ih =>
    simp only [List.countP_cons, decide_eq_true_eq]
    rcases lt_trichotomy x._value p with h | h | h
    · simp [h, h.le, h.ne]; omega
    · simp [h]; omega
    · simp [not_lt.mpr h.le, not_le.mpr h, h.ne']; omega

theorem count_lt_lt_le_of_mem (p : CalculatorValue α) (G : List (CalculatorValue α))
    (h : p ∈ G) :
    G.countP (fun v => decide (v._value < p._value))
      < G.countP (fun v => decide (v._value ≤ p._value)) := by
  have h1 := count_lt_add_eq p._value G
  have h2 : 0 < G.countP (fun v => decide (v._value = p._value)) :=
    List.countP_pos_iff.mpr ⟨p, h, by simp⟩
  omega

/-- One iteration of the loop, its tests rewritten over the concatenation of all storages. -/
theorem median_loop_succ (lim : NumericLimits α) (count fuel : Nat)
    (L : List (List (CalculatorValue α))) (mine : List (CalculatorValue α))
    (m : CalculatorValue α) (kgt klt : Nat) :
    Median.loop lim count (fuel + 1) L mine m kgt klt =
      if L.flatten.length
          - L.flatten.countP (fun v => decide (v._value < (Median.pivot m L)._value)) ≤ kgt then
        Median.loop lim count fuel
          (L.map (Median.eraseIf (fun val => !val.less_than (Median.pivot m L).get)))
          (Median.eraseIf (fun val => !val.less_than (Median.pivot m L).get) mine)
          (Median.pivot m L)
          (kgt - (L.flatten.length
            - L.flatten.countP (fun v => decide (v._value < (Median.pivot m L)._value)))) klt
      else if L.flatten.countP (fun v => decide (v._value ≤ (Median.pivot m L)._value)) ≤ klt then
        Median.loop lim count fuel
          (L.map (Median.eraseIf (fun val => !(Median.pivot m L).less_than val.get)))
          (Median.eraseIf (fun val => !(Median.pivot m L).less_than val.get) mine)
          (Median.pivot m L) kgt
          (klt - L.flatten.countP (fun v => decide (v._value ≤ (Median.pivot m L)._value)))
      else if count % 2 ≠ 0 then some (mine, Median.pivot m L)
      else
        some (mine,
          ((Median.pivot m L).plusEq
            (if L.flatten.countP (fun v => decide ((Median.pivot m L)._value < v._value)) > kgt then
              (Median.nextGreater lim (Median.pivot m L) mine).commMin
                (L.map (Median.nextGreater lim (Median.pivot m L)))
            else if L.flatten.countP
                (fun v => decide (v._value < (Median.pivot m L)._value)) > klt then
              (Median.nextLess lim (Median.pivot m L) mine).commMax
                (L.map (Median.nextLess lim (Median.pivot m L)))
            else CalculatorValue.mk0.plusEq (Median.pivot m L).get).get).divide 2) := by
  have hgt := median_sum_counts (fun v => decide ((Median.pivot m L)._value < v._value)) L
  have hlt := median_sum_counts (fun v => decide (v._value < (Median.pivot m L)._value)) L
  have hn := median_sum_sizes L
  have h1 := count_gt_add_le (Median.pivot m L)._value L.flatten
  have h2 := count_lt_add_eq (Median.pivot m L)._value L.flatten
  have e0 : commSumNat (L.map (fun s => (Median.tally (Median.pivot m L) s).1))
      = L.flatten.countP (fun v => decide ((Median.pivot m L)._value < v._value)) := by
    rw [← hgt]; congr 1; apply List.map_congr_left; intro s _; rw [median_tally_eq]
  have e1 : commSumNat (L.map (fun s => (Median.tally (Median.pivot m L) s).2))
      = L.flatten.countP (fun v => decide (v._value < (Median.pivot m L)._value)) := by
    rw [← hlt]; congr 1; apply List.map_congr_left; intro s _; rw [median_tally_eq]
  simp only [Median.loop, e0, e1, hn]
  have a1 : L.flatten.countP (fun v => decide ((Median.pivot m L)._value < v._value))
      + (L.flatten.length
        - L.flatten.countP (fun v => decide ((Median.pivot m L)._value < v._value))
        - L.flatten.countP (fun v => decide (v._value < (Median.pivot m L)._value)))
      = L.flatten.length
        - L.flatten.countP (fun v => decide (v._value < (Median.pivot m L)._value)) := by
    omega
  have a2 : L.flatten.countP (fun v => decide (v._value < (Median.pivot m L)._value))
      + (L.flatten.length
        - L.flatten.countP (fun v => decide ((Median.pivot m L)._value < v._value))
        - L.flatten.countP (fun v => decide (v._value < (Median.pivot m L)._value)))
      = L.flatten.countP (fun v => decide (v._value ≤ (Median.pivot m L)._value)) := by
    omega
  rw [a1, a2]

end

section
variable {α : Type} [LinearOrderedField α]

/-- A value of rank `k` is unique: two values that both have at most `k` elements
below and more than `k` elements not above are equal. -/
theorem rank_value_unique (G : List (CalculatorValue α)) (k : Nat) (a b : α)
    (ha1 : G.countP (fun v => decide (v._value < a)) ≤ k)
    (ha2 : k < G.countP (fun v => decide (v._value ≤ a)))
    (hb1 : G.countP (fun v => decide (v._value < b)) ≤ k)
    (hb2 : k < G.countP (fun v => decide (v._value ≤ b))) : a = b := by
  rcases lt_trichotomy a b with h | h | h
  · exfalso
    have : G.countP (fun v => decide (v._value ≤ a))
        ≤ G.countP (fun v => decide (v._value < b)) :=
      List.countP_mono_left (fun x _ hx => by
        simp only [decide_eq_true_eq] at hx ⊢; exact lt_of_le_of_lt hx h)
    omega
  · exact h
  · exfalso
    have : G.countP (fun v => decide (v._value ≤ b))
        ≤ G.countP (fun v => decide (v._value < a)) :=
      List.countP_mono_left (fun x _ hx => by
        simp only [decide_eq_true_eq] at hx ⊢; exact lt_of_le_of_lt hx h)
    omega

theorem count_filter_lt_of_lt (G : List (CalculatorValue α)) (t p : α) (h : t < p) :
    (G.filter (fun v => decide (v._value < p))).countP (fun v => decide (v._value < t))
      = G.countP (fun v => decide (v._value < t)) ∧
    (G.filter (fun v => decide (v._value < p))).countP (fun v => decide (v._value ≤ t))
      = G.countP (fun v => decide (v._value ≤ t)) := by
  constructor
  · rw [List.countP_filter]
    apply List.countP_congr
    intro x _
    simp only [Bool.and_eq_true, decide_eq_true_eq]
    exact ⟨fun hx => hx.1, fun hx => ⟨hx, lt_trans hx h⟩⟩
  · rw [List.countP_filter]
    apply List.countP_congr
    intro x _
    simp only [Bool.and_eq_true, decide_eq_true_eq]
    exact ⟨fun hx => hx.1, fun hx => ⟨hx, lt_of_le_of_lt hx h⟩⟩

theorem count_filter_gt_of_lt (G : List (CalculatorValue α)) (t p : α) (h : p < t) :
    (G.filter (fun v => decide (p < v._value))).countP (fun v => decide (v._value < t))
        + G.countP (fun v => decide (v._value ≤ p))
      = G.countP (fun v => decide (v._value < t)) ∧
    (G.filter (fun v => decide (p < v._value))).countP (fun v => decide (v._value ≤ t))
        + G.countP (fun v => decide (v._value ≤ p))
      = G.countP (fun v => decide (v._value ≤ t)) := by
  induction G with
  | nil => simp
  | cons x xs ih =>
    obtain ⟨ih1, ih2⟩ := ih
    rcases lt_or_le p x._value with hx | hx
    · have hnx : ¬ x._value ≤ p := not_le.mpr hx
      simp only [List.filter_cons, hx, decide_True, if_true, List.countP_cons, hnx,
        decide_False, Bool.false_eq_true, if_false]
      constructor <;> omega
    · have hnx : ¬ p < x._value := not_lt.mpr hx
      have h1 : x._value < t := lt_of_le_of_lt hx h
      simp only [List.filter_cons, hnx, decide_False, Bool.false_eq_true, if_false,
        List.countP_cons, hx, decide_True, if_true, h1, h1.le]
      constructor <;> omega

theorem length_filter_lt (G : List (CalculatorValue α)) (p : α) :
    (G.filter (fun v => decide (v._value < p))).length
      = G.countP (fun v => decide (v._value < p)) :=
  (List.countP_eq_length_filter _ G).symm

theorem length_filter_gt (G : List (CalculatorValue α)) (p : α) :
    (G.filter (fun v => decide (p < v._value))).length
      + G.countP (fun v => decide (v._value ≤ p)) = G.length := by
  rw [← List.countP_eq_length_filter]
  exact count_gt_add_le p G

/-- The loop on an odd global count: while the remaining values number `kgt + klt + 1` and `t`
has rank `klt` among them, `fuel` iterations, one per remaining value, reach the `break`
with `_median` equal to `t`. -/
theorem median_loop_odd (lim : NumericLimits α) (count : Nat) (hodd : count % 2 = 1) (t : α) :
    ∀ (fuel : Nat) (L : List (List (CalculatorValue α))) (mine : List (CalculatorValue α))
      (m : CalculatorValue α) (kgt klt : Nat),
      L.flatten.length = kgt + klt + 1 →
      L.flatten.countP (fun v => decide (v._value < t)) ≤ klt →
      klt < L.flatten.countP (fun v => decide (v._value ≤ t)) →
      L.flatten.length ≤ fuel →
      ∃ st, Median.loop lim count fuel L mine m kgt klt = some (st, ⟨t⟩) := by
  intro fuel
  induction fuel with
  | zero =>
    intro L mine m kgt klt hn _ _ hf
    omega
  | succ fuel ih =>
    intro L mine m kgt klt hn hlo hhi hf
    have hne : L.flatten ≠ [] := by
      intro e; rw [e] at hn; simp at hn
    have hmem := median_pivot_mem m L hne
    have hlt := count_lt_lt_le_of_mem _ _ hmem
    have hle := count_gt_add_le (Median.pivot m L)._value L.flatten
    rw [median_loop_succ]
    by_cases c1 : L.flatten.length
        - L.flatten.countP (fun v => decide (v._value < (Median.pivot m L)._value)) ≤ kgt
    · rw [if_pos c1]
      have htp : t < (Median.pivot m L)._value := by
        by_contra hcon
        have hpt : (Median.pivot m L)._value ≤ t := not_lt.mp hcon
        have : L.flatten.countP (fun v => decide (v._value < (Median.pivot m L)._value))
            ≤ L.flatten.countP (fun v => decide (v._value < t)) :=
          List.countP_mono_left (fun x _ hx => by
            simp only [decide_eq_true_eq] at hx ⊢; exact lt_of_lt_of_le hx hpt)
        omega
      obtain ⟨f1, f2⟩ := count_filter_lt_of_lt L.flatten t _ htp
      have fl := length_filter_lt L.flatten (Median.pivot m L)._value
      apply ih
      · rw [median_erase_ge_flatten, fl]; omega
      · rw [median_erase_ge_flatten, f1]; exact hlo
      · rw [median_erase_ge_flatten, f2]; exact hhi
      · rw [median_erase_ge_flatten, fl]; omega
    · rw [if_neg c1]
      by_cases c2 : L.flatten.countP
          (fun v => decide (v._value ≤ (Median.pivot m L)._value)) ≤ klt
      · rw [if_pos c2]
        have hpt : (Median.pivot m L)._value < t := by
          by_contra hcon
          have htp : t ≤ (Median.pivot m L)._value := not_lt.mp hcon
          have : L.flatten.countP (fun v => decide (v._value ≤ t))
              ≤ L.flatten.countP (fun v => decide (v._value ≤ (Median.pivot m L)._value)) :=
            List.countP_mono_left (fun x _ hx => by
              simp only [decide_eq_true_eq] at hx ⊢; exact le_trans hx htp)
          omega
        obtain ⟨f1, f2⟩ := count_filter_gt_of_lt L.flatten t _ hpt
        have fl := length_filter_gt L.flatten (Median.pivot m L)._value
        apply ih
        · rw [median_erase_le_flatten]; omega
        · rw [median_erase_le_flatten]; omega
        · rw [median_erase_le_flatten]; omega
        · rw [median_erase_le_flatten]; omega
      · rw [if_neg c2, if_pos (by omega)]
        have hpt : (Median.pivot m L)._value = t :=
          rank_value_unique L.flatten klt _ _ (by omega) (by omega) hlo hhi
        exact ⟨mine, by rw [← hpt]⟩

end

section
variable {α : Type} [LinearOrderedField α]

theorem sorted_rank (S : List α) (hS : S.Sorted (fun a b => a ≤ b)) :
    ∀ k, k < S.length →
      S.countP (fun v => decide (v < S.getD k 0)) ≤ k ∧
      k < S.countP (fun v => decide (v ≤ S.getD k 0)) := by
  induction S with
  | nil => intro k hk; simp at hk
  | cons x xs ih =>
    intro k hk
    have hx : ∀ y ∈ xs, x ≤ y := (List.sorted_cons.mp hS).1
    have hxs : xs.Sorted (fun a b => a ≤ b) := (List.sorted_cons.mp hS).2
    cases k with
    | zero =>
      simp only [List.getD_cons_zero, List.countP_cons, lt_irrefl, decide_False,
        Bool.false_eq_true, if_false, le_refl, decide_True, if_true]
      have h0 : xs.countP (fun v => decide (v < x)) = 0 := by
        rw [List.countP_eq_zero]
        intro a ha
        simp only [decide_eq_true_eq, not_lt]
        exact hx a ha
      omega
    | succ k =>
      have hk' : k < xs.length := by simpa using hk
      obtain ⟨h1, h2⟩ := ih hxs k hk'
      have hmem : xs.getD k 0 ∈ xs := by
        rw [List.getD_eq_getElem _ _ hk']; exact List.getElem_mem _
      have hle : x ≤ xs.getD k 0 := hx _ hmem
      simp only [List.getD_cons_succ, List.countP_cons, hle, decide_True, if_true]
      constructor
      · split <;> omega
      · omega

theorem median_storages_flatten (self : Median α) (group : List (List α)) :
    ((group.map self.accumulate).map (fun p => p._storage)).flatten
      = group.flatten.map (fun v => (⟨v⟩ : CalculatorValue α)) := by
  rw [List.map_map]
  have : (fun p => p._storage) ∘ self.accumulate
      = fun d : List α => d.map (fun v => (⟨v⟩ : CalculatorValue α)) := by
    funext d; exact (median_accumulate self d).1
  rw [this]
  induction group with
  | nil => simp
  | cons d ds ih =>
    rw [List.map_cons, List.flatten_cons, List.flatten_cons, List.map_append, ih]

theorem median_storages_count (self : Median α) (group : List (List α)) :
    commSumNat ((group.map self.accumulate).map (fun p => p._storage.length))
      = group.flatten.length := by
  have h := congrArg List.length (median_storages_flatten self group)
  rw [List.length_map, List.length_flatten] at h
  rw [← h, commSumNat, List.map_map, List.map_map, List.map_map]
  rfl

/-- The distributed branch of `compute` on an odd global count is the middle element. -/
theorem median_compute_distributed_odd (lim : NumericLimits α) (fuel : Nat)
    (self : Median α) (group : List (List α)) (data S : List α)
    (hw : 2 ≤ group.length) (hodd : group.flatten.length % 2 = 1)
    (hS : S.Sorted (fun a b => a ≤ b)) (hP : S.Perm group.flatten)
    (hfuel : group.flatten.length ≤ fuel) :
    Median.compute lim fuel self group data true
      = some (S.getD (group.flatten.length / 2) 0) := by
  have hcount := median_storages_count self group
  have hflat := median_storages_flatten self group
  have hlen : S.length = group.flatten.length := hP.length_eq
  have hk : group.flatten.length / 2 < S.length := by omega
  obtain ⟨r1, r2⟩ := sorted_rank S hS _ hk
  have c1 : ∀ q : α → Bool,
      (group.flatten.map (fun v => (⟨v⟩ : CalculatorValue α))).countP (fun v => q v._value)
        = S.countP q := by
    intro q
    rw [List.countP_map]
    exact (hP.countP_eq _).symm
  obtain ⟨st, hst⟩ := median_loop_odd lim group.flatten.length hodd
    (S.getD (group.flatten.length / 2) 0) fuel
    ((group.map self.accumulate).map (fun p => p._storage)) (self.accumulate data)._storage
    (self.accumulate data)._median.zero (group.flatten.length / 2) (group.flatten.length / 2)
    (by rw [hflat, List.length_map]; omega)
    (by rw [hflat, c1 (fun v => decide (v < S.getD (group.flatten.length / 2) 0))]; exact r1)
    (by rw [hflat, c1 (fun v => decide (v ≤ S.getD (group.flatten.length / 2) 0))]; exact r2)
    (by rw [hflat, List.length_map]; exact hfuel)
  have h0 : group.flatten.length ≠ 0 := by omega
  have hg : ¬ (group.map self.accumulate).length = 1 := by
    rw [List.length_map]; omega
  have hne : group.flatten.length % 2 ≠ 0 := by omega
  simp only [Median.compute, Median.finalize, hcount, if_true, h0, if_false, Bool.not_true,
    Bool.false_or, decide_eq_true_eq, hg, hne, ne_eq, not_false_eq_true, hst, Option.map_some']
  simp [Median.get, CalculatorValue.get]

end

section
variable {α : Type} [LinearOrderedField α]

/-- C8: with `S` the ascending sort of `D`, serial `Median.compute(D, false)` returns zero
when `D` is empty, `S[|D|/2]` when `|D|` is odd, and the average of `S[|D|/2]` and
`S[|D|/2 - 1]` when `|D|` is even and non-zero. -/
theorem median_serial_is_middle_of_sorted (lim : NumericLimits α) (fuel : Nat)
    (self : Median α) (group : List (List α)) (D S : List α)
    (hS : S.Sorted (fun a b => a ≤ b)) (hP : S.Perm D) :
    Median.compute lim fuel self group D false =
      some (if D.length = 0 then 0
        else if D.length % 2 = 1 then S.getD (D.length / 2) 0
        else (S.getD (D.length / 2) 0 + S.getD (D.length / 2 - 1) 0) / 2) :=
  median_compute_serial_eq lim fuel self group D S hS hP

/-- C9: for a global dataset of odd size split in any way over two or more workers (`group`,
empty slices allowed), distributed `Median.compute` returns, given one unit of fuel per
value, what serial `Median.compute` returns on the concatenated dataset: the middle element
of its ascending sort `S`. -/
theorem median_distributed_odd_eq_serial (lim : NumericLimits α) (fuel : Nat)
    (self selfS : Median α) (group groupS : List (List α)) (data S : List α)
    (hw : 2 ≤ group.length) (hodd : group.flatten.length % 2 = 1)
    (hS : S.Sorted (fun a b => a ≤ b)) (hP : S.Perm group.flatten)
    (hfuel : group.flatten.length ≤ fuel) :
    Median.compute lim fuel self group data true
        = Median.compute lim fuel selfS groupS group.flatten false ∧
      Median.compute lim fuel self group data true
        = some (S.getD (group.flatten.length / 2) 0) := by
  have h1 := median_compute_distributed_odd lim fuel self group data S hw hodd hS hP hfuel
  have h2 := median_compute_serial_eq lim fuel selfS groupS group.flatten S hS hP
  have h0 : group.flatten.length ≠ 0 := by omega
  rw [if_neg h0, if_pos hodd] at h2
  exact ⟨by rw [h1, h2], h1⟩

end

theorem sorted_example_three : ([1, 2, 3] : List ℚ).Sorted (fun a b => a ≤ b) := by
  simp [List.Sorted]; norm_num

theorem median_serial_is_middle_of_sorted_witness :
    (([1, 2, 3] : List ℚ).Sorted (fun a b => a ≤ b) ∧ ([1, 2, 3] : List ℚ).Perm [3, 1, 2]) ∧
      Median.compute doubleLimits 0 ⟨[⟨9⟩], ⟨7⟩⟩ [] ([3, 1, 2] : List ℚ) false =
        some (if ([3, 1, 2] : List ℚ).length = 0 then 0
          else if ([3, 1, 2] : List ℚ).length % 2 = 1 then
            ([1, 2, 3] : List ℚ).getD (([3, 1, 2] : List ℚ).length / 2) 0
          else (([1, 2, 3] : List ℚ).getD (([3, 1, 2] : List ℚ).length / 2) 0
            + ([1, 2, 3] : List ℚ).getD (([3, 1, 2] : List ℚ).length / 2 - 1) 0) / 2) :=
  ⟨⟨sorted_example_three, by decide⟩,
    median_serial_is_middle_of_sorted _ _ _ _ _ _ sorted_example_three (by decide)⟩

theorem sorted_example_five : ([1, 2, 2, 4, 7] : List ℚ).Sorted (fun a b => a ≤ b) := by
  simp [List.Sorted]; norm_num

theorem median_distributed_odd_eq_serial_witness :
    (2 ≤ ([[2, 7], [], [4, 1, 2]] : List (List ℚ)).length ∧
      ([[2, 7], [], [4, 1, 2]] : List (List ℚ)).flatten.length % 2 = 1 ∧
      ([1, 2, 2, 4, 7] : List ℚ).Sorted (fun a b => a ≤ b) ∧
      ([1, 2, 2, 4, 7] : List ℚ).Perm ([[2, 7], [], [4, 1, 2]] : List (List ℚ)).flatten ∧
      ([[2, 7], [], [4, 1, 2]] : List (List ℚ)).flatten.length ≤ 5) ∧
    (Median.compute doubleLimits 5 ⟨[], ⟨7⟩⟩ [[2, 7], [], [4, 1, 2]] [2, 7] true
        = Median.compute doubleLimits 5 ⟨[], ⟨0⟩⟩ []
            ([[2, 7], [], [4, 1, 2]] : List (List ℚ)).flatten false ∧
      Median.compute doubleLimits 5 ⟨[], ⟨7⟩⟩ [[2, 7], [], [4, 1, 2]] [2, 7] true
        = some (([1, 2, 2, 4, 7] : List ℚ).getD
            (([[2, 7], [], [4, 1, 2]] : List (List ℚ)).flatten.length / 2) 0)) :=
  ⟨⟨by decide, by decide, sorted_example_five, by decide, by decide⟩,
    median_distributed_odd_eq_serial _ _ _ _ _ _ _ _ (by decide) (by decide)
      sorted_example_five (by decide) (by decide)⟩

theorem sorted_example_two : ([-2, -1] : List ℚ).Sorted (fun a b => a ≤ b) := by
  simp [List.Sorted]

/-- C10: on the even-sized global dataset `{-1, -2}` of `Real` values, held as `{-1}` and
`{-2}` by two workers, distributed `Median.compute` returns `(-1 + 2^-1022) / 2` while the
serial median of the concatenated dataset is `-3/2`. -/
theorem median_distributed_even_negative (self : Median ℚ) :
    Median.compute doubleLimits 2 self [[-1], [-2]] [-1] true
        = some ((-1 + 1 / 2 ^ 1022) / 2) ∧
      Median.compute doubleLimits 2 self [[-1], [-2]]
        ([[-1], [-2]] : List (List ℚ)).flatten false = some (-3 / 2) := by
  constructor
  · have hs : ((([[-1], [-2]] : List (List ℚ)).map self.accumulate).map (fun p => p._storage))
        = [[⟨-1⟩], [⟨-2⟩]] := by
      simp [(median_accumulate self _).1]
    have hc := median_storages_count self ([[-1], [-2]] : List (List ℚ))
    simp only [Median.compute, Median.finalize, hc, hs, if_true]
    simp [median_loop_succ, Median.pivot, Median.nextLess, Median.nextGreater,
      CalculatorValue.commMax, CalculatorValue.commMin, CalculatorValue.less_than,
      CalculatorValue.get, CalculatorValue.plusEq, CalculatorValue.zero, CalculatorValue.setMin,
      CalculatorValue.setMax, CalculatorValue.mk0, CalculatorValue.divide, doubleLimits,
      Median.get, Median.eraseIf]
    norm_num
  · rw [median_compute_serial_eq doubleLimits 2 self _ _ [-2, -1] sorted_example_two
      (by decide)]
    norm_num

section
variable {α : Type} [LinearOrderedField α]

theorem l2norm_foldl_update (D : List α) (s : L2Norm α) :
    (D.foldl L2Norm.update s)._l2_norm._value
      = s._l2_norm._value + (D.map (fun x => x ^ 2)).sum := by
  induction D generalizing s with
  | nil => simp
  | cons x xs ih =>
    have e : x ^ (2 : ℤ) = x ^ 2 := zpow_ofNat x 2
    simp [ih, L2Norm.update, CalculatorValue.addPow, add_assoc, e]

theorem l2norm_accumulate (self : L2Norm α) (D : List α) :
    (self.accumulate D)._l2_norm._value = (D.map (fun x => x ^ 2)).sum := by
  simp [L2Norm.accumulate, l2norm_foldl_update, L2Norm.init, CalculatorValue.zero]

theorem l2norm_compute_serial (sqrtFn : α → α) (self : L2Norm α) (group : List (List α))
    (D : List α) :
    L2Norm.compute sqrtFn self group D false = sqrtFn ((D.map (fun x => x ^ 2)).sum) := by
  simp [L2Norm.compute, L2Norm.finalize, L2Norm.get, CalculatorValue.get,
    CalculatorValue.sqrt, l2norm_accumulate]

theorem sum_flatten_sum (group : List (List α)) :
    (group.map List.sum).sum = group.flatten.sum := by
  induction group with
  | nil => simp
  | cons d ds ih =>
    rw [List.map_cons, List.sum_cons, List.flatten_cons, List.sum_append, ih]

theorem sum_flatten_sq (group : List (List α)) :
    (group.map (fun d => (d.map (fun x => x ^ 2)).sum)).sum
      = (group.flatten.map (fun x => x ^ 2)).sum := by
  induction group with
  | nil => simp
  | cons d ds ih =>
    rw [List.map_cons, List.sum_cons, List.flatten_cons, List.map_append, List.sum_append, ih]

omit [LinearOrderedField α] in
theorem sum_flatten_length (group : List (List α)) :
    (group.map List.length).sum = group.flatten.length := by
  simp [List.length_flatten]

theorem l2norm_compute_distributed (sqrtFn : α → α) (self : L2Norm α)
    (group : List (List α)) (D : List α) :
    L2Norm.compute sqrtFn self group D true
      = sqrtFn ((group.flatten.map (fun x => x ^ 2)).sum) := by
  have hs : (List.map (fun v => v._value) (List.map (fun p => p._l2_norm)
      (List.map self.accumulate group)))
      = group.map (fun d => (d.map (fun x => x ^ 2)).sum) := by
    simp [List.map_map, Function.comp_def, l2norm_accumulate]
  simp only [L2Norm.compute, L2Norm.finalize, L2Norm.get, CalculatorValue.get,
    CalculatorValue.sqrt, CalculatorValue.sum, hs, if_true, sum_flatten_sq]

theorem sum_compute_distributed (self : Sum α) (group : List (List α)) (D : List α) :
    Sum.compute self group D true = group.flatten.sum := by
  have hs : (List.map (fun v => v._value) (List.map (fun p => p._sum)
      (List.map self.accumulate group))) = group.map List.sum := by
    simp [List.map_map, Function.comp_def, sum_accumulate_sum]
  simp only [Sum.compute, Sum.finalize, Sum.get, CalculatorValue.get,
    CalculatorValue.sum, hs, if_true, sum_flatten_sum]

theorem stddev_reduce_distributed (self : StdDev α) (group : List (List α)) (s : StdDev α) :
    StdDev.reduce (group.map self.accumulate) true s
      = StdDev.reduce [] false (self.accumulate group.flatten) := by
  obtain ⟨h1, h2, h3⟩ := stddev_accumulate self group.flatten
  have hc : (List.map (fun p => p._count) (List.map self.accumulate group))
      = group.map List.length := by
    simp [List.map_map, Function.comp_def, (stddev_accumulate self _).1]
  have hs : (List.map (fun v => v._value) (List.map (fun p => p._sum)
      (List.map self.accumulate group))) = group.map List.sum := by
    simp [List.map_map, Function.comp_def, (stddev_accumulate self _).2.1]
  have hq : (List.map (fun v => v._value) (List.map (fun p => p._sum_of_square)
      (List.map self.accumulate group)))
      = group.map (fun d => (d.map (fun x => x ^ 2)).sum) := by
    simp [List.map_map, Function.comp_def, (stddev_accumulate self _).2.2]
  simp only [StdDev.reduce, if_true, Bool.false_eq_true, if_false, commSumNat,
    CalculatorValue.sum, hc, hs, hq, sum_flatten_sum, sum_flatten_sq, sum_flatten_length]
  cases hacc : self.accumulate group.flatten with
  | mk c s q =>
    rw [hacc] at h1 h2 h3
    cases s; cases q
    simp only at h1 h2 h3
    simp [h1, h2, h3]

theorem stddev_compute_distributed (sqrtFn : α → α) (self selfS : StdDev α)
    (group groupS : List (List α)) (D : List α) :
    StdDev.compute sqrtFn self group D true
      = StdDev.compute sqrtFn selfS groupS group.flatten false := by
  rw [stddev_compute_serial]
  have h := stddev_compute_serial sqrtFn self [] group.flatten
  rw [← h]
  simp only [StdDev.compute, StdDev.finalize, stddev_reduce_distributed]
  simp [StdDev.reduce]

theorem mean_compute_distributed_eq_serial (self selfS : Mean α)
    (group groupS : List (List α)) (D : List α) :
    Mean.compute self group D true = Mean.compute selfS groupS group.flatten false := by
  rw [mean_compute_distributed, mean_compute_serial, sum_flatten_sum, sum_flatten_length]

/-- C11: with the all-reduce the exact sum over the ranks, distributed `Sum`, `Mean`,
`StdDev` and `L2Norm` return on every rank (whatever its local `D`) what the serial
`compute` returns on the concatenation of the slices of all ranks; distributed `Mean` is the
total of the local sums over the total of the local counts. -/
theorem additive_reductions_partition_invariant (sqrtFn : α → α)
    (sumD sumS : Sum α) (meanD meanS : Mean α) (sdD sdS : StdDev α) (l2D l2S : L2Norm α)
    (group groupS : List (List α)) (D : List α) :
    Sum.compute sumD group D true = Sum.compute sumS groupS group.flatten false ∧
    Mean.compute meanD group D true = Mean.compute meanS groupS group.flatten false ∧
    StdDev.compute sqrtFn sdD group D true
      = StdDev.compute sqrtFn sdS groupS group.flatten false ∧
    L2Norm.compute sqrtFn l2D group D true
      = L2Norm.compute sqrtFn l2S groupS group.flatten false ∧
    Mean.compute meanD group D true =
      (if 0 < (group.map List.length).sum then
        (group.map List.sum).sum / (((group.map List.length).sum : Nat) : α)
      else 0) := by
  refine ⟨?_, mean_compute_distributed_eq_serial _ _ _ _ _,
    stddev_compute_distributed _ _ _ _ _ _, ?_, mean_compute_distributed _ _ _⟩
  · rw [sum_compute_distributed, sum_compute_serial]
  · rw [l2norm_compute_distributed, l2norm_compute_serial]

end

/-- C14: over the reals `L2Norm.compute(D, false)` is the square root of the sum of the
squares of the elements of `D`, and zero for the empty dataset. -/
theorem l2norm_compute_is_root_of_squares (self : L2Norm ℝ) (group : List (List ℝ))
    (D : List ℝ) :
    L2Norm.compute Real.sqrt self group D false
        = Real.sqrt ((D.map (fun x => x ^ 2)).sum) ∧
      L2Norm.compute Real.sqrt self group [] false = 0 := by
  constructor
  · exact l2norm_compute_serial _ _ _ _
  · rw [l2norm_compute_serial]; simp

section
variable {α : Type} [LinearOrderedField α]

theorem foldl_min_of_le (d : List α) :
    ∀ a M : α, a ≤ M → d.foldl min a = min a (d.foldl min M) := by
  induction d with
  | nil => intro a M h; simp [h]
  | cons x xs ih =>
    intro a M h
    simp only [List.foldl_cons]
    rw [ih (min a x) (min M x) (min_le_min_right x h)]
    have hY : xs.foldl min (min M x) ≤ x :=
      (foldl_min_le xs (min M x)).1.trans (min_le_right _ _)
    rw [min_assoc, min_eq_right hY]

theorem foldl_max_ge (D : List α) (a : α) : a ≤ D.foldl max a := by
  induction D generalizing a with
  | nil => simp
  | cons y ys ih =>
    simp only [List.foldl_cons]
    exact (le_max_left _ _).trans (ih (max a y))

theorem foldl_max_of_le (d : List α) :
    ∀ a M : α, M ≤ a → d.foldl max a = max a (d.foldl max M) := by
  induction d with
  | nil => intro a M h; simp [h]
  | cons x xs ih =>
    intro a M h
    simp only [List.foldl_cons]
    rw [ih (max a x) (max M x) (max_le_max_right x h)]
    have hY : x ≤ xs.foldl max (max M x) :=
      (le_max_right _ _).trans (foldl_max_ge xs (max M x))
    rw [max_assoc, max_eq_right hY]

theorem comm_min_fold (ws : List (CalculatorValue α)) (a : α) :
    ws.foldl (fun acc w => if w._value < acc then w._value else acc) a
      = (ws.map (fun w => w._value)).foldl min a := by
  induction ws generalizing a with
  | nil => rfl
  | cons w ws ih =>
    simp only [List.foldl_cons, List.map_cons, ih]
    congr 1
    rcases lt_or_le w._value a with h | h
    · rw [if_pos h, min_eq_right h.le]
    · rw [if_neg (not_lt.mpr h), min_eq_left h]

theorem comm_max_fold (ws : List (CalculatorValue α)) (a : α) :
    ws.foldl (fun acc w => if acc < w._value then w._value else acc) a
      = (ws.map (fun w => w._value)).foldl max a := by
  induction ws generalizing a with
  | nil => rfl
  | cons w ws ih =>
    simp only [List.foldl_cons, List.map_cons, ih]
    congr 1
    rcases lt_or_le a w._value with h | h
    · rw [if_pos h, max_eq_right h.le]
    · rw [if_neg (not_lt.mpr h), max_eq_left h]

theorem foldl_min_locals (M : α) (ds : List (List α)) :
    ∀ a : α, a ≤ M →
      (ds.map (fun d => d.foldl min M)).foldl min a = ds.flatten.foldl min a := by
  induction ds with
  | nil => intro a _; rfl
  | cons d ds ih =>
    intro a h
    simp only [List.map_cons, List.foldl_cons, List.flatten_cons, List.foldl_append]
    rw [ih (min a (d.foldl min M)) ((min_le_left _ _).trans h), foldl_min_of_le d a M h]

theorem foldl_max_locals (M : α) (ds : List (List α)) :
    ∀ a : α, M ≤ a →
      (ds.map (fun d => d.foldl max M)).foldl max a = ds.flatten.foldl max a := by
  induction ds with
  | nil => intro a _; rfl
  | cons d ds ih =>
    intro a h
    simp only [List.map_cons, List.foldl_cons, List.flatten_cons, List.foldl_append]
    rw [ih (max a (d.foldl max M)) (h.trans (le_max_left _ _)), foldl_max_of_le d a M h]

theorem min_accumulate_value (lim : NumericLimits α) (self : Min α) (d : List α) :
    (self.accumulate lim d)._min._value = d.foldl min lim.max := by
  simp [Min.accumulate, min_foldl_update, Min.init, CalculatorValue.setMax]

theorem max_accumulate_value (lim : NumericLimits α) (self : Max α) (d : List α) :
    (self.accumulate lim d)._max._value = d.foldl max lim.min := by
  simp [Max.accumulate, max_foldl_update, Max.init, CalculatorValue.setMin]

/-- Distributed `Min.compute` on a group with at least one rank: the fold of `min` from
`numeric_limits::max()` over the data of all ranks. -/
theorem min_compute_distributed (lim : NumericLimits α) (self : Min α)
    (group : List (List α)) (D : List α) (h : group ≠ []) :
    Min.compute lim self group D true = group.flatten.foldl min lim.max := by
  cases group with
  | nil => exact absurd rfl h
  | cons g gs =>
    simp only [Min.compute, Min.finalize, if_true, Min.get, CalculatorValue.get,
      List.map_cons, CalculatorValue.commMin, comm_min_fold, List.map_map]
    have e : (List.map ((fun w => w._value) ∘ (fun p => p._min) ∘ Min.accumulate lim self) gs)
        = gs.map (fun d => d.foldl min lim.max) := by
      apply List.map_congr_left
      intro d _
      exact min_accumulate_value lim self d
    rw [e, min_accumulate_value,
      foldl_min_locals lim.max gs _ (foldl_min_le g lim.max).1, List.flatten_cons,
      List.foldl_append]

/-- Distributed `Max.compute` on a group with at least one rank: the fold of `max` from
`numeric_limits::min()` over the data of all ranks. -/
theorem max_compute_distributed (lim : NumericLimits α) (self : Max α)
    (group : List (List α)) (D : List α) (h : group ≠ []) :
    Max.compute lim self group D true = group.flatten.foldl max lim.min := by
  cases group with
  | nil => exact absurd rfl h
  | cons g gs =>
    simp only [Max.compute, Max.finalize, if_true, Max.get, CalculatorValue.get,
      List.map_cons, CalculatorValue.commMax, comm_max_fold, List.map_map]
    have e : (List.map ((fun w => w._value) ∘ (fun p => p._max) ∘ Max.accumulate lim self) gs)
        = gs.map (fun d => d.foldl max lim.min) := by
      apply List.map_congr_left
      intro d _
      exact max_accumulate_value lim self d
    rw [e, max_accumulate_value,
      foldl_max_locals lim.min gs _ (foldl_max_ge g lim.min), List.flatten_cons,
      List.foldl_append]

/-- C12: for a non-empty global dataset split in any way over the ranks (empty slices
allowed), distributed `Min` and `Max` return what serial `Min` and `Max` return on the
concatenation of the slices. -/
theorem min_max_partition_invariant (lim : NumericLimits α) (minD minS : Min α)
    (maxD maxS : Max α) (group groupS : List (List α)) (D : List α)
    (h : group.flatten ≠ []) :
    Min.compute lim minD group D true = Min.compute lim minS groupS group.flatten false ∧
    Max.compute lim maxD group D true = Max.compute lim maxS groupS group.flatten false := by
  have hg : group ≠ [] := by
    intro e; rw [e] at h; exact h rfl
  rw [min_compute_distributed lim minD group D hg, max_compute_distributed lim maxD group D hg,
    min_compute_serial, max_compute_serial]
  exact ⟨rfl, rfl⟩

theorem ratio_foldl_update (D : List α) (s : Ratio α) :
    (D.foldl Ratio.update s)._min._value = D.foldl min s._min._value ∧
    (D.foldl Ratio.update s)._max._value = D.foldl max s._max._value := by
  induction D generalizing s with
  | nil => simp
  | cons x xs ih =>
    obtain ⟨h1, h2⟩ := ih (s.update x)
    have e1 : (s.update x)._min._value = min s._min._value x := by
      simp only [Ratio.update, CalculatorValue.min]
      rcases lt_or_le s._min._value x with h | h
      · rw [if_pos h, min_eq_left h.le]
      · rw [if_neg (not_lt.mpr h), min_eq_right h]
    have e2 : (s.update x)._max._value = max s._max._value x := by
      simp only [Ratio.update, CalculatorValue.max]
      rcases lt_or_le x s._max._value with h | h
      · rw [if_pos h, max_eq_left h.le]
      · rw [if_neg (not_lt.mpr h), max_eq_right h]
    rw [e1] at h1
    rw [e2] at h2
    exact ⟨h1, h2⟩

/-- Serial `Ratio.compute`: the fold of `max` from `numeric_limits::min()` divided by the
fold of `min` from `numeric_limits::max()`. -/
theorem ratio_compute_serial (lim : NumericLimits α) (self : Ratio α) (group : List (List α))
    (D : List α) :
    Ratio.compute lim self group D false = D.foldl max lim.min / D.foldl min lim.max := by
  obtain ⟨h1, h2⟩ := ratio_foldl_update D (self.init lim)
  simp only [Ratio.compute, Ratio.finalize, Ratio.get, CalculatorValue.get,
    CalculatorValue.divEq, Ratio.accumulate, Bool.false_eq_true, if_false, h1, h2]
  simp [Ratio.init, CalculatorValue.setMax, CalculatorValue.setMin]

end

theorem min_max_partition_invariant_witness :
    ([[], [-3, 5], [], [-8]] : List (List ℚ)).flatten ≠ [] ∧
      (Min.compute doubleLimits ⟨⟨7⟩⟩ [[], [-3, 5], [], [-8]] [] true
          = Min.compute doubleLimits ⟨⟨0⟩⟩ []
              ([[], [-3, 5], [], [-8]] : List (List ℚ)).flatten false ∧
        Max.compute doubleLimits ⟨⟨7⟩⟩ [[], [-3, 5], [], [-8]] [] true
          = Max.compute doubleLimits ⟨⟨0⟩⟩ []
              ([[], [-3, 5], [], [-8]] : List (List ℚ)).flatten false) :=
  ⟨by decide, min_max_partition_invariant _ _ _ _ _ _ _ _ (by decide)⟩

/-- C13: on the dataset `{-2, -1}` of `Real` values, whose smallest element `-2` is not zero,
`Ratio.compute` returns `2^-1022 / (-2)`, which is not the largest element over the
smallest, `(-1) / (-2)`. -/
theorem ratio_compute_negative_dataset (self : Ratio ℚ) (group : List (List ℚ)) :
    Ratio.compute doubleLimits self group [-2, -1] false = (1 / 2 ^ 1022) / (-2) ∧
      Ratio.compute doubleLimits self group [-2, -1] false ≠ (-1) / (-2) := by
  rw [ratio_compute_serial]
  simp [doubleLimits]
  constructor <;> norm_num

theorem item_eq_exclusive (item : MooseEnumItem) (s t : String)
    (h : item.eq s = true)
    (hne : (MooseEnumItem.upper s == MooseEnumItem.upper t) = false) :
    item.eq t = false := by
  simp only [MooseEnumItem.eq, beq_iff_eq] at h
  simp only [MooseEnumItem.eq, h]
  exact hne

section
variable {α : Type} [LinearOrderedField α]

/-- C17: `makeCalculator` ends in `mooseError` with a message that carries the token exactly
when the token matches none of min, max, sum, mean, average, stddev, stderr, norm2, ratio,
median; in every other case it returns a calculator, so no call returns without either. -/
theorem makeCalculator_error_iff_unknown (item : MooseEnumItem) :
    ((makeCalculator item : Result (Calculator α))
        = .mooseError ("Failed to create Statistics::Calculator object for " ++ item.name)
      ↔ ∀ token ∈ ["min", "max", "sum", "mean", "average", "stddev", "stderr", "norm2",
          "ratio", "median"], item.eq token = false) ∧
    ((∃ c : Calculator α, makeCalculator item = .value c) ∨
      (makeCalculator item : Result (Calculator α))
        = .mooseError ("Failed to create Statistics::Calculator object for " ++ item.name)) := by
  simp only [makeCalculator, List.mem_cons, List.mem_singleton, forall_eq_or_imp, forall_eq,
    List.not_mem_nil, false_implies, implies_true, and_true, Bool.or_eq_true]
  by_cases h1 : item.eq "min" = true
  · simp [h1]
  by_cases h2 : item.eq "max" = true
  · simp [h1, h2]
  by_cases h3 : item.eq "sum" = true
  · simp [h1, h2, h3]
  by_cases h4 : item.eq "mean" = true
  · simp [h1, h2, h3, h4]
  by_cases h5 : item.eq "average" = true
  · simp [h1, h2, h3, h4, h5]
  by_cases h6 : item.eq "stddev" = true
  · simp [h1, h2, h3, h4, h5, h6]
  by_cases h7 : item.eq "stderr" = true
  · simp [h1, h2, h3, h4, h5, h6, h7]
  by_cases h8 : item.eq "norm2" = true
  · simp [h1, h2, h3, h4, h5, h6, h7, h8]
  by_cases h9 : item.eq "ratio" = true
  · simp [h1, h2, h3, h4, h5, h6, h7, h8, h9]
  by_cases h10 : item.eq "median" = true
  · simp [h1, h2, h3, h4, h5, h6, h7, h8, h9, h10]
  simp [h1, h2, h3, h4, h5, h6, h7, h8, h9, h10]

end

section
variable {α : Type} [LinearOrderedField α]

theorem calculator_foldl_update_mean (name : String) (D : List α) (m : Mean α) :
    D.foldl Calculator.update ⟨name, .mean m⟩ = ⟨name, .mean (D.foldl Mean.update m)⟩ := by
  induction D generalizing m with
  | nil => rfl
  | cons x xs ih => exact ih (m.update x)

/-- `Calculator::compute` on an object of class `mean`: the value of the embedded `compute`
of that class, and the object left behind. -/
theorem calculator_compute_mean (lim : NumericLimits α) (sqrtFn : α → α) (fuel : Nat)
    (name : String) (m : Mean α) (group : List (List α)) (D : List α)
    (is_distributed : Bool) :
    Calculator.compute lim sqrtFn fuel ⟨name, .mean m⟩ group D is_distributed
      = some (Mean.compute m group D is_distributed,
          ⟨name, .mean ((m.accumulate D).finalize (group.map m.accumulate) is_distributed)⟩) := by
  simp only [Calculator.compute, Calculator.init, calculator_foldl_update_mean,
    Calculator.finalize, Option.map_some', Calculator.get]
  rfl

theorem calculator_foldl_update_min (name : String) (D : List α) (m : Min α) :
    D.foldl Calculator.update ⟨name, .min m⟩ = ⟨name, .min (D.foldl Min.update m)⟩ := by
  induction D generalizing m with
  | nil => rfl
  | cons x xs ih => exact ih (m.update x)

/-- `Calculator::compute` on an object of class `min`: the value of the embedded `compute`
of that class, and the object left behind. -/
theorem calculator_compute_min (lim : NumericLimits α) (sqrtFn : α → α) (fuel : Nat)
    (name : String) (m : Min α) (group : List (List α)) (D : List α)
    (is_distributed : Bool) :
    Calculator.compute lim sqrtFn fuel ⟨name, .min m⟩ group D is_distributed
      = some (Min.compute lim m group D is_distributed,
          ⟨name, .min ((m.accumulate lim D).finalize (group.map (m.accumulate lim)) is_distributed)⟩) := by
  simp only [Calculator.compute, Calculator.init, calculator_foldl_update_min,
    Calculator.finalize, Option.map_some', Calculator.get]
  rfl

theorem calculator_foldl_update_max (name : String) (D : List α) (m : Max α) :
    D.foldl Calculator.update ⟨name, .max m⟩ = ⟨name, .max (D.foldl Max.update m)⟩ := by
  induction D generalizing m with
  | nil => rfl
  | cons x xs ih => exact ih (m.update x)

/-- `Calculator::compute` on an object of class `max`: the value of the embedded `compute`
of that class, and the object left behind. -/
theorem calculator_compute_max (lim : NumericLimits α) (sqrtFn : α → α) (fuel : Nat)
    (name : String) (m : Max α) (group : List (List α)) (D : List α)
    (is_distributed : Bool) :
    Calculator.compute lim sqrtFn fuel ⟨name, .max m⟩ group D is_distributed
      = some (Max.compute lim m group D is_distributed,
          ⟨name, .max ((m.accumulate lim D).finalize (group.map (m.accumulate lim)) is_distributed)⟩) := by
  simp only [Calculator.compute, Calculator.init, calculator_foldl_update_max,
    Calculator.finalize, Option.map_some', Calculator.get]
  rfl

theorem calculator_foldl_update_sum (name : String) (D : List α) (m : Sum α) :
    D.foldl Calculator.update ⟨name, .sum m⟩ = ⟨name, .sum (D.foldl Sum.update m)⟩ := by
  induction D generalizing m with
  | nil => rfl
  | cons x xs ih => exact ih (m.update x)

/-- `Calculator::compute` on an object of class `sum`: the value of the embedded `compute`
of that class, and the object left behind. -/
theorem calculator_compute_sum (lim : NumericLimits α) (sqrtFn : α → α) (fuel : Nat)
    (name : String) (m : Sum α) (group : List (List α)) (D : List α)
    (is_distributed : Bool) :
    Calculator.compute lim sqrtFn fuel ⟨name, .sum m⟩ group D is_distributed
      = some (Sum.compute m group D is_distributed,
          ⟨name, .sum ((m.accumulate D).finalize (group.map m.accumulate) is_distributed)⟩) := by
  simp only [Calculator.compute, Calculator.init, calculator_foldl_update_sum,
    Calculator.finalize, Option.map_some', Calculator.get]
  rfl

theorem calculator_foldl_update_stddev (name : String) (D : List α) (m : StdDev α) :
    D.foldl Calculator.update ⟨name, .stddev m⟩ = ⟨name, .stddev (D.foldl StdDev.update m)⟩ := by
  induction D generalizing m with
  | nil => rfl
  | cons x xs ih => exact ih (m.update x)

/-- `Calculator::compute` on an object of class `stddev`: the value of the embedded `compute`
of that class, and the object left behind. -/
theorem calculator_compute_stddev (lim : NumericLimits α) (sqrtFn : α → α) (fuel : Nat)
    (name : String) (m : StdDev α) (group : List (List α)) (D : List α)
    (is_distributed : Bool) :
    Calculator.compute lim sqrtFn fuel ⟨name, .stddev m⟩ group D is_distributed
      = some (StdDev.compute sqrtFn m group D is_distributed,
          ⟨name, .stddev ((m.accumulate D).finalize sqrtFn (group.map m.accumulate) is_distributed)⟩) := by
  simp only [Calculator.compute, Calculator.init, calculator_foldl_update_stddev,
    Calculator.finalize, Option.map_some', Calculator.get]
  rfl

theorem calculator_foldl_update_stderr (name : String) (D : List α) (m : StdDev α) :
    D.foldl Calculator.update ⟨name, .stderr m⟩ = ⟨name, .stderr (D.foldl StdDev.update m)⟩ := by
  induction D generalizing m with
  | nil => rfl
  | cons x xs ih => exact ih (m.update x)

/-- `Calculator::compute` on an object of class `stderr`: the value of the embedded `compute`
of that class, and the object left behind. -/
theorem calculator_compute_stderr (lim : NumericLimits α) (sqrtFn : α → α) (fuel : Nat)
    (name : String) (m : StdDev α) (group : List (List α)) (D : List α)
    (is_distributed : Bool) :
    Calculator.compute lim sqrtFn fuel ⟨name, .stderr m⟩ group D is_distributed
      = some (StdErr.compute sqrtFn m group D is_distributed,
          ⟨name, .stderr (StdErr.finalize sqrtFn (group.map m.accumulate) is_distributed (m.accumulate D))⟩) := by
  simp only [Calculator.compute, Calculator.init, calculator_foldl_update_stderr,
    Calculator.finalize, Option.map_some', Calculator.get]
  rfl

theorem calculator_foldl_update_ratio (name : String) (D : List α) (m : Ratio α) :
    D.foldl Calculator.update ⟨name, .ratio m⟩ = ⟨name, .ratio (D.foldl Ratio.update m)⟩ := by
  induction D generalizing m with
  | nil => rfl
  | cons x xs ih => exact ih (m.update x)

/-- `Calculator::compute` on an object of class `ratio`: the value of the embedded `compute`
of that class, and the object left behind. -/
theorem calculator_compute_ratio (lim : NumericLimits α) (sqrtFn : α → α) (fuel : Nat)
    (name : String) (m : Ratio α) (group : List (List α)) (D : List α)
    (is_distributed : Bool) :
    Calculator.compute lim sqrtFn fuel ⟨name, .ratio m⟩ group D is_distributed
      = some (Ratio.compute lim m group D is_distributed,
          ⟨name, .ratio ((m.accumulate lim D).finalize (group.map (m.accumulate lim)) is_distributed)⟩) := by
  simp only [Calculator.compute, Calculator.init, calculator_foldl_update_ratio,
    Calculator.finalize, Option.map_some', Calculator.get]
  rfl

theorem calculator_foldl_update_l2norm (name : String) (D : List α) (m : L2Norm α) :
    D.foldl Calculator.update ⟨name, .l2norm m⟩ = ⟨name, .l2norm (D.foldl L2Norm.update m)⟩ := by
  induction D generalizing m with
  | nil => rfl
  | cons x xs ih => exact ih (m.update x)

/-- `Calculator::compute` on an object of class `l2norm`: the value of the embedded `compute`
of that class, and the object left behind. -/
theorem calculator_compute_l2norm (lim : NumericLimits α) (sqrtFn : α → α) (fuel : Nat)
    (name : String) (m : L2Norm α) (group : List (List α)) (D : List α)
    (is_distributed : Bool) :
    Calculator.compute lim sqrtFn fuel ⟨name, .l2norm m⟩ group D is_distributed
      = some (L2Norm.compute sqrtFn m group D is_distributed,
          ⟨name, .l2norm ((m.accumulate D).finalize sqrtFn (group.map m.accumulate) is_distributed)⟩) := by
  simp only [Calculator.compute, Calculator.init, calculator_foldl_update_l2norm,
    Calculator.finalize, Option.map_some', Calculator.get]
  rfl

end

section
variable {α : Type} [LinearOrderedField α]

theorem median_accumulate_eq (m : Median α) (D : List α) :
    m.accumulate D = ⟨D.map (fun v => ⟨v⟩), m._median⟩ := by
  obtain ⟨h1, h2⟩ := median_accumulate m D
  cases h : m.accumulate D with
  | mk s md =>
    rw [h] at h1 h2
    simp only at h1 h2
    rw [h1, h2]

theorem median_pivot_indep (m m' : CalculatorValue α) (L : List (List (CalculatorValue α))) :
    Median.pivot m L = Median.pivot m' L := by
  induction L with
  | nil => rfl
  | cons s rest ih =>
    cases s with
    | nil => simpa [Median.pivot] using ih
    | cons v vs => rfl

theorem median_loop_indep (lim : NumericLimits α) (count fuel : Nat)
    (L : List (List (CalculatorValue α))) (mine : List (CalculatorValue α))
    (m m' : CalculatorValue α) (kgt klt : Nat) :
    Median.loop lim count fuel L mine m kgt klt
      = Median.loop lim count fuel L mine m' kgt klt := by
  cases fuel with
  | zero => rfl
  | succ fuel => simp only [Median.loop, median_pivot_indep m m' L]

/-- The state `Median::finalize` leaves does not depend on the `_median` it finds. -/
theorem median_finalize_indep (lim : NumericLimits α) (fuel : Nat)
    (group : List (List α)) (D : List α) (is_distributed : Bool) (m m' : Median α) :
    Median.finalize lim fuel (group.map m.accumulate) is_distributed (m.accumulate D)
      = Median.finalize lim fuel (group.map m'.accumulate) is_distributed (m'.accumulate D) := by
  have hs : ∀ x : Median α, (group.map x.accumulate).map (fun p => p._storage)
      = group.map (fun d => d.map (fun v => (⟨v⟩ : CalculatorValue α))) := by
    intro x
    rw [List.map_map]
    apply List.map_congr_left
    intro d _
    exact (median_accumulate x d).1
  have hl : ∀ x : Median α, (group.map x.accumulate).map (fun p => p._storage.length)
      = group.map List.length := by
    intro x
    rw [List.map_map]
    apply List.map_congr_left
    intro d _
    simp [(median_accumulate x d).1]
  simp only [Median.finalize, hs, hl, median_accumulate_eq, List.length_map]
  have hz : m._median.zero = m'._median.zero := rfl
  rw [hz]

theorem median_compute_indep (lim : NumericLimits α) (fuel : Nat)
    (group : List (List α)) (D : List α) (is_distributed : Bool) (m m' : Median α) :
    Median.compute lim fuel m group D is_distributed
      = Median.compute lim fuel m' group D is_distributed := by
  simp only [Median.compute, median_finalize_indep lim fuel group D is_distributed m m']

theorem calculator_foldl_update_median (name : String) (D : List α) (m : Median α) :
    D.foldl Calculator.update ⟨name, .median m⟩ = ⟨name, .median (D.foldl Median.update m)⟩ := by
  induction D generalizing m with
  | nil => rfl
  | cons x xs ih => exact ih (m.update x)

/-- `Calculator::compute` on an object of class `Median`. -/
theorem calculator_compute_median (lim : NumericLimits α) (sqrtFn : α → α) (fuel : Nat)
    (name : String) (m : Median α) (group : List (List α)) (D : List α)
    (is_distributed : Bool) :
    Calculator.compute lim sqrtFn fuel ⟨name, .median m⟩ group D is_distributed
      = (Median.finalize lim fuel (group.map m.accumulate) is_distributed
          (m.accumulate D)).map (fun r => (r.get, ⟨name, .median r⟩)) := by
  have e : D.foldl Median.update m.init = m.accumulate D := rfl
  have e2 : Median.accumulate (m.accumulate D) = Median.accumulate m := by
    funext d
    rw [median_accumulate_eq (m.accumulate D) d, median_accumulate_eq m d,
      (median_accumulate m D).2]
  simp only [Calculator.compute, Calculator.init, calculator_foldl_update_median,
    Calculator.finalize, e, e2]
  cases Median.finalize lim fuel (List.map m.accumulate group) is_distributed (m.accumulate D)
    <;> rfl

/-- The value `Calculator::compute` returns depends on the class of the object only, not
on the values its data members hold when the call is made. -/
theorem calculator_compute_value_indep (lim : NumericLimits α) (sqrtFn : α → α) (fuel : Nat)
    (c c' : Calculator α) (h : c.variant.statistic = c'.variant.statistic)
    (group : List (List α)) (D : List α) (is_distributed : Bool) :
    (c.compute lim sqrtFn fuel group D is_distributed).map Prod.fst
      = (c'.compute lim sqrtFn fuel group D is_distributed).map Prod.fst := by
  obtain ⟨n, v⟩ := c
  obtain ⟨n', v'⟩ := c'
  cases v <;> cases v' <;> simp only [Variant.statistic] at h <;>
    first
    | exact absurd h (by decide)
    | (simp only [calculator_compute_mean, calculator_compute_min, calculator_compute_max,
        calculator_compute_sum, calculator_compute_stddev, calculator_compute_stderr,
        calculator_compute_ratio, calculator_compute_l2norm, Option.map_some']; rfl)
    | (simp only [calculator_compute_median, Option.map_map]
       rw [median_finalize_indep lim fuel group D is_distributed _ _]
       rfl)

/-- An object keeps its class and its name through `Calculator::compute`. -/
theorem calculator_compute_preserves (lim : NumericLimits α) (sqrtFn : α → α) (fuel : Nat)
    (c c1 : Calculator α) (group : List (List α)) (D : List α) (is_distributed : Bool)
    (v : α) (h : c.compute lim sqrtFn fuel group D is_distributed = some (v, c1)) :
    c1.variant.statistic = c.variant.statistic ∧ c1._name = c._name := by
  obtain ⟨n, w⟩ := c
  cases w with
  | median m =>
    rw [calculator_compute_median] at h
    cases hf : Median.finalize lim fuel (List.map m.accumulate group) is_distributed
        (m.accumulate D) with
    | none => rw [hf] at h; simp at h
    | some r =>
      rw [hf] at h
      simp only [Option.map_some', Option.some.injEq, Prod.mk.injEq] at h
      rw [← h.2]
      exact ⟨rfl, rfl⟩
  | mean m =>
    rw [calculator_compute_mean] at h
    simp only [Option.some.injEq, Prod.mk.injEq] at h
    rw [← h.2]; exact ⟨rfl, rfl⟩
  | min m =>
    rw [calculator_compute_min] at h
    simp only [Option.some.injEq, Prod.mk.injEq] at h
    rw [← h.2]; exact ⟨rfl, rfl⟩
  | max m =>
    rw [calculator_compute_max] at h
    simp only [Option.some.injEq, Prod.mk.injEq] at h
    rw [← h.2]; exact ⟨rfl, rfl⟩
  | sum m =>
    rw [calculator_compute_sum] at h
    simp only [Option.some.injEq, Prod.mk.injEq] at h
    rw [← h.2]; exact ⟨rfl, rfl⟩
  | stddev m =>
    rw [calculator_compute_stddev] at h
    simp only [Option.some.injEq, Prod.mk.injEq] at h
    rw [← h.2]; exact ⟨rfl, rfl⟩
  | stderr m =>
    rw [calculator_compute_stderr] at h
    simp only [Option.some.injEq, Prod.mk.injEq] at h
    rw [← h.2]; exact ⟨rfl, rfl⟩
  | ratio m =>
    rw [calculator_compute_ratio] at h
    simp only [Option.some.injEq, Prod.mk.injEq] at h
    rw [← h.2]; exact ⟨rfl, rfl⟩
  | l2norm m =>
    rw [calculator_compute_l2norm] at h
    simp only [Option.some.injEq, Prod.mk.injEq] at h
    rw [← h.2]; exact ⟨rfl, rfl⟩

end

section
variable {α : Type} [LinearOrderedField α]

/-- Serial `Calculator::compute` returns for every class. -/
theorem calculator_compute_serial_some (lim : NumericLimits α) (sqrtFn : α → α) (fuel : Nat)
    (c : Calculator α) (group : List (List α)) (D : List α) :
    ∃ v c1, c.compute lim sqrtFn fuel group D false = some (v, c1) := by
  obtain ⟨n, w⟩ := c
  cases w with
  | median m =>
    have hP := List.perm_insertionSort (fun a b : α => a ≤ b) D
    have hS := List.sorted_insertionSort (fun a b : α => a ≤ b) D
    have h := median_compute_serial_eq lim fuel m group D _ hS hP
    rw [calculator_compute_median]
    cases hf : Median.finalize lim fuel (List.map m.accumulate group) false (m.accumulate D) with
    | none => simp [Median.compute, hf] at h
    | some r => exact ⟨_, _, rfl⟩
  | mean m => exact ⟨_, _, calculator_compute_mean lim sqrtFn fuel n m group D false⟩
  | min m => exact ⟨_, _, calculator_compute_min lim sqrtFn fuel n m group D false⟩
  | max m => exact ⟨_, _, calculator_compute_max lim sqrtFn fuel n m group D false⟩
  | sum m => exact ⟨_, _, calculator_compute_sum lim sqrtFn fuel n m group D false⟩
  | stddev m => exact ⟨_, _, calculator_compute_stddev lim sqrtFn fuel n m group D false⟩
  | stderr m => exact ⟨_, _, calculator_compute_stderr lim sqrtFn fuel n m group D false⟩
  | ratio m => exact ⟨_, _, calculator_compute_ratio lim sqrtFn fuel n m group D false⟩
  | l2norm m => exact ⟨_, _, calculator_compute_l2norm lim sqrtFn fuel n m group D false⟩

/-- C15: for an object `c` of any of the nine classes, `compute(D1, false)` followed by
`compute(D2, false)` on the same object returns for `D2` the value that `compute(D2, false)`
returns on any other object `fresh` of that class, a newly constructed one included; all
three calls return. -/
theorem calculator_stateless_between_computes (lim : NumericLimits α) (sqrtFn : α → α)
    (fuel : Nat) (c fresh : Calculator α)
    (h : fresh.variant.statistic = c.variant.statistic)
    (g1 g2 g3 : List (List α)) (D1 D2 : List α) :
    ∃ v1 c1 v2 c2 f2,
      c.compute lim sqrtFn fuel g1 D1 false = some (v1, c1) ∧
      c1.compute lim sqrtFn fuel g2 D2 false = some (v2, c2) ∧
      fresh.compute lim sqrtFn fuel g3 D2 false = some (v2, f2) := by
  obtain ⟨v1, c1, h1⟩ := calculator_compute_serial_some lim sqrtFn fuel c g1 D1
  obtain ⟨v2, c2, h2⟩ := calculator_compute_serial_some lim sqrtFn fuel c1 g2 D2
  obtain ⟨v3, f2, h3⟩ := calculator_compute_serial_some lim sqrtFn fuel fresh g3 D2
  have hp := (calculator_compute_preserves lim sqrtFn fuel c c1 g1 D1 false v1 h1).1
  have hv := calculator_compute_value_indep lim sqrtFn fuel c1 fresh (hp.trans h.symm) g2 D2 false
  have hg : ∀ (x : Calculator α) (g g' : List (List α)),
      (x.compute lim sqrtFn fuel g D2 false).map Prod.fst
        = (x.compute lim sqrtFn fuel g' D2 false).map Prod.fst := by
    intro x g g'
    obtain ⟨n, w⟩ := x
    cases w <;>
      first
      | (simp only [calculator_compute_mean, calculator_compute_min, calculator_compute_max,
          calculator_compute_sum, calculator_compute_stddev, calculator_compute_stderr,
          calculator_compute_ratio, calculator_compute_l2norm, Option.map_some']; rfl)
      | (simp only [calculator_compute_median, Option.map_map]
         have e : ∀ (m : Median α) (G G' : List (Median α)),
             Median.finalize lim fuel G false (m.accumulate D2)
               = Median.finalize lim fuel G' false (m.accumulate D2) := by
           intro m G G'
           simp [Median.finalize]
         rw [e _ (List.map _ g) (List.map _ g')])
  rw [hg fresh g2 g3, h2, h3] at hv
  simp only [Option.map_some', Option.some.injEq] at hv
  exact ⟨v1, c1, v2, c2, f2, h1, h2, by rw [h3, hv]⟩

end

theorem calculator_stateless_between_computes_witness :
    (Calculator.construct .median ⟨"median"⟩ : Calculator ℚ).variant.statistic
        = (Calculator.construct .median ⟨"median"⟩ : Calculator ℚ).variant.statistic ∧
      ∃ v1 c1 v2 c2 f2,
        (Calculator.construct .median ⟨"median"⟩ : Calculator ℚ).compute doubleLimits
            (fun x => x) 0 [] [3, 1, 2] false = some (v1, c1) ∧
        c1.compute doubleLimits (fun x => x) 0 [] [5, 4] false = some (v2, c2) ∧
        (Calculator.construct .median ⟨"median"⟩ : Calculator ℚ).compute doubleLimits
            (fun x => x) 0 [] [5, 4] false = some (v2, f2) :=
  ⟨rfl, calculator_stateless_between_computes _ _ _ _ _ rfl _ _ _ _ _⟩

theorem makeCalculator_error_iff_unknown_witness :
    (makeCalculator ⟨"mode"⟩ : Result (Calculator ℚ))
      = .mooseError "Failed to create Statistics::Calculator object for mode" :=
  (makeCalculator_error_iff_unknown ⟨"mode"⟩).1.2 (by decide)

section
variable {γ α : Type} [LinearOrderedField α]

omit [LinearOrderedField α] in
theorem foldl_choice_mem (f : α → α → α) (hf : ∀ a b, f a b = a ∨ f a b = b) (xs : List α) :
    ∀ x, xs.foldl f x = x ∨ xs.foldl f x ∈ xs := by
  induction xs with
  | nil => intro x; exact Or.inl rfl
  | cons y ys ih =>
    intro x
    simp only [List.foldl_cons, List.mem_cons]
    rcases ih (f x y) with h | h
    · rcases hf x y with e | e
      · left; rw [h, e]
      · right; left; rw [h, e]
    · right; right; exact h

theorem bootstrap_minElement_mem (levels : List α) (lo : α)
    (h : BootstrapCalculator.minElement levels = some lo) : lo ∈ levels := by
  cases levels with
  | nil => simp [BootstrapCalculator.minElement] at h
  | cons x xs =>
    simp only [BootstrapCalculator.minElement, Option.some.injEq] at h
    rw [← h, List.mem_cons]
    exact foldl_choice_mem _ (fun a b => by
      show (if b < a then b else a) = a ∨ (if b < a then b else a) = b
      split
      · exact Or.inr rfl
      · exact Or.inl rfl) xs x

theorem bootstrap_maxElement_mem (levels : List α) (hi : α)
    (h : BootstrapCalculator.maxElement levels = some hi) : hi ∈ levels := by
  cases levels with
  | nil => simp [BootstrapCalculator.maxElement] at h
  | cons x xs =>
    simp only [BootstrapCalculator.maxElement, Option.some.injEq] at h
    rw [← h, List.mem_cons]
    exact foldl_choice_mem _ (fun a b => by
      show (if a < b then b else a) = a ∨ (if a < b then b else a) = b
      split
      · exact Or.inr rfl
      · exact Or.inl rfl) xs x

/-- The constructor returns the object when assertions are compiled out or the levels are
a non-empty list of values strictly between 0 and 1. -/
theorem bootstrap_construct_value (L : Library γ α) (method : BootstrapMethod)
    (name : String) (levels : List α) (replicates seed : Nat)
    (h : L.assertsActive = false ∨ (levels ≠ [] ∧ ∀ l ∈ levels, 0 < l ∧ l < 1)) :
    BootstrapCalculator.construct L method name levels replicates seed
      = .value ⟨method, levels, replicates, seed, name⟩ := by
  unfold BootstrapCalculator.construct
  rcases h with h | ⟨hne, hl⟩
  · simp [h]
  · by_cases ha : L.assertsActive = true
    · cases levels with
      | nil => exact absurd rfl hne
      | cons x xs =>
        have h1 := bootstrap_minElement_mem (x :: xs) _ rfl
        have h2 := bootstrap_maxElement_mem (x :: xs) _ rfl
        have p1 := (hl _ h1).1
        have p2 := (hl _ h2).2
        simp only [BootstrapCalculator.minElement, BootstrapCalculator.maxElement] at p1 p2 ⊢
        simp [ha, p1, p2]
    · simp [ha]

/-- C18: with levels that pass the assertions of the constructor (or assertions compiled
out), `makeBootstrapCalculator` returns a `Percentile` object for "percentile" and a
`BiasCorrectedAccelerated` object for "bca"; for a token that matches neither it ends in
`mooseError` with a message that carries the token, whatever the levels. -/
theorem makeBootstrapCalculator_tokens (L : Library γ α) (item : MooseEnum)
    (levels : List α) (replicates seed : Nat)
    (h : L.assertsActive = false ∨ (levels ≠ [] ∧ ∀ l ∈ levels, 0 < l ∧ l < 1)) :
    (item.current.eq "percentile" = true →
      makeBootstrapCalculator L item levels replicates seed
        = .value ⟨.percentile, levels, replicates, seed, item.current.name⟩) ∧
    (item.current.eq "bca" = true →
      makeBootstrapCalculator L item levels replicates seed
        = .value ⟨.bca, levels, replicates, seed, item.current.name⟩) ∧
    (item.current.eq "percentile" = false → item.current.eq "bca" = false →
      makeBootstrapCalculator L item levels replicates seed
        = .mooseError ("Failed to create Statistics::BootstrapCalculator object for "
            ++ item.current.name)) := by
  refine ⟨?_, ?_, ?_⟩
  · intro hp
    simp [makeBootstrapCalculator, hp, bootstrap_construct_value L _ _ _ _ _ h]
  · intro hb
    have hp := item_eq_exclusive item.current "bca" "percentile" hb (by decide)
    simp [makeBootstrapCalculator, hp, hb, bootstrap_construct_value L _ _ _ _ _ h]
  · intro hp hb
    simp [makeBootstrapCalculator, hp, hb]

end

theorem makeBootstrapCalculator_tokens_witness :
    ((true = false) ∨ (([1 / 2, 9 / 10] : List ℚ) ≠ [] ∧
        ∀ l ∈ ([1 / 2, 9 / 10] : List ℚ), 0 < l ∧ l < 1)) ∧
      makeBootstrapCalculator
          (⟨doubleLimits, fun x => x, fun x _ => x, fun _ => 0, fun x => x, fun x => x,
            fun s => s, fun g d => (d, g + 1), fun g ds => (ds, g + 1), true⟩ : Library Nat ℚ)
          ⟨⟨"unknown_method"⟩⟩ [1 / 2, 9 / 10] 1000 7
        = .mooseError
            "Failed to create Statistics::BootstrapCalculator object for unknown_method" :=
  have h : (true = false) ∨ (([1 / 2, 9 / 10] : List ℚ) ≠ [] ∧
      ∀ l ∈ ([1 / 2, 9 / 10] : List ℚ), 0 < l ∧ l < 1) := by
    right
    refine ⟨by decide, ?_⟩
    intro l hl
    simp only [List.mem_cons, List.mem_singleton, List.not_mem_nil, or_false] at hl
    rcases hl with rfl | rfl <;> norm_num
  ⟨h, (makeBootstrapCalculator_tokens _ ⟨⟨"unknown_method"⟩⟩ _ 1000 7 h).2.2
    (by decide) (by decide)⟩

section
variable {γ α : Type} [LinearOrderedField α]

/-- One iteration of the loop of `computeBootstrapEstimates` is one `Calculator::compute`
on the resample. -/
theorem replicateLoop_succ (L : Library γ α) (fuel : Nat) (group : List (List α)) (rank : Nat)
    (data : List α) (is_distributed : Bool) (n : Nat) (generator : γ) (c : Calculator α) :
    BootstrapCalculator.replicateLoop L fuel group rank data is_distributed (n + 1) generator c
      = match c.compute L.limits L.sqrt fuel
            (BootstrapCalculator.resampleAct L generator group rank data is_distributed).1
            (BootstrapCalculator.resampleAct L generator group rank data is_distributed).2.1
            is_distributed with
        | none => none
        | some (v, c1) =>
          (BootstrapCalculator.replicateLoop L fuel group rank data is_distributed n
            (BootstrapCalculator.resampleAct L generator group rank data is_distributed).2.2
            c1).map (fun rest => (v :: rest.1, rest.2)) := by
  simp only [BootstrapCalculator.replicateLoop, Calculator.compute]
  cases Calculator.finalize L.limits L.sqrt fuel
      (BootstrapCalculator.resampleAct L generator group rank data is_distributed).1
      is_distributed
      (List.foldl Calculator.update (Calculator.init L.limits c)
        (BootstrapCalculator.resampleAct L generator group rank data is_distributed).2.1)
    <;> rfl

/-- The loop of `computeBootstrapEstimates` from iteration `k` on: when each of the `n`
stand-alone runs returns, the loop returns their values in order, whatever the data members
of the calculator it starts from, and leaves an object of the same class. -/
theorem replicateLoop_values (L : Library γ α) (fuel : Nat) (self : BootstrapCalculator α)
    (c0 : Calculator α) (group : List (List α)) (rank : Nat) (data : List α)
    (is_distributed : Bool) :
    ∀ (n k : Nat) (c : Calculator α),
      c.variant.statistic = c0.variant.statistic →
      (∀ i, i < n →
        (self.replicateAt L fuel c0 group rank data is_distributed (k + i)).isSome) →
      ∃ vals c1,
        BootstrapCalculator.replicateLoop L fuel group rank data is_distributed n
            (self.generatorAt L group rank data is_distributed k) c = some (vals, c1) ∧
        vals.length = n ∧
        c1.variant.statistic = c0.variant.statistic ∧
        ∀ i, i < n →
          self.replicateAt L fuel c0 group rank data is_distributed (k + i)
            = some (vals.getD i 0) := by
  intro n
  induction n with
  | zero =>
    intro k c hc _
    exact ⟨[], c, rfl, rfl, hc, fun i hi => absurd hi (Nat.not_lt_zero i)⟩
  | succ n ih =>
    intro k c hc hret
    have h0 := hret 0 (Nat.succ_pos n)
    have hv := calculator_compute_value_indep L.limits L.sqrt fuel c c0 hc
      (self.resampleAt L group rank data is_distributed k).1
      (self.resampleAt L group rank data is_distributed k).2 is_distributed
    rw [replicateLoop_succ]
    cases hcomp : c.compute L.limits L.sqrt fuel
        (BootstrapCalculator.resampleAct L
          (self.generatorAt L group rank data is_distributed k) group rank data
          is_distributed).1
        (BootstrapCalculator.resampleAct L
          (self.generatorAt L group rank data is_distributed k) group rank data
          is_distributed).2.1 is_distributed with
    | none =>
      exfalso
      simp only [BootstrapCalculator.resampleAt] at hv
      rw [hcomp] at hv
      simp only [Nat.add_zero, BootstrapCalculator.replicateAt,
        BootstrapCalculator.resampleAt] at h0
      rw [← hv] at h0
      simp at h0
    | some p =>
      obtain ⟨v, c1⟩ := p
      have hp := (calculator_compute_preserves L.limits L.sqrt fuel c c1 _ _ is_distributed v
        hcomp).1
      obtain ⟨vals, c2, hloop, hlen, hcls, hval⟩ := ih (k + 1) c1 (hp.trans hc)
        (fun i hi => by
          have := hret (i + 1) (Nat.succ_lt_succ hi)
          rwa [Nat.add_assoc, Nat.add_comm 1 i])
      have hgen : (BootstrapCalculator.resampleAct L
          (self.generatorAt L group rank data is_distributed k) group rank data
          is_distributed).2.2 = self.generatorAt L group rank data is_distributed (k + 1) := rfl
      refine ⟨v :: vals, c2, ?_, by simp [hlen], hcls, ?_⟩
      · simp only [hgen, hloop, Option.map_some']
      · intro i hi
        cases i with
        | zero =>
          simp only [BootstrapCalculator.resampleAt] at hv
          rw [hcomp] at hv
          simp only [Nat.add_zero, BootstrapCalculator.replicateAt,
            BootstrapCalculator.resampleAt, List.getD_cons_zero]
          rw [← hv]
          rfl
        | succ i =>
          have := hval i (Nat.lt_of_succ_lt_succ hi)
          rw [List.getD_cons_succ, ← this, Nat.add_assoc, Nat.add_comm 1 i]

/-- The sorted replicates: `computeBootstrapEstimates` returns, in serial mode and whenever
each stand-alone replicate run returns, `_replicates` ascending values that are a
permutation of the stand-alone replicates, and leaves the calculator in its class. -/
theorem computeBootstrapEstimates_returns (L : Library γ α) (fuel : Nat)
    (self : BootstrapCalculator α) (c0 : Calculator α) (group : List (List α)) (rank : Nat)
    (data : List α) (is_distributed : Bool)
    (h : is_distributed = false ∨ ∀ i, i < self._replicates →
      (self.replicateAt L fuel c0 group rank data is_distributed i).isSome) :
    ∃ values c1 reps,
      self.computeBootstrapEstimates L fuel c0 group rank data is_distributed
        = some (values, c1) ∧
      values.length = self._replicates ∧
      values.Sorted (fun a b => a ≤ b) ∧
      reps.length = self._replicates ∧
      (∀ i, i < self._replicates →
        self.replicateAt L fuel c0 group rank data is_distributed i = some (reps.getD i 0)) ∧
      values.Perm reps ∧
      c1.variant.statistic = c0.variant.statistic := by
  have hret : ∀ i, i < self._replicates →
      (self.replicateAt L fuel c0 group rank data is_distributed i).isSome := by
    rcases h with h | h
    · intro i _
      subst h
      obtain ⟨v, c1, hc⟩ := calculator_compute_serial_some L.limits L.sqrt fuel c0
        (self.resampleAt L group rank data false i).1
        (self.resampleAt L group rank data false i).2
      simp [BootstrapCalculator.replicateAt, hc]
    · exact h
  obtain ⟨vals, c1, hloop, hlen, hcls, hval⟩ := replicateLoop_values L fuel self c0 group rank data
    is_distributed self._replicates 0 c0 rfl (fun i hi => by simpa using hret i hi)
  refine ⟨inplaceSort vals, c1, vals, ?_, ?_, ?_, hlen, ?_, ?_, hcls⟩
  · simp only [BootstrapCalculator.computeBootstrapEstimates]
    have hg : self.generatorAt L group rank data is_distributed 0 = L.seed self._seed := rfl
    rw [← hg, hloop]
    rfl
  · rw [inplaceSort, List.length_insertionSort, hlen]
  · exact List.sorted_insertionSort _ _
  · intro i hi
    simpa using hval i hi
  · exact List.perm_insertionSort _ _

/-- C19: `computeBootstrapEstimates` returns `_replicates` values in ascending order that
are a permutation of the replicates `reps`, the `i`-th being the value of one stand-alone
run of the wrapped calculator on resample `i`.  It returns in serial mode, and in
distributed mode when each of those runs returns with the given fuel. -/
theorem computeBootstrapEstimates_sorted_replicates (L : Library γ α) (fuel : Nat)
    (self : BootstrapCalculator α) (c0 : Calculator α) (group : List (List α)) (rank : Nat)
    (data : List α) (is_distributed : Bool)
    (h : is_distributed = false ∨ ∀ i, i < self._replicates →
      (self.replicateAt L fuel c0 group rank data is_distributed i).isSome) :
    ∃ values c1 reps,
      self.computeBootstrapEstimates L fuel c0 group rank data is_distributed
        = some (values, c1) ∧
      values.length = self._replicates ∧
      values.Sorted (fun a b => a ≤ b) ∧
      reps.length = self._replicates ∧
      (∀ i, i < self._replicates →
        self.replicateAt L fuel c0 group rank data is_distributed i = some (reps.getD i 0)) ∧
      values.Perm reps := by
  obtain ⟨values, c1, reps, h1, h2, h3, h4, h5, h6, _⟩ :=
    computeBootstrapEstimates_returns L fuel self c0 group rank data is_distributed h
  exact ⟨values, c1, reps, h1, h2, h3, h4, h5, h6⟩

end

section
variable {γ α : Type} [LinearOrderedField α]

/-- Two objects of one class run through the same `Calculator::compute`: both calls have no
result, or both return the same value and leave objects of that class. -/
theorem calculator_compute_pair (lim : NumericLimits α) (sqrtFn : α → α) (fuel : Nat)
    (c c' : Calculator α) (h : c.variant.statistic = c'.variant.statistic)
    (group : List (List α)) (D : List α) (is_distributed : Bool) :
    (c.compute lim sqrtFn fuel group D is_distributed = none ∧
      c'.compute lim sqrtFn fuel group D is_distributed = none) ∨
    ∃ v c1 c1',
      c.compute lim sqrtFn fuel group D is_distributed = some (v, c1) ∧
      c'.compute lim sqrtFn fuel group D is_distributed = some (v, c1') ∧
      c1.variant.statistic = c.variant.statistic ∧
      c1'.variant.statistic = c.variant.statistic := by
  have hv := calculator_compute_value_indep lim sqrtFn fuel c c' h group D is_distributed
  cases h1 : c.compute lim sqrtFn fuel group D is_distributed with
  | none =>
    cases h2 : c'.compute lim sqrtFn fuel group D is_distributed with
    | none => exact Or.inl ⟨rfl, rfl⟩
    | some p => rw [h1, h2] at hv; simp at hv
  | some p =>
    obtain ⟨v, c1⟩ := p
    cases h2 : c'.compute lim sqrtFn fuel group D is_distributed with
    | none => rw [h1, h2] at hv; simp at hv
    | some p' =>
      obtain ⟨v', c1'⟩ := p'
      rw [h1, h2] at hv
      simp only [Option.map_some', Option.some.injEq] at hv
      subst hv
      exact Or.inr ⟨v, c1, c1', rfl, rfl,
        (calculator_compute_preserves lim sqrtFn fuel c c1 group D is_distributed v h1).1,
        ((calculator_compute_preserves lim sqrtFn fuel c' c1' group D is_distributed v
          h2).1).trans h.symm⟩

theorem replicateLoop_pair (L : Library γ α) (fuel : Nat) (group : List (List α)) (rank : Nat)
    (data : List α) (is_distributed : Bool) :
    ∀ (n : Nat) (generator : γ) (c c' : Calculator α),
      c.variant.statistic = c'.variant.statistic →
      (BootstrapCalculator.replicateLoop L fuel group rank data is_distributed n generator c
          = none ∧
        BootstrapCalculator.replicateLoop L fuel group rank data is_distributed n generator c'
          = none) ∨
      ∃ vals c1 c1',
        BootstrapCalculator.replicateLoop L fuel group rank data is_distributed n generator c
          = some (vals, c1) ∧
        BootstrapCalculator.replicateLoop L fuel group rank data is_distributed n generator c'
          = some (vals, c1') ∧
        c1.variant.statistic = c.variant.statistic ∧
        c1'.variant.statistic = c.variant.statistic := by
  intro n
  induction n with
  | zero =>
    intro generator c c' h
    exact Or.inr ⟨[], c, c', rfl, rfl, rfl, h.symm⟩
  | succ n ih =>
    intro generator c c' h
    rw [replicateLoop_succ, replicateLoop_succ]
    rcases calculator_compute_pair L.limits L.sqrt fuel c c' h
        (BootstrapCalculator.resampleAct L generator group rank data is_distributed).1
        (BootstrapCalculator.resampleAct L generator group rank data is_distributed).2.1
        is_distributed with ⟨h1, h2⟩ | ⟨v, c1, c1', h1, h2, t1, t2⟩
    · rw [h1, h2]; exact Or.inl ⟨rfl, rfl⟩
    · rw [h1, h2]
      dsimp only
      rcases ih (BootstrapCalculator.resampleAct L generator group rank data
          is_distributed).2.2 c1 c1' (t1.trans t2.symm) with
        ⟨e1, e2⟩ | ⟨vals, d1, d1', e1, e2, s1, s2⟩
      · rw [e1, e2]; exact Or.inl ⟨rfl, rfl⟩
      · rw [e1, e2]
        exact Or.inr ⟨v :: vals, d1, d1', rfl, rfl, s1.trans t1, s2.trans t1⟩

theorem computeBootstrapEstimates_pair (L : Library γ α) (fuel : Nat)
    (self : BootstrapCalculator α) (c c' : Calculator α)
    (h : c.variant.statistic = c'.variant.statistic) (group : List (List α)) (rank : Nat)
    (data : List α) (is_distributed : Bool) :
    (self.computeBootstrapEstimates L fuel c group rank data is_distributed = none ∧
      self.computeBootstrapEstimates L fuel c' group rank data is_distributed = none) ∨
    ∃ vals c1 c1',
      self.computeBootstrapEstimates L fuel c group rank data is_distributed
        = some (vals, c1) ∧
      self.computeBootstrapEstimates L fuel c' group rank data is_distributed
        = some (vals, c1') ∧
      c1.variant.statistic = c.variant.statistic ∧
      c1'.variant.statistic = c.variant.statistic := by
  simp only [BootstrapCalculator.computeBootstrapEstimates]
  rcases replicateLoop_pair L fuel group rank data is_distributed self._replicates
      (L.seed self._seed) c c' h with ⟨e1, e2⟩ | ⟨vals, d1, d1', e1, e2, s1, s2⟩
  · rw [e1, e2]; exact Or.inl ⟨rfl, rfl⟩
  · rw [e1, e2]
    exact Or.inr ⟨inplaceSort vals, d1, d1', rfl, rfl, s1, s2⟩

theorem jackknife_pair (L : Library γ α) (fuel : Nat) (group : List (List α))
    (data : List α) (is_distributed : Bool) :
    ∀ (idx : List Nat) (c c' : Calculator α),
      c.variant.statistic = c'.variant.statistic →
      (BiasCorrectedAccelerated.jackknife L fuel group data is_distributed idx c = none ∧
        BiasCorrectedAccelerated.jackknife L fuel group data is_distributed idx c' = none) ∨
      ∃ vals c1 c1',
        BiasCorrectedAccelerated.jackknife L fuel group data is_distributed idx c
          = some (vals, c1) ∧
        BiasCorrectedAccelerated.jackknife L fuel group data is_distributed idx c'
          = some (vals, c1') ∧
        c1.variant.statistic = c.variant.statistic ∧
        c1'.variant.statistic = c.variant.statistic := by
  intro idx
  induction idx with
  | nil =>
    intro c c' h
    exact Or.inr ⟨[], c, c', rfl, rfl, rfl, h.symm⟩
  | cons i rest ih =>
    intro c c' h
    simp only [BiasCorrectedAccelerated.jackknife]
    rcases calculator_compute_pair L.limits L.sqrt fuel c c' h
        (group.map (fun d => d.eraseIdx i)) (data.eraseIdx i) is_distributed with
      ⟨h1, h2⟩ | ⟨v, c1, c1', h1, h2, t1, t2⟩
    · rw [h1, h2]; exact Or.inl ⟨rfl, rfl⟩
    · rw [h1, h2]
      dsimp only
      rcases ih c1 c1' (t1.trans t2.symm) with ⟨e1, e2⟩ | ⟨vals, d1, d1', e1, e2, s1, s2⟩
      · rw [e1, e2]; exact Or.inl ⟨rfl, rfl⟩
      · rw [e1, e2]
        exact Or.inr ⟨v :: vals, d1, d1', rfl, rfl, s1.trans t1, s2.trans t1⟩

theorem acceleration_pair (L : Library γ α) (fuel : Nat) (c c' : Calculator α)
    (h : c.variant.statistic = c'.variant.statistic) (group : List (List α))
    (data : List α) (is_distributed : Bool) :
    (BiasCorrectedAccelerated.acceleration L fuel c group data is_distributed).1
      = (BiasCorrectedAccelerated.acceleration L fuel c' group data is_distributed).1 ∧
    (BiasCorrectedAccelerated.acceleration L fuel c group data
      is_distributed).2.variant.statistic = c.variant.statistic ∧
    (BiasCorrectedAccelerated.acceleration L fuel c' group data
      is_distributed).2.variant.statistic = c.variant.statistic := by
  simp only [BiasCorrectedAccelerated.acceleration]
  rcases jackknife_pair L fuel group data is_distributed (List.range data.length) c c' h with
    ⟨e1, e2⟩ | ⟨vals, d1, d1', e1, e2, s1, s2⟩
  · rw [e1, e2]; exact ⟨rfl, rfl, h.symm⟩
  · rw [e1, e2]
    simp only
    split
    · exact ⟨rfl, s1, s2⟩
    · split
      · exact ⟨rfl, s1, s2⟩
      · exact ⟨rfl, s1, s2⟩

theorem percentile_compute_pair (L : Library γ α) (fuel : Nat)
    (self : BootstrapCalculator α) (c c' : Calculator α)
    (h : c.variant.statistic = c'.variant.statistic) (group : List (List α)) (rank : Nat)
    (data : List α) (is_distributed : Bool) :
    (Percentile.compute L fuel self c group rank data is_distributed).1
      = (Percentile.compute L fuel self c' group rank data is_distributed).1 ∧
    (Percentile.compute L fuel self c group rank data is_distributed).2.variant.statistic
      = c.variant.statistic := by
  simp only [Percentile.compute]
  rcases computeBootstrapEstimates_pair L fuel self c c' h group rank data is_distributed with
    ⟨e1, e2⟩ | ⟨vals, d1, d1', e1, e2, s1, s2⟩
  · rw [e1, e2]; exact ⟨rfl, rfl⟩
  · rw [e1, e2]
    simp only
    split
    · split <;> exact ⟨rfl, s1⟩
    · exact ⟨rfl, s1⟩

theorem bca_compute_pair (L : Library γ α) (fuel : Nat)
    (self : BootstrapCalculator α) (c c' : Calculator α)
    (h : c.variant.statistic = c'.variant.statistic) (group : List (List α)) (rank : Nat)
    (data : List α) (is_distributed : Bool) :
    (BiasCorrectedAccelerated.compute L fuel self c group rank data is_distributed).1
      = (BiasCorrectedAccelerated.compute L fuel self c' group rank data is_distributed).1 ∧
    (BiasCorrectedAccelerated.compute L fuel self c group rank data
      is_distributed).2.variant.statistic = c.variant.statistic := by
  cases is_distributed with
  | true => exact ⟨rfl, rfl⟩
  | false =>
    simp only [BiasCorrectedAccelerated.compute, Bool.false_eq_true, if_false]
    rcases computeBootstrapEstimates_pair L fuel self c c' h group rank data false with
      ⟨e1, e2⟩ | ⟨vals, d1, d1', e1, e2, s1, s2⟩
    · rw [e1, e2]; exact ⟨rfl, rfl⟩
    · rw [e1, e2]
      simp only
      rcases calculator_compute_pair L.limits L.sqrt fuel d1 d1' (s1.trans s2.symm) group data
          false with ⟨f1, f2⟩ | ⟨v, g1, g1', f1, f2, t1, t2⟩
      · rw [f1, f2]; exact ⟨rfl, s1⟩
      · rw [f1, f2]
        simp only
        by_cases hr : self._replicates = 0
        · simp only [hr, if_true]; exact ⟨trivial, t1.trans s1⟩
        · simp only [hr, if_false]
          by_cases he : data.isEmpty = true
          · simp only [he, if_true]
            split <;> exact ⟨rfl, t1.trans s1⟩
          · simp only [he, Bool.false_eq_true, if_false]
            obtain ⟨a1, a2, a3⟩ := acceleration_pair L fuel g1 g1' (t1.trans t2.symm) group data
              false
            cases hacc : BiasCorrectedAccelerated.acceleration L fuel g1 group data false with
            | mk r1 k1 =>
              cases hacc' : BiasCorrectedAccelerated.acceleration L fuel g1' group data
                  false with
              | mk r1' k1' =>
                rw [hacc, hacc'] at a1
                rw [hacc] at a2
                simp only at a1 a2
                subst a1
                cases r1 with
                | mooseError msg => exact ⟨rfl, a2.trans (t1.trans s1)⟩
                | undefined => exact ⟨rfl, a2.trans (t1.trans s1)⟩
                | value acc =>
                  simp only
                  split <;> exact ⟨rfl, a2.trans (t1.trans s1)⟩

end

section
variable {γ α : Type} [LinearOrderedField α]

/-- The virtual `compute` of a bootstrap calculator on two wrapped calculators of one
class: the same output, and the wrapped calculator keeps its class. -/
theorem bootstrap_compute_pair (L : Library γ α) (fuel : Nat)
    (self : BootstrapCalculator α) (c c' : Calculator α)
    (h : c.variant.statistic = c'.variant.statistic) (group : List (List α)) (rank : Nat)
    (data : List α) (is_distributed : Bool) :
    (self.compute L fuel c group rank data is_distributed).1
      = (self.compute L fuel c' group rank data is_distributed).1 ∧
    (self.compute L fuel c group rank data is_distributed).2.variant.statistic
      = c.variant.statistic := by
  unfold BootstrapCalculator.compute
  cases self.method with
  | percentile => exact percentile_compute_pair L fuel self c c' h group rank data is_distributed
  | bca => exact bca_compute_pair L fuel self c c' h group rank data is_distributed

/-- The member `_name` of a bootstrap calculator plays no part in `compute`. -/
theorem bootstrap_compute_name (L : Library γ α) (fuel : Nat) (method : BootstrapMethod)
    (levels : List α) (replicates seed : Nat) (name name' : String) (c : Calculator α)
    (group : List (List α)) (rank : Nat) (data : List α) (is_distributed : Bool) :
    BootstrapCalculator.compute L fuel ⟨method, levels, replicates, seed, name⟩ c group rank
        data is_distributed
      = BootstrapCalculator.compute L fuel ⟨method, levels, replicates, seed, name'⟩ c group
        rank data is_distributed := rfl

/-- C20: `compute` of two bootstrap calculators of the same class with equal levels,
replicate count and seed, wrapping calculators of the same class, on the same data gives
the same output; and a second `compute` on the same bootstrap calculator, which finds the
wrapped calculator as the first call left it, gives the output of the first. -/
theorem bootstrap_compute_reproducible (L : Library γ α) (fuel : Nat)
    (self self' : BootstrapCalculator α) (hm : self'.method = self.method)
    (hl : self'._levels = self._levels) (hr : self'._replicates = self._replicates)
    (hs : self'._seed = self._seed) (c c' : Calculator α)
    (hc : c'.variant.statistic = c.variant.statistic) (group : List (List α)) (rank : Nat)
    (data : List α) (is_distributed : Bool) :
    (self'.compute L fuel c' group rank data is_distributed).1
      = (self.compute L fuel c group rank data is_distributed).1 ∧
    (self.compute L fuel (self.compute L fuel c group rank data is_distributed).2 group rank
        data is_distributed).1
      = (self.compute L fuel c group rank data is_distributed).1 := by
  obtain ⟨m, l, r, s, n⟩ := self
  obtain ⟨m', l', r', s', n'⟩ := self'
  simp only at hm hl hr hs
  subst hm hl hr hs
  rw [bootstrap_compute_name L fuel _ _ _ _ n' n]
  have h1 := bootstrap_compute_pair L fuel ⟨m', l', r', s', n⟩ c' c hc group rank data
    is_distributed
  have h2 := bootstrap_compute_pair L fuel ⟨m', l', r', s', n⟩ c c' hc.symm group rank data
    is_distributed
  have h3 := bootstrap_compute_pair L fuel ⟨m', l', r', s', n⟩
    (BootstrapCalculator.compute L fuel ⟨m', l', r', s', n⟩ c group rank data
      is_distributed).2 c h2.2 group rank data is_distributed
  exact ⟨h1.1, h3.1⟩

end

theorem computeBootstrapEstimates_sorted_replicates_witness :
    ((false = false) ∨ ∀ i, i < (⟨.percentile, [1 / 2], 3, 7, "percentile"⟩ :
        BootstrapCalculator ℚ)._replicates →
      ((⟨.percentile, [1 / 2], 3, 7, "percentile"⟩ : BootstrapCalculator ℚ).replicateAt
        (⟨doubleLimits, fun x => x, fun x _ => x, fun _ => 0, fun x => x, fun x => x,
          fun s => s, fun g d => (d.rotate g, g + 1), fun g ds => (ds, g + 1), true⟩ :
          Library Nat ℚ)
        0 (Calculator.construct .median ⟨"median"⟩) [] 0 [3, 1, 2] false i).isSome) ∧
    ∃ values c1 reps,
      (⟨.percentile, [1 / 2], 3, 7, "percentile"⟩ :
          BootstrapCalculator ℚ).computeBootstrapEstimates
        (⟨doubleLimits, fun x => x, fun x _ => x, fun _ => 0, fun x => x, fun x => x,
          fun s => s, fun g d => (d.rotate g, g + 1), fun g ds => (ds, g + 1), true⟩ :
          Library Nat ℚ)
        0 (Calculator.construct .median ⟨"median"⟩) [] 0 [3, 1, 2] false
        = some (values, c1) ∧
      values.length = (⟨.percentile, [1 / 2], 3, 7, "percentile"⟩ :
        BootstrapCalculator ℚ)._replicates ∧
      values.Sorted (fun a b => a ≤ b) ∧
      reps.length = (⟨.percentile, [1 / 2], 3, 7, "percentile"⟩ :
        BootstrapCalculator ℚ)._replicates ∧
      (∀ i, i < (⟨.percentile, [1 / 2], 3, 7, "percentile"⟩ :
          BootstrapCalculator ℚ)._replicates →
        (⟨.percentile, [1 / 2], 3, 7, "percentile"⟩ : BootstrapCalculator ℚ).replicateAt
          (⟨doubleLimits, fun x => x, fun x _ => x, fun _ => 0, fun x => x, fun x => x,
            fun s => s, fun g d => (d.rotate g, g + 1), fun g ds => (ds, g + 1), true⟩ :
            Library Nat ℚ)
          0 (Calculator.construct .median ⟨"median"⟩) [] 0 [3, 1, 2] false i
          = some (reps.getD i 0)) ∧
      values.Perm reps :=
  ⟨Or.inl rfl, computeBootstrapEstimates_sorted_replicates _ _ _ _ _ _ _ _ (Or.inl rfl)⟩

theorem bootstrap_compute_reproducible_witness :
    ((⟨.bca, [1 / 2], 3, 7, "second"⟩ : BootstrapCalculator ℚ).method
        = (⟨.bca, [1 / 2], 3, 7, "first"⟩ : BootstrapCalculator ℚ).method ∧
      (⟨.bca, [1 / 2], 3, 7, "second"⟩ : BootstrapCalculator ℚ)._levels
        = (⟨.bca, [1 / 2], 3, 7, "first"⟩ : BootstrapCalculator ℚ)._levels ∧
      (⟨.bca, [1 / 2], 3, 7, "second"⟩ : BootstrapCalculator ℚ)._replicates
        = (⟨.bca, [1 / 2], 3, 7, "first"⟩ : BootstrapCalculator ℚ)._replicates ∧
      (⟨.bca, [1 / 2], 3, 7, "second"⟩ : BootstrapCalculator ℚ)._seed
        = (⟨.bca, [1 / 2], 3, 7, "first"⟩ : BootstrapCalculator ℚ)._seed ∧
      (⟨"mean", .mean ⟨5, ⟨9⟩⟩⟩ : Calculator ℚ).variant.statistic
        = (Calculator.construct .mean ⟨"mean"⟩ : Calculator ℚ).variant.statistic) ∧
    (((⟨.bca, [1 / 2], 3, 7, "second"⟩ : BootstrapCalculator ℚ).compute
          (⟨doubleLimits, fun x => x, fun x _ => x, fun _ => 0, fun x => x, fun x => x,
            fun s => s, fun g d => (d.rotate g, g + 1), fun g ds => (ds, g + 1), true⟩ :
            Library Nat ℚ)
          0 ⟨"mean", .mean ⟨5, ⟨9⟩⟩⟩ [] 0 [3, 1, 2] false).1
        = ((⟨.bca, [1 / 2], 3, 7, "first"⟩ : BootstrapCalculator ℚ).compute
          (⟨doubleLimits, fun x => x, fun x _ => x, fun _ => 0, fun x => x, fun x => x,
            fun s => s, fun g d => (d.rotate g, g + 1), fun g ds => (ds, g + 1), true⟩ :
            Library Nat ℚ)
          0 (Calculator.construct .mean ⟨"mean"⟩) [] 0 [3, 1, 2] false).1 ∧
      ((⟨.bca, [1 / 2], 3, 7, "first"⟩ : BootstrapCalculator ℚ).compute
          (⟨doubleLimits, fun x => x, fun x _ => x, fun _ => 0, fun x => x, fun x => x,
            fun s => s, fun g d => (d.rotate g, g + 1), fun g ds => (ds, g + 1), true⟩ :
            Library Nat ℚ)
          0
          ((⟨.bca, [1 / 2], 3, 7, "first"⟩ : BootstrapCalculator ℚ).compute
            (⟨doubleLimits, fun x => x, fun x _ => x, fun _ => 0, fun x => x, fun x => x,
              fun s => s, fun g d => (d.rotate g, g + 1), fun g ds => (ds, g + 1), true⟩ :
              Library Nat ℚ)
            0 (Calculator.construct .mean ⟨"mean"⟩) [] 0 [3, 1, 2] false).2
          [] 0 [3, 1, 2] false).1
        = ((⟨.bca, [1 / 2], 3, 7, "first"⟩ : BootstrapCalculator ℚ).compute
          (⟨doubleLimits, fun x => x, fun x _ => x, fun _ => 0, fun x => x, fun x => x,
            fun s => s, fun g d => (d.rotate g, g + 1), fun g ds => (ds, g + 1), true⟩ :
            Library Nat ℚ)
          0 (Calculator.construct .mean ⟨"mean"⟩) [] 0 [3, 1, 2] false).1) :=
  ⟨⟨rfl, rfl, rfl, rfl, rfl⟩,
    bootstrap_compute_reproducible _ _ _ _ rfl rfl rfl rfl _ _ rfl _ _ _ _⟩

section
variable {α : Type} [LinearOrderedField α]

/-- The loop is its body repeated: one pass, then the loop on what the pass left. -/
theorem median_loop_iteration (lim : NumericLimits α) (count fuel : Nat)
    (L : List (List (CalculatorValue α))) (mine : List (CalculatorValue α))
    (m : CalculatorValue α) (kgt klt : Nat) :
    Median.loop lim count (fuel + 1) L mine m kgt klt =
      match Median.iteration lim count L mine m kgt klt with
      | .next L1 mine1 m1 kgt1 klt1 => Median.loop lim count fuel L1 mine1 m1 kgt1 klt1
      | .done mine1 m1 => some (mine1, m1) := by
  simp only [Median.loop, Median.iteration]
  split
  · rfl
  · split
    · rfl
    · split <;> rfl

theorem count_eq_of_counts (p : α) (G : List (CalculatorValue α)) :
    G.length - G.countP (fun v => decide (p < v._value))
        - G.countP (fun v => decide (v._value < p))
      = G.countP (fun v => decide (v._value = p)) := by
  have h1 := count_gt_add_le p G
  have h2 := count_lt_add_eq p G
  omega

/-- One pass of the loop, its counts taken over the concatenation of all storages and its
erasures written as the filters of what is kept. -/
theorem median_iteration_eq (lim : NumericLimits α) (count : Nat)
    (L : List (List (CalculatorValue α))) (mine : List (CalculatorValue α))
    (m : CalculatorValue α) (kgt klt : Nat) :
    Median.iteration lim count L mine m kgt klt =
      if L.flatten.countP (fun v => decide ((Median.pivot m L)._value < v._value))
          + L.flatten.countP (fun v => decide (v._value = (Median.pivot m L)._value)) ≤ kgt then
        .next (L.map (fun s => s.filter (fun v => decide (v._value < (Median.pivot m L)._value))))
          (mine.filter (fun v => decide (v._value < (Median.pivot m L)._value)))
          (Median.pivot m L)
          (kgt - (L.flatten.countP (fun v => decide ((Median.pivot m L)._value < v._value))
            + L.flatten.countP (fun v => decide (v._value = (Median.pivot m L)._value)))) klt
      else if L.flatten.countP (fun v => decide (v._value < (Median.pivot m L)._value))
          + L.flatten.countP (fun v => decide (v._value = (Median.pivot m L)._value)) ≤ klt then
        .next (L.map (fun s => s.filter (fun v => decide ((Median.pivot m L)._value < v._value))))
          (mine.filter (fun v => decide ((Median.pivot m L)._value < v._value)))
          (Median.pivot m L) kgt
          (klt - (L.flatten.countP (fun v => decide (v._value < (Median.pivot m L)._value))
            + L.flatten.countP (fun v => decide (v._value = (Median.pivot m L)._value))))
      else if count % 2 ≠ 0 then .done mine (Median.pivot m L)
      else
        .done mine
          (((Median.pivot m L).plusEq
            (if L.flatten.countP (fun v => decide ((Median.pivot m L)._value < v._value)) > kgt then
              (Median.nextGreater lim (Median.pivot m L) mine).commMin
                (L.map (Median.nextGreater lim (Median.pivot m L)))
            else if L.flatten.countP
                (fun v => decide (v._value < (Median.pivot m L)._value)) > klt then
              (Median.nextLess lim (Median.pivot m L) mine).commMax
                (L.map (Median.nextLess lim (Median.pivot m L)))
            else CalculatorValue.mk0.plusEq (Median.pivot m L).get).get).divide 2) := by
  have hgt := median_sum_counts (fun v => decide ((Median.pivot m L)._value < v._value)) L
  have hlt := median_sum_counts (fun v => decide (v._value < (Median.pivot m L)._value)) L
  have hn := median_sum_sizes L
  have e0 : commSumNat (L.map (fun s => (Median.tally (Median.pivot m L) s).1))
      = L.flatten.countP (fun v => decide ((Median.pivot m L)._value < v._value)) := by
    rw [← hgt]; congr 1; apply List.map_congr_left; intro s _; rw [median_tally_eq]
  have e1 : commSumNat (L.map (fun s => (Median.tally (Median.pivot m L) s).2))
      = L.flatten.countP (fun v => decide (v._value < (Median.pivot m L)._value)) := by
    rw [← hlt]; congr 1; apply List.map_congr_left; intro s _; rw [median_tally_eq]
  have ef1 : ∀ s : List (CalculatorValue α),
      Median.eraseIf (fun val => !val.less_than (Median.pivot m L).get) s
        = s.filter (fun v => decide (v._value < (Median.pivot m L)._value)) := by
    intro s
    simp [Median.eraseIf, CalculatorValue.less_than, CalculatorValue.get]
  have ef2 : ∀ s : List (CalculatorValue α),
      Median.eraseIf (fun val => !(Median.pivot m L).less_than val.get) s
        = s.filter (fun v => decide ((Median.pivot m L)._value < v._value)) := by
    intro s
    simp [Median.eraseIf, CalculatorValue.less_than, CalculatorValue.get]
  have ef1' : Median.eraseIf (fun val => !val.less_than (Median.pivot m L).get)
      = fun s => s.filter (fun v => decide (v._value < (Median.pivot m L)._value)) :=
    funext ef1
  have ef2' : Median.eraseIf (fun val => !(Median.pivot m L).less_than val.get)
      = fun s => s.filter (fun v => decide ((Median.pivot m L)._value < v._value)) :=
    funext ef2
  simp only [Median.iteration, e0, e1, hn, count_eq_of_counts, ef1', ef2']

end

section
variable {α : Type} [LinearOrderedField α]

/-- C27, amended: one pass of the distributed median loop keeps the side of the pivot that
still holds the median. When the values greater than or equal to the pivot number at most
`kgt`, exactly those values are erased (the values strictly less than the pivot are kept) and
`kgt` drops by their number; otherwise, when the values less than or equal to the pivot number
at most `klt`, exactly those are erased (the values strictly greater are kept) and `klt` drops
by their number. -/
theorem median_iteration_prunes (lim : NumericLimits α) (count : Nat)
    (L : List (List (CalculatorValue α))) (mine : List (CalculatorValue α))
    (m : CalculatorValue α) (kgt klt : Nat) :
    (L.flatten.countP (fun v => decide ((Median.pivot m L)._value < v._value))
        + L.flatten.countP (fun v => decide (v._value = (Median.pivot m L)._value)) ≤ kgt →
      Median.iteration lim count L mine m kgt klt =
        .next (L.map (fun s => s.filter (fun v => decide (v._value < (Median.pivot m L)._value))))
          (mine.filter (fun v => decide (v._value < (Median.pivot m L)._value)))
          (Median.pivot m L)
          (kgt - (L.flatten.countP (fun v => decide ((Median.pivot m L)._value < v._value))
            + L.flatten.countP (fun v => decide (v._value = (Median.pivot m L)._value))))
          klt) ∧
    (¬ L.flatten.countP (fun v => decide ((Median.pivot m L)._value < v._value))
        + L.flatten.countP (fun v => decide (v._value = (Median.pivot m L)._value)) ≤ kgt →
      L.flatten.countP (fun v => decide (v._value < (Median.pivot m L)._value))
        + L.flatten.countP (fun v => decide (v._value = (Median.pivot m L)._value)) ≤ klt →
      Median.iteration lim count L mine m kgt klt =
        .next (L.map (fun s => s.filter (fun v => decide ((Median.pivot m L)._value < v._value))))
          (mine.filter (fun v => decide ((Median.pivot m L)._value < v._value)))
          (Median.pivot m L) kgt
          (klt - (L.flatten.countP (fun v => decide (v._value < (Median.pivot m L)._value))
            + L.flatten.countP (fun v => decide (v._value = (Median.pivot m L)._value))))) := by
  constructor
  · intro h
    rw [median_iteration_eq, if_pos h]
  · intro h1 h2
    rw [median_iteration_eq, if_neg h1, if_pos h2]

end

theorem median_pivot_example_a :
    Median.pivot (⟨0⟩ : CalculatorValue ℚ) [[⟨3⟩], [⟨1⟩, ⟨2⟩]] = ⟨3⟩ := by
  simp [Median.pivot, CalculatorValue.zero, CalculatorValue.plusEq, CalculatorValue.get]

theorem median_pivot_example_b :
    Median.pivot (⟨0⟩ : CalculatorValue ℚ) [[⟨1⟩], [⟨2⟩, ⟨3⟩]] = ⟨1⟩ := by
  simp [Median.pivot, CalculatorValue.zero, CalculatorValue.plusEq, CalculatorValue.get]

/-- C27, counterexample: with the values 3 on one rank and 1, 2 on another and
`kgt = klt = 1`, the pivot is 3 and the values greater than or equal to it number one; the
pass erases the 3 and keeps the strictly smaller values 1 and 2, not the other way round. -/
theorem median_iteration_keeps_less :
    ([[⟨3⟩], [⟨1⟩, ⟨2⟩]] : List (List (CalculatorValue ℚ))).flatten.countP
          (fun v => decide ((3 : ℚ) < v._value))
        + ([[⟨3⟩], [⟨1⟩, ⟨2⟩]] : List (List (CalculatorValue ℚ))).flatten.countP
          (fun v => decide (v._value = (3 : ℚ))) ≤ 1 ∧
      Median.iteration doubleLimits 3 [[⟨3⟩], [⟨1⟩, ⟨2⟩]] [⟨3⟩] ⟨0⟩ 1 1
        = .next [[], [⟨1⟩, ⟨2⟩]] [] ⟨3⟩ 0 1 ∧
      Median.iteration doubleLimits 3 [[⟨3⟩], [⟨1⟩, ⟨2⟩]] [⟨3⟩] ⟨0⟩ 1 1
        ≠ .next [[⟨3⟩], []] [⟨3⟩] ⟨3⟩ 0 1 := by
  have h : Median.iteration doubleLimits 3 [[⟨3⟩], [⟨1⟩, ⟨2⟩]] [⟨3⟩] ⟨0⟩ 1 1
      = .next [[], [⟨1⟩, ⟨2⟩]] [] ⟨3⟩ 0 1 := by
    rw [median_iteration_eq, median_pivot_example_a]
    simp [List.countP_cons, List.filter_cons]
    norm_num
  refine ⟨?_, h, ?_⟩
  · simp [List.countP_cons]
    norm_num
  · rw [h]
    intro e
    injection e with e1 e2
    simp at e2

theorem median_iteration_prunes_witness :
    ((([[⟨3⟩], [⟨1⟩, ⟨2⟩]] : List (List (CalculatorValue ℚ))).flatten.countP
          (fun v => decide ((3 : ℚ) < v._value))
        + ([[⟨3⟩], [⟨1⟩, ⟨2⟩]] : List (List (CalculatorValue ℚ))).flatten.countP
          (fun v => decide (v._value = (3 : ℚ))) ≤ 1) ∧
      Median.iteration doubleLimits 3 [[⟨3⟩], [⟨1⟩, ⟨2⟩]] [⟨3⟩] ⟨0⟩ 1 1
        = .next [[], [⟨1⟩, ⟨2⟩]] [] ⟨3⟩ 0 1) ∧
    ((¬ ([[⟨1⟩], [⟨2⟩, ⟨3⟩]] : List (List (CalculatorValue ℚ))).flatten.countP
          (fun v => decide ((1 : ℚ) < v._value))
        + ([[⟨1⟩], [⟨2⟩, ⟨3⟩]] : List (List (CalculatorValue ℚ))).flatten.countP
          (fun v => decide (v._value = (1 : ℚ))) ≤ 1) ∧
      (([[⟨1⟩], [⟨2⟩, ⟨3⟩]] : List (List (CalculatorValue ℚ))).flatten.countP
          (fun v => decide (v._value < (1 : ℚ)))
        + ([[⟨1⟩], [⟨2⟩, ⟨3⟩]] : List (List (CalculatorValue ℚ))).flatten.countP
          (fun v => decide (v._value = (1 : ℚ))) ≤ 1) ∧
      Median.iteration doubleLimits 3 [[⟨1⟩], [⟨2⟩, ⟨3⟩]] [⟨1⟩] ⟨0⟩ 1 1
        = .next [[], [⟨2⟩, ⟨3⟩]] [] ⟨1⟩ 1 0) := by
  have hA : ([[⟨3⟩], [⟨1⟩, ⟨2⟩]] : List (List (CalculatorValue ℚ))).flatten.countP
        (fun v => decide ((3 : ℚ) < v._value))
      + ([[⟨3⟩], [⟨1⟩, ⟨2⟩]] : List (List (CalculatorValue ℚ))).flatten.countP
        (fun v => decide (v._value = (3 : ℚ))) ≤ 1 := by
    simp [List.countP_cons]
    norm_num
  have hB1 : ¬ ([[⟨1⟩], [⟨2⟩, ⟨3⟩]] : List (List (CalculatorValue ℚ))).flatten.countP
        (fun v => decide ((1 : ℚ) < v._value))
      + ([[⟨1⟩], [⟨2⟩, ⟨3⟩]] : List (List (CalculatorValue ℚ))).flatten.countP
        (fun v => decide (v._value = (1 : ℚ))) ≤ 1 := by
    simp [List.countP_cons]
  have hB2 : ([[⟨1⟩], [⟨2⟩, ⟨3⟩]] : List (List (CalculatorValue ℚ))).flatten.countP
        (fun v => decide (v._value < (1 : ℚ)))
      + ([[⟨1⟩], [⟨2⟩, ⟨3⟩]] : List (List (CalculatorValue ℚ))).flatten.countP
        (fun v => decide (v._value = (1 : ℚ))) ≤ 1 := by
    simp [List.countP_cons]
  have rA := (median_iteration_prunes doubleLimits 3
    ([[⟨3⟩], [⟨1⟩, ⟨2⟩]] : List (List (CalculatorValue ℚ))) [⟨3⟩] ⟨0⟩ 1 1).1
    (by rw [median_pivot_example_a]; exact hA)
  have rB := (median_iteration_prunes doubleLimits 3
    ([[⟨1⟩], [⟨2⟩, ⟨3⟩]] : List (List (CalculatorValue ℚ))) [⟨1⟩] ⟨0⟩ 1 1).2
    (by rw [median_pivot_example_b]; exact hB1) (by rw [median_pivot_example_b]; exact hB2)
  rw [median_pivot_example_a] at rA
  rw [median_pivot_example_b] at rB
  refine ⟨⟨hA, ?_⟩, hB1, hB2, ?_⟩
  · rw [rA]
    simp [List.countP_cons, List.filter_cons]
    norm_num
  · rw [rB]
    simp [List.countP_cons, List.filter_cons]

theorem median_pivot_example_c :
    Median.pivot (⟨0⟩ : CalculatorValue ℚ) [[⟨-1⟩], [⟨-2⟩]] = ⟨-1⟩ := by
  simp [Median.pivot, CalculatorValue.zero, CalculatorValue.plusEq, CalculatorValue.get]

/-- C29: with an even count, one value -1 on one rank and one value -2 on another and
`kgt = klt = 0`, the pass ends the loop with the average of the pivot -1 and the smallest
positive representable value, not with the average -3/2 of the two middle values. -/
theorem median_iteration_even_negative :
    Median.iteration doubleLimits 2 [[⟨-1⟩], [⟨-2⟩]] [⟨-1⟩] (⟨0⟩ : CalculatorValue ℚ) 0 0
      = .done [⟨-1⟩] ⟨(-1 + 1 / 2 ^ 1022) / 2⟩ ∧
    ((-1 + 1 / 2 ^ 1022) / 2 : ℚ) ≠ (-1 + -2) / 2 := by
  constructor
  · rw [median_iteration_eq, median_pivot_example_c]
    simp [List.countP_cons, Median.nextLess, Median.nextGreater, CalculatorValue.commMax,
      CalculatorValue.commMin, CalculatorValue.less_than, CalculatorValue.get,
      CalculatorValue.plusEq, CalculatorValue.zero, CalculatorValue.setMin,
      CalculatorValue.setMax, CalculatorValue.mk0, CalculatorValue.divide, doubleLimits]
    norm_num
  · norm_num

section
variable {α : Type} [LinearOrderedField α]

/-- Erasing by a test that the value `p` of the list fails leaves fewer distinct values. -/
theorem distinct_filter_lt (G : List (CalculatorValue α)) (p : CalculatorValue α)
    (q : CalculatorValue α → Bool) (hp : p ∈ G) (hq : q p = false) :
    ((G.filter q).map (fun v => v._value)).toFinset.card
      < (G.map (fun v => v._value)).toFinset.card := by
  apply Finset.card_lt_card
  rw [Finset.ssubset_iff_of_subset]
  · refine ⟨p._value, ?_, ?_⟩
    · simp only [List.mem_toFinset, List.mem_map]
      exact ⟨p, hp, rfl⟩
    · simp only [List.mem_toFinset, List.mem_map, List.mem_filter, not_exists, not_and]
      intro v hv hval
      have : v = p := by cases v; cases p; simp only at hval; rw [hval]
      rw [this] at hv
      rw [hq] at hv
      exact absurd hv.2 (by simp)
  · intro x hx
    simp only [List.mem_toFinset, List.mem_map, List.mem_filter] at hx ⊢
    obtain ⟨v, ⟨hv, _⟩, rfl⟩ := hx
    exact ⟨v, hv, rfl⟩

/-- The loop reaches its `break`: while the remaining values number `kgt + klt + e` with
`e ≥ 1`, one unit of fuel per distinct remaining value is enough. -/
theorem median_loop_returns (lim : NumericLimits α) (count : Nat) (e : Nat) (he : 1 ≤ e) :
    ∀ (fuel : Nat) (L : List (List (CalculatorValue α))) (mine : List (CalculatorValue α))
      (m : CalculatorValue α) (kgt klt : Nat),
      L.flatten.length = kgt + klt + e →
      (L.flatten.map (fun v => v._value)).toFinset.card ≤ fuel →
      ∃ r, Median.loop lim count fuel L mine m kgt klt = some r := by
  intro fuel
  induction fuel with
  | zero =>
    intro L mine m kgt klt hn hf
    exfalso
    have h0 : (L.flatten.map (fun v => v._value)).toFinset = ∅ :=
      Finset.card_eq_zero.mp (Nat.le_zero.mp hf)
    have h1 : L.flatten.map (fun v => v._value) = [] := List.toFinset_eq_empty_iff _ |>.mp h0
    have h2 : L.flatten = [] := List.map_eq_nil_iff.mp h1
    rw [h2] at hn
    simp at hn
    omega
  | succ fuel ih =>
    intro L mine m kgt klt hn hf
    have hne : L.flatten ≠ [] := by
      intro h; rw [h] at hn; simp at hn; omega
    have hmem := median_pivot_mem m L hne
    have hlt := count_lt_lt_le_of_mem _ _ hmem
    have hle := count_gt_add_le (Median.pivot m L)._value L.flatten
    rw [median_loop_succ]
    by_cases c1 : L.flatten.length
        - L.flatten.countP (fun v => decide (v._value < (Median.pivot m L)._value)) ≤ kgt
    · rw [if_pos c1]
      have fl := length_filter_lt L.flatten (Median.pivot m L)._value
      have hd := distinct_filter_lt L.flatten (Median.pivot m L)
        (fun v => decide (v._value < (Median.pivot m L)._value)) hmem (by simp)
      apply ih
      · rw [median_erase_ge_flatten, fl]; omega
      · rw [median_erase_ge_flatten]; omega
    · rw [if_neg c1]
      by_cases c2 : L.flatten.countP
          (fun v => decide (v._value ≤ (Median.pivot m L)._value)) ≤ klt
      · rw [if_pos c2]
        have fl := length_filter_gt L.flatten (Median.pivot m L)._value
        have hd := distinct_filter_lt L.flatten (Median.pivot m L)
          (fun v => decide ((Median.pivot m L)._value < v._value)) hmem (by simp)
        apply ih
        · rw [median_erase_le_flatten]; omega
        · rw [median_erase_le_flatten]; omega
      · rw [if_neg c2]
        split <;> exact ⟨_, rfl⟩

/-- Distributed `Median.compute` on two or more ranks and a non-empty global dataset
returns when the fuel covers the distinct values. -/
theorem median_compute_distributed_returns (lim : NumericLimits α) (fuel : Nat)
    (self : Median α) (group : List (List α)) (data : List α)
    (hw : 2 ≤ group.length) (hne : group.flatten ≠ [])
    (hfuel : group.flatten.toFinset.card ≤ fuel) :
    ∃ v, Median.compute lim fuel self group data true = some v := by
  have hcount := median_storages_count self group
  have hflat := median_storages_flatten self group
  have hpos : 0 < group.flatten.length := List.length_pos.mpr hne
  have h0 : group.flatten.length ≠ 0 := by omega
  have hg : ¬ (group.map self.accumulate).length = 1 := by
    rw [List.length_map]; omega
  have hvals : (((group.map self.accumulate).map (fun p => p._storage)).flatten.map
      (fun v => v._value)) = group.flatten := by
    rw [hflat, List.map_map]
    simp [Function.comp_def]
  simp only [Median.compute, Median.finalize, hcount, if_true, h0, if_false, Bool.not_true,
    Bool.false_or, decide_eq_true_eq, hg]
  by_cases hodd : group.flatten.length % 2 = 1
  · obtain ⟨r, hr⟩ := median_loop_returns lim group.flatten.length 1 (le_refl 1) fuel
      ((group.map self.accumulate).map (fun p => p._storage)) (self.accumulate data)._storage
      (self.accumulate data)._median.zero (group.flatten.length / 2)
      (group.flatten.length / 2)
      (by rw [hflat, List.length_map]; omega) (by rw [hvals]; exact hfuel)
    have hne2 : group.flatten.length % 2 ≠ 0 := by omega
    simp only [hne2, ne_eq, not_false_eq_true, if_true, hr, Option.map_some']
    exact ⟨_, rfl⟩
  · obtain ⟨r, hr⟩ := median_loop_returns lim group.flatten.length 2 (by omega) fuel
      ((group.map self.accumulate).map (fun p => p._storage)) (self.accumulate data)._storage
      (self.accumulate data)._median.zero (group.flatten.length / 2 - 1)
      (group.flatten.length / 2 - 1)
      (by rw [hflat, List.length_map]; omega) (by rw [hvals]; exact hfuel)
    have he2 : group.flatten.length % 2 = 0 := by omega
    simp only [he2, ne_eq, not_true_eq_false, if_false, hr, Option.map_some']
    exact ⟨_, rfl⟩

/-- A pass that does not end the loop erases the pivot: it was among the remaining values,
it is not among those left, which are a sublist of the former and fewer by at least the
number of values equal to the pivot. -/
theorem median_iteration_erases_pivot (lim : NumericLimits α) (count : Nat)
    (L L1 : List (List (CalculatorValue α))) (mine mine1 : List (CalculatorValue α))
    (m m1 : CalculatorValue α) (kgt klt kgt1 klt1 : Nat) (hne : L.flatten ≠ [])
    (h : Median.iteration lim count L mine m kgt klt = .next L1 mine1 m1 kgt1 klt1) :
    m1 = Median.pivot m L ∧ m1 ∈ L.flatten ∧ m1 ∉ L1.flatten ∧
      L1.flatten.Sublist L.flatten ∧
      0 < L.flatten.countP (fun v => decide (v._value = m1._value)) ∧
      L1.flatten.length + L.flatten.countP (fun v => decide (v._value = m1._value))
        ≤ L.flatten.length := by
  have hmem := median_pivot_mem m L hne
  have h1 := count_gt_add_le (Median.pivot m L)._value L.flatten
  have h2 := count_lt_add_eq (Median.pivot m L)._value L.flatten
  have hpos : 0 < L.flatten.countP (fun v => decide (v._value = (Median.pivot m L)._value)) :=
    List.countP_pos_iff.mpr ⟨_, hmem, by simp⟩
  rw [median_iteration_eq] at h
  split at h
  · injection h with e1 e2 e3 e4 e5
    subst e1 e3
    have hf : (L.map (fun s => s.filter
        (fun v => decide (v._value < (Median.pivot m L)._value)))).flatten
        = L.flatten.filter (fun v => decide (v._value < (Median.pivot m L)._value)) := by
      rw [List.filter_flatten]
    refine ⟨rfl, hmem, ?_, ?_, hpos, ?_⟩
    · rw [hf]; simp [List.mem_filter]
    · rw [hf]; exact List.filter_sublist _
    · rw [hf, ← List.countP_eq_length_filter]; omega
  · split at h
    · injection h with e1 e2 e3 e4 e5
      subst e1 e3
      have hf : (L.map (fun s => s.filter
          (fun v => decide ((Median.pivot m L)._value < v._value)))).flatten
          = L.flatten.filter (fun v => decide ((Median.pivot m L)._value < v._value)) := by
        rw [List.filter_flatten]
      refine ⟨rfl, hmem, ?_, ?_, hpos, ?_⟩
      · rw [hf]; simp [List.mem_filter]
      · rw [hf]; exact List.filter_sublist _
      · rw [hf, ← List.countP_eq_length_filter]; omega
    · split at h <;> exact absurd h (by simp)

/-- C28: the distributed median loop terminates. On two or more ranks and a non-empty
global dataset, distributed `Median.compute` returns as soon as the number of passes allowed
is at least the number of distinct values of the dataset; and every pass that does not end
the loop erases the pivot, which was among the remaining values, together with every value
equal to it (at least one), so that the remaining values are a sublist of the former ones and
strictly fewer. -/
theorem median_loop_terminates (lim : NumericLimits α) (fuel : Nat)
    (self : Median α) (group : List (List α)) (data : List α)
    (hw : 2 ≤ group.length) (hne : group.flatten ≠ [])
    (hfuel : group.flatten.toFinset.card ≤ fuel) :
    (∃ v, Median.compute lim fuel self group data true = some v) ∧
    ∀ (count : Nat) (L L1 : List (List (CalculatorValue α)))
      (mine mine1 : List (CalculatorValue α)) (m m1 : CalculatorValue α)
      (kgt klt kgt1 klt1 : Nat),
      L.flatten ≠ [] →
      Median.iteration lim count L mine m kgt klt = .next L1 mine1 m1 kgt1 klt1 →
      m1 = Median.pivot m L ∧ m1 ∈ L.flatten ∧ m1 ∉ L1.flatten ∧
        L1.flatten.Sublist L.flatten ∧
        0 < L.flatten.countP (fun v => decide (v._value = m1._value)) ∧
        L1.flatten.length + L.flatten.countP (fun v => decide (v._value = m1._value))
          ≤ L.flatten.length :=
  ⟨median_compute_distributed_returns lim fuel self group data hw hne hfuel,
    fun count L L1 mine mine1 m m1 kgt klt kgt1 klt1 h1 h2 =>
      median_iteration_erases_pivot lim count L L1 mine mine1 m m1 kgt klt kgt1 klt1 h1 h2⟩

end

theorem median_loop_terminates_witness :
    (2 ≤ ([[2, 7], [], [4, 2, 2, 7]] : List (List ℚ)).length ∧
      ([[2, 7], [], [4, 2, 2, 7]] : List (List ℚ)).flatten ≠ [] ∧
      ([[2, 7], [], [4, 2, 2, 7]] : List (List ℚ)).flatten.toFinset.card ≤ 3) ∧
    ∃ v, Median.compute doubleLimits 3 ⟨[], ⟨7⟩⟩ [[2, 7], [], [4, 2, 2, 7]] [2, 7] true
      = some v :=
  ⟨⟨by decide, by decide, by decide⟩,
    (median_loop_terminates doubleLimits 3 ⟨[], ⟨7⟩⟩ [[2, 7], [], [4, 2, 2, 7]] [2, 7]
      (by decide) (by decide) (by decide)).1⟩

section
variable {γ α : Type} [LinearOrderedField α]

/-- The statements `output.push_back(values[index])` with every index inside `values`. -/
theorem collect_map_some (values : List α) (g : α → Option Nat) (h : α → Nat) :
    ∀ (ls : List α), (∀ l ∈ ls, g l = some (h l) ∧ h l < values.length) →
      BootstrapCalculator.collect values (ls.map g)
        = some (ls.map (fun l => values.getD (h l) 0)) := by
  intro ls
  induction ls with
  | nil => intro _; rfl
  | cons l ls ih =>
    intro hg
    have h1 := hg l (List.mem_cons_self _ _)
    have h2 := ih (fun x hx => hg x (List.mem_cons_of_mem _ hx))
    rw [List.map_cons, h1.1]
    simp only [BootstrapCalculator.collect]
    rw [List.getElem?_eq_getElem h1.2, h2]
    simp only [Option.map_some', List.map_cons]
    rw [List.getD_eq_getElem _ _ h1.2]

/-- The index `lrint(x * (_replicates - 1))` for `x` in `[0, 1]`, when `lrint` rounds to a
nearest integer and `1 ≤ _replicates < 2^32`: no wrap-around takes place and the index is
below `_replicates`. -/
theorem replicateIndex_round (L : Library γ α) (self : BootstrapCalculator α) (x : α)
    (hround : ∀ y : α, |((L.lrint y : Int) : α) - y| ≤ 1 / 2)
    (hR1 : 1 ≤ self._replicates) (hR : self._replicates < 4294967296)
    (hx0 : 0 ≤ x) (hx1 : x ≤ 1) :
    self.replicateIndex L x = (L.lrint (x * ((self._replicates : α) - 1))).toNat ∧
      self.replicateIndex L x < self._replicates := by
  have e1 : (self._replicates + 4294967295) % 4294967296 = self._replicates - 1 := by omega
  have e2 : ((self._replicates - 1 : Nat) : α) = (self._replicates : α) - 1 := by
    rw [Nat.cast_sub hR1, Nat.cast_one]
  have hRpos : (0 : α) ≤ (self._replicates : α) - 1 := by
    rw [← e2]; exact Nat.cast_nonneg _
  have hy0 : 0 ≤ x * ((self._replicates : α) - 1) := mul_nonneg hx0 hRpos
  have hy1 : x * ((self._replicates : α) - 1) ≤ (self._replicates : α) - 1 := by
    calc x * ((self._replicates : α) - 1) ≤ 1 * ((self._replicates : α) - 1) :=
          mul_le_mul_of_nonneg_right hx1 hRpos
      _ = (self._replicates : α) - 1 := one_mul _
  have hr := abs_le.mp (hround (x * ((self._replicates : α) - 1)))
  have k0 : 0 ≤ L.lrint (x * ((self._replicates : α) - 1)) := by
    have : ((-1 : Int) : α) < ((L.lrint (x * ((self._replicates : α) - 1)) : Int) : α) := by
      push_cast
      linarith [hr.1]
    have := Int.cast_lt.mp this
    omega
  have k1 : L.lrint (x * ((self._replicates : α) - 1)) < (self._replicates : Int) := by
    have : ((L.lrint (x * ((self._replicates : α) - 1)) : Int) : α)
        < (((self._replicates : Int)) : α) := by
      push_cast
      linarith [hr.2]
    exact Int.cast_lt.mp this
  have e3 : L.lrint (x * ((self._replicates : α) - 1)) % 18446744073709551616
      = L.lrint (x * ((self._replicates : α) - 1)) :=
    Int.emod_eq_of_lt k0 (by omega)
  simp only [BootstrapCalculator.replicateIndex, e1, e2, e3]
  refine ⟨trivial, ?_⟩
  omega

/-- The value of `Percentile.compute` on rank 0: the elements of the sorted replicate values
at the indices `lrint(level * (_replicates - 1))`, all of them inside the sequence. -/
theorem percentile_compute_returns (L : Library γ α) (fuel : Nat)
    (self : BootstrapCalculator α) (c0 : Calculator α) (group : List (List α))
    (data : List α) (is_distributed : Bool)
    (hR1 : 1 ≤ self._replicates) (hR : self._replicates < 4294967296)
    (hlev : ∀ l ∈ self._levels, 0 < l ∧ l < 1)
    (hround : ∀ y : α, |((L.lrint y : Int) : α) - y| ≤ 1 / 2)
    (h : is_distributed = false ∨ ∀ i, i < self._replicates →
      (self.replicateAt L fuel c0 group 0 data is_distributed i).isSome) :
    ∃ values c1,
      self.computeBootstrapEstimates L fuel c0 group 0 data is_distributed
        = some (values, c1) ∧
      values.length = self._replicates ∧
      values.Sorted (fun a b => a ≤ b) ∧
      Percentile.compute L fuel self c0 group 0 data is_distributed
        = (.value (self._levels.map (fun l =>
            values.getD (L.lrint (l * ((self._replicates : α) - 1))).toNat 0)), c1) ∧
      ∀ l ∈ self._levels,
        (L.lrint (l * ((self._replicates : α) - 1))).toNat < values.length := by
  obtain ⟨values, c1, reps, hc, hlen, hsorted, -, -, -, -⟩ :=
    computeBootstrapEstimates_returns L fuel self c0 group 0 data is_distributed h
  have hidx : ∀ l ∈ self._levels,
      (fun level => some (self.replicateIndex L level)) l
          = some ((fun l => (L.lrint (l * ((self._replicates : α) - 1))).toNat) l) ∧
        (fun l => (L.lrint (l * ((self._replicates : α) - 1))).toNat) l < values.length := by
    intro l hl
    have hr := replicateIndex_round L self l hround hR1 hR (le_of_lt (hlev l hl).1)
      (le_of_lt (hlev l hl).2)
    refine ⟨by simp only [hr.1], ?_⟩
    dsimp only
    rw [hlen, ← hr.1]
    exact hr.2
  have hcol := collect_map_some values (fun level => some (self.replicateIndex L level))
    (fun l => (L.lrint (l * ((self._replicates : α) - 1))).toNat) self._levels hidx
  have hP : Percentile.compute L fuel self c0 group 0 data is_distributed
      = (.value (self._levels.map (fun l =>
          values.getD (L.lrint (l * ((self._replicates : α) - 1))).toNat 0)), c1) := by
    simp only [Percentile.compute, hc, if_true, hcol]
  exact ⟨values, c1, hc, hlen, hsorted, hP, fun l hl => (hidx l hl).2⟩

/-- C21: on rank 0, with levels in (0,1), `1 ≤ _replicates < 2^32` and `lrint` rounding to
a nearest integer, `Percentile.compute` returns (in serial mode, and in distributed mode
whenever every replicate run returns) one value per level, in the order of the levels: for
the level `l` the element of index `lrint(l * (_replicates - 1))`, which is inside the
sequence, of the ascending sorted sequence of the `_replicates` replicate values that
`computeBootstrapEstimates` returns. -/
theorem percentile_compute_rank_zero (L : Library γ α) (fuel : Nat)
    (self : BootstrapCalculator α) (c0 : Calculator α) (group : List (List α))
    (data : List α) (is_distributed : Bool)
    (hR1 : 1 ≤ self._replicates) (hR : self._replicates < 4294967296)
    (hlev : ∀ l ∈ self._levels, 0 < l ∧ l < 1)
    (hround : ∀ y : α, |((L.lrint y : Int) : α) - y| ≤ 1 / 2)
    (h : is_distributed = false ∨ ∀ i, i < self._replicates →
      (self.replicateAt L fuel c0 group 0 data is_distributed i).isSome) :
    ∃ values c1,
      self.computeBootstrapEstimates L fuel c0 group 0 data is_distributed
        = some (values, c1) ∧
      values.length = self._replicates ∧
      values.Sorted (fun a b => a ≤ b) ∧
      Percentile.compute L fuel self c0 group 0 data is_distributed
        = (.value (self._levels.map (fun l =>
            values.getD (L.lrint (l * ((self._replicates : α) - 1))).toNat 0)), c1) ∧
      ∀ l ∈ self._levels,
        (L.lrint (l * ((self._replicates : α) - 1))).toNat < values.length :=
  percentile_compute_returns L fuel self c0 group data is_distributed hR1 hR hlev hround h

/-- C22: on a rank other than 0, whatever the levels, the replicate count, the seed and the
data, an output sequence returned by `Percentile.compute` is empty; the call returns the
empty sequence in serial mode, and in distributed mode whenever every replicate run
returns. -/
theorem percentile_compute_other_rank_empty (L : Library γ α) (fuel : Nat)
    (self : BootstrapCalculator α) (c0 : Calculator α) (group : List (List α)) (rank : Nat)
    (data : List α) (is_distributed : Bool) (hrank : rank ≠ 0) :
    (∀ output, (Percentile.compute L fuel self c0 group rank data is_distributed).1
        = .value output → output = []) ∧
    ((is_distributed = false ∨ ∀ i, i < self._replicates →
        (self.replicateAt L fuel c0 group rank data is_distributed i).isSome) →
      (Percentile.compute L fuel self c0 group rank data is_distributed).1 = .value []) := by
  constructor
  · intro output ho
    simp only [Percentile.compute] at ho
    cases hc : self.computeBootstrapEstimates L fuel c0 group rank data is_distributed with
    | none =>
      rw [hc] at ho
      exact absurd ho (by simp)
    | some r =>
      obtain ⟨values, c1⟩ := r
      rw [hc] at ho
      simp only [hrank, if_false] at ho
      injection ho with ho
      exact ho.symm
  · intro h
    obtain ⟨values, c1, reps, hc, -⟩ :=
      computeBootstrapEstimates_returns L fuel self c0 group rank data is_distributed h
    simp only [Percentile.compute, hc, hrank, if_false]

/-- C24: `BiasCorrectedAccelerated.compute` called with `is_distributed = true` ends in
`mooseError` for every data, levels, replicate count and seed, and the wrapped calculator
is the one the call was given: nothing was resampled and no member of it was called. -/
theorem bca_compute_distributed_error (L : Library γ α) (fuel : Nat)
    (self : BootstrapCalculator α) (c0 : Calculator α) (group : List (List α)) (rank : Nat)
    (data : List α) :
    BiasCorrectedAccelerated.compute L fuel self c0 group rank data true
      = (.mooseError ("Due to the computational demands, the BiasCorrectedAccelerated does "
          ++ "not work with distributed data."), c0) := rfl

end

theorem percentile_compute_rank_zero_witness :
    (1 ≤ (⟨.percentile, [1 / 4, 1 / 2, 3 / 4], 3, 7, "percentile"⟩ : BootstrapCalculator ℚ)._replicates ∧
      (⟨.percentile, [1 / 4, 1 / 2, 3 / 4], 3, 7, "percentile"⟩ : BootstrapCalculator ℚ)._replicates
        < 4294967296 ∧
      (∀ l ∈ (⟨.percentile, [1 / 4, 1 / 2, 3 / 4], 3, 7, "percentile"⟩ : BootstrapCalculator ℚ)._levels,
        0 < l ∧ l < 1) ∧
      (∀ y : ℚ, |((round y : Int) : ℚ) - y| ≤ 1 / 2)) ∧
    ∃ values c1,
      (⟨.percentile, [1 / 4, 1 / 2, 3 / 4], 3, 7, "percentile"⟩ : BootstrapCalculator ℚ).computeBootstrapEstimates
        (⟨doubleLimits, fun x => x, fun x _ => x, fun x => round x, fun x => x, fun x => x,
          fun s => s, fun g d => (d.rotate g, g + 1), fun g ds => (ds, g + 1), true⟩ :
          Library Nat ℚ)
        0 (Calculator.construct .mean ⟨"mean"⟩) [] 0 [3, 1, 2] false = some (values, c1) ∧
      values.length = 3 ∧
      values.Sorted (fun a b => a ≤ b) ∧
      Percentile.compute
        (⟨doubleLimits, fun x => x, fun x _ => x, fun x => round x, fun x => x, fun x => x,
          fun s => s, fun g d => (d.rotate g, g + 1), fun g ds => (ds, g + 1), true⟩ :
          Library Nat ℚ)
        0 (⟨.percentile, [1 / 4, 1 / 2, 3 / 4], 3, 7, "percentile"⟩ : BootstrapCalculator ℚ)
        (Calculator.construct .mean ⟨"mean"⟩) [] 0 [3, 1, 2] false
        = (.value (([1 / 4, 1 / 2, 3 / 4] : List ℚ).map (fun l =>
            values.getD (round (l * (((3 : Nat) : ℚ) - 1))).toNat 0)), c1) ∧
      ∀ l ∈ ([1 / 4, 1 / 2, 3 / 4] : List ℚ),
        (round (l * (((3 : Nat) : ℚ) - 1))).toNat < values.length :=
  have h1 : ∀ l ∈ (⟨.percentile, [1 / 4, 1 / 2, 3 / 4], 3, 7, "percentile"⟩ : BootstrapCalculator ℚ)._levels,
      0 < l ∧ l < 1 := by
    intro l hl
    simp only [List.mem_cons, List.mem_singleton, List.not_mem_nil, or_false] at hl
    rcases hl with rfl | rfl | rfl <;> norm_num
  have h2 : ∀ y : ℚ, |((round y : Int) : ℚ) - y| ≤ 1 / 2 := fun y => by
    rw [abs_sub_comm]
    exact abs_sub_round y
  ⟨⟨by decide, by decide, h1, h2⟩,
    percentile_compute_rank_zero
      (⟨doubleLimits, fun x => x, fun x _ => x, fun x => round x, fun x => x, fun x => x,
          fun s => s, fun g d => (d.rotate g, g + 1), fun g ds => (ds, g + 1), true⟩ :
          Library Nat ℚ)
      0 (⟨.percentile, [1 / 4, 1 / 2, 3 / 4], 3, 7, "percentile"⟩ : BootstrapCalculator ℚ)
      (Calculator.construct .mean ⟨"mean"⟩) [] [3, 1, 2] false (by decide) (by decide) h1 h2
      (Or.inl rfl)⟩

theorem percentile_compute_other_rank_empty_witness :
    (2 : Nat) ≠ 0 ∧
    (Percentile.compute
        (⟨doubleLimits, fun x => x, fun x _ => x, fun x => round x, fun x => x, fun x => x,
          fun s => s, fun g d => (d.rotate g, g + 1), fun g ds => (ds, g + 1), true⟩ :
          Library Nat ℚ)
        0 (⟨.percentile, [1 / 4, 1 / 2, 3 / 4], 3, 7, "percentile"⟩ : BootstrapCalculator ℚ)
        (Calculator.construct .mean ⟨"mean"⟩) [] 2 [3, 1, 2] false).1 = .value [] :=
  ⟨by decide,
    (percentile_compute_other_rank_empty
      (⟨doubleLimits, fun x => x, fun x _ => x, fun x => round x, fun x => x, fun x => x,
          fun s => s, fun g d => (d.rotate g, g + 1), fun g ds => (ds, g + 1), true⟩ :
          Library Nat ℚ)
      0 (⟨.percentile, [1 / 4, 1 / 2, 3 / 4], 3, 7, "percentile"⟩ : BootstrapCalculator ℚ)
      (Calculator.construct .mean ⟨"mean"⟩) [] 2 [3, 1, 2] false (by decide)).2 (Or.inl rfl)⟩

section
variable {γ α : Type} [LinearOrderedField α]

end

section
variable {γ α : Type} [LinearOrderedField α]

/-- The value of serial `BiasCorrectedAccelerated.compute`: the bootstrap estimates and the
statistic of the data are always obtained; when the acceleration has a value `a` and no
divisor `1 - a * (z0 + z)` is zero, the output holds, for each level, the sorted replicate
at the index `lrint(cdf(x) * (_replicates - 1))`, which is inside the sequence. -/
theorem bca_compute_returns (L : Library γ α) (fuel : Nat)
    (self : BootstrapCalculator α) (c0 : Calculator α) (group : List (List α)) (rank : Nat)
    (data : List α)
    (hR1 : 1 ≤ self._replicates) (hR : self._replicates < 4294967296)
    (hround : ∀ y : α, |((L.lrint y : Int) : α) - y| ≤ 1 / 2)
    (hcdf : ∀ x : α, 0 ≤ L.cdf x ∧ L.cdf x ≤ 1) :
    ∃ values c1 value c2,
      self.computeBootstrapEstimates L fuel c0 group rank data false = some (values, c1) ∧
      values.length = self._replicates ∧
      values.Sorted (fun a b => a ≤ b) ∧
      c1.compute L.limits L.sqrt fuel group data false = some (value, c2) ∧
      ∀ a : α,
        (if data.isEmpty then Result.value 0
          else (BiasCorrectedAccelerated.acceleration L fuel c2 group data false).1)
          = .value a →
        (∀ l ∈ self._levels,
          1 - a * (L.quantile (((values.countP (fun v => decide (v < value)) : Nat) : α)
            / (self._replicates : α)) + L.quantile l) ≠ 0) →
        (BiasCorrectedAccelerated.compute L fuel self c0 group rank data false).1
          = .value (self._levels.map (fun l => values.getD
              (L.lrint (L.cdf
                (L.quantile (((values.countP (fun v => decide (v < value)) : Nat) : α)
                    / (self._replicates : α))
                  + (L.quantile (((values.countP (fun v => decide (v < value)) : Nat) : α)
                      / (self._replicates : α))
                    + (L.quantile (((values.countP (fun v => decide (v < value)) : Nat) : α)
                        / (self._replicates : α)) + L.quantile l)
                      / (1 - a * (L.quantile
                          (((values.countP (fun v => decide (v < value)) : Nat) : α)
                            / (self._replicates : α)) + L.quantile l))))
                * ((self._replicates : α) - 1))).toNat 0)) ∧
        ∀ l ∈ self._levels,
          (L.lrint (L.cdf
            (L.quantile (((values.countP (fun v => decide (v < value)) : Nat) : α)
                / (self._replicates : α))
              + (L.quantile (((values.countP (fun v => decide (v < value)) : Nat) : α)
                  / (self._replicates : α))
                + (L.quantile (((values.countP (fun v => decide (v < value)) : Nat) : α)
                    / (self._replicates : α)) + L.quantile l)
                  / (1 - a * (L.quantile
                      (((values.countP (fun v => decide (v < value)) : Nat) : α)
                        / (self._replicates : α)) + L.quantile l))))
            * ((self._replicates : α) - 1))).toNat < values.length := by
  obtain ⟨values, c1, reps, hc, hlen, hsorted, -⟩ :=
    computeBootstrapEstimates_returns L fuel self c0 group rank data false (Or.inl rfl)
  obtain ⟨value, c2, hv⟩ := calculator_compute_serial_some L.limits L.sqrt fuel c1 group data
  refine ⟨values, c1, value, c2, hc, hlen, hsorted, hv, ?_⟩
  intro a hacc hden
  have hR0 : self._replicates ≠ 0 := by omega
  generalize hz : L.quantile (((values.countP (fun v => decide (v < value)) : Nat) : α)
    / (self._replicates : α)) = z0 at hden ⊢
  have hidx : ∀ l ∈ self._levels,
      BiasCorrectedAccelerated.levelIndex L self z0 a l
          = some ((fun l => (L.lrint (L.cdf (z0 + (z0 + (z0 + L.quantile l)
              / (1 - a * (z0 + L.quantile l)))) * ((self._replicates : α) - 1))).toNat) l) ∧
        (fun l => (L.lrint (L.cdf (z0 + (z0 + (z0 + L.quantile l)
              / (1 - a * (z0 + L.quantile l)))) * ((self._replicates : α) - 1))).toNat) l
          < values.length := by
    intro l hl
    have hr := replicateIndex_round L self
      (L.cdf (z0 + (z0 + (z0 + L.quantile l) / (1 - a * (z0 + L.quantile l)))))
      hround hR1 hR (hcdf _).1 (hcdf _).2
    refine ⟨?_, ?_⟩
    · simp only [BiasCorrectedAccelerated.levelIndex, hden l hl, if_false, hr.1]
    · dsimp only
      rw [hlen, ← hr.1]
      exact hr.2
  have hcol := collect_map_some values (BiasCorrectedAccelerated.levelIndex L self z0 a)
    _ self._levels hidx
  refine ⟨?_, fun l hl => (hidx l hl).2⟩
  simp only [BiasCorrectedAccelerated.compute, Bool.false_eq_true, if_false, hc, hv, hR0, hz]
  cases hd : data.isEmpty with
  | true =>
    rw [hd] at hacc
    simp only [if_true] at hacc ⊢
    injection hacc with hacc
    subst hacc
    simp only [hcol]
  | false =>
    rw [hd] at hacc
    simp only [Bool.false_eq_true, if_false] at hacc ⊢
    cases hA : BiasCorrectedAccelerated.acceleration L fuel c2 group data false with
    | mk r c3 =>
      rw [hA] at hacc
      simp only at hacc
      subst hacc
      simp only [hcol]

/-- C30, amended: serial `BiasCorrectedAccelerated.compute`, with `1 ≤ _replicates < 2^32`,
`lrint` rounding to a nearest integer and `cdf` with values in `[0, 1]`. With `z0` the bias
factor (the quantile of the share of sorted replicates below the statistic of the data) and
`a` the acceleration, whenever `a` has a value (it is 0 for empty data, and has none when
`acceleration` ends in its assertion, as on data of one element) and `1 - a * (z0 + z)` is
non-zero for each level, the output holds one value per level in the order of the levels:
for the level `l`, with `z = quantile(l)` and
`x = z0 + (z0 + (z0 + z) / (1 - a * (z0 + z)))`, the sorted replicate at the index
`lrint(cdf(x) * (_replicates - 1))`, which is inside the sequence. -/
theorem bca_compute_adjusted_index (L : Library γ α) (fuel : Nat)
    (self : BootstrapCalculator α) (c0 : Calculator α) (group : List (List α)) (rank : Nat)
    (data : List α)
    (hR1 : 1 ≤ self._replicates) (hR : self._replicates < 4294967296)
    (hround : ∀ y : α, |((L.lrint y : Int) : α) - y| ≤ 1 / 2)
    (hcdf : ∀ x : α, 0 ≤ L.cdf x ∧ L.cdf x ≤ 1) :
    ∃ values c1 value c2,
      self.computeBootstrapEstimates L fuel c0 group rank data false = some (values, c1) ∧
      values.length = self._replicates ∧
      values.Sorted (fun a b => a ≤ b) ∧
      c1.compute L.limits L.sqrt fuel group data false = some (value, c2) ∧
      ∀ a : α,
        (if data.isEmpty then Result.value 0
          else (BiasCorrectedAccelerated.acceleration L fuel c2 group data false).1)
          = .value a →
        (∀ l ∈ self._levels,
          1 - a * (L.quantile (((values.countP (fun v => decide (v < value)) : Nat) : α)
            / (self._replicates : α)) + L.quantile l) ≠ 0) →
        (BiasCorrectedAccelerated.compute L fuel self c0 group rank data false).1
          = .value (self._levels.map (fun l => values.getD
              (L.lrint (L.cdf
                (L.quantile (((values.countP (fun v => decide (v < value)) : Nat) : α)
                    / (self._replicates : α))
                  + (L.quantile (((values.countP (fun v => decide (v < value)) : Nat) : α)
                      / (self._replicates : α))
                    + (L.quantile (((values.countP (fun v => decide (v < value)) : Nat) : α)
                        / (self._replicates : α)) + L.quantile l)
                      / (1 - a * (L.quantile
                          (((values.countP (fun v => decide (v < value)) : Nat) : α)
                            / (self._replicates : α)) + L.quantile l))))
                * ((self._replicates : α) - 1))).toNat 0)) ∧
        ∀ l ∈ self._levels,
          (L.lrint (L.cdf
            (L.quantile (((values.countP (fun v => decide (v < value)) : Nat) : α)
                / (self._replicates : α))
              + (L.quantile (((values.countP (fun v => decide (v < value)) : Nat) : α)
                  / (self._replicates : α))
                + (L.quantile (((values.countP (fun v => decide (v < value)) : Nat) : α)
                    / (self._replicates : α)) + L.quantile l)
                  / (1 - a * (L.quantile
                      (((values.countP (fun v => decide (v < value)) : Nat) : α)
                        / (self._replicates : α)) + L.quantile l))))
            * ((self._replicates : α) - 1))).toNat < values.length :=
  bca_compute_returns L fuel self c0 group rank data hR1 hR hround hcdf

/-- With acceleration 0 and bias factor 0, and `cdf` inverting `quantile` on the levels, the
indices of `BiasCorrectedAccelerated.compute` are those of `Percentile.compute`. -/
theorem bca_levelIndex_degenerate (L : Library γ α) (self : BootstrapCalculator α)
    (hinv : ∀ l ∈ self._levels, L.cdf (L.quantile l) = l) :
    self._levels.map (BiasCorrectedAccelerated.levelIndex L self 0 0)
      = self._levels.map (fun level => some (self.replicateIndex L level)) := by
  apply List.map_congr_left
  intro l hl
  simp only [BiasCorrectedAccelerated.levelIndex, zero_mul, sub_zero, one_ne_zero, if_false,
    zero_add, div_one, hinv l hl]

/-- C25, amended: on rank 0 and in serial mode, with at least one replicate, when the
computed acceleration is 0 (or the data are empty), the computed bias factor `z0` is 0 and
`cdf(quantile(l)) = l` for the levels, `BiasCorrectedAccelerated.compute` returns the same
output as `Percentile.compute` for the same data, levels, replicate count and seed. -/
theorem bca_degenerates_to_percentile_on_rank_zero (L : Library γ α) (fuel : Nat)
    (self self' : BootstrapCalculator α) (c0 : Calculator α) (group : List (List α))
    (data : List α) (values : List α) (c1 : Calculator α) (value : α) (c2 : Calculator α)
    (hl : self'._levels = self._levels) (hr : self'._replicates = self._replicates)
    (hs : self'._seed = self._seed)
    (hR : self._replicates ≠ 0)
    (hinv : ∀ l ∈ self._levels, L.cdf (L.quantile l) = l)
    (hc : self.computeBootstrapEstimates L fuel c0 group 0 data false = some (values, c1))
    (hv : c1.compute L.limits L.sqrt fuel group data false = some (value, c2))
    (hz0 : L.quantile (((values.countP (fun v => decide (v < value)) : Nat) : α)
      / (self._replicates : α)) = 0)
    (hacc : (if data.isEmpty then Result.value 0
      else (BiasCorrectedAccelerated.acceleration L fuel c2 group data false).1)
      = .value 0) :
    (BiasCorrectedAccelerated.compute L fuel self c0 group 0 data false).1
      = (Percentile.compute L fuel self' c0 group 0 data false).1 := by
  have hc' : self'.computeBootstrapEstimates L fuel c0 group 0 data false
      = some (values, c1) := by
    rw [← hc]
    simp only [BootstrapCalculator.computeBootstrapEstimates, hr, hs]
  have hidx' : self'._levels.map (fun level => some (self'.replicateIndex L level))
      = self._levels.map (fun level => some (self.replicateIndex L level)) := by
    rw [hl]
    simp only [BootstrapCalculator.replicateIndex, hr]
  have hidx := bca_levelIndex_degenerate L self hinv
  simp only [Percentile.compute, hc', if_true, hidx']
  simp only [BiasCorrectedAccelerated.compute, Bool.false_eq_true, if_false, hc, hv, hR, hz0]
  cases hd : data.isEmpty with
  | true =>
    simp only [if_true, hidx]
    cases BootstrapCalculator.collect values
      (self._levels.map (fun level => some (self.replicateIndex L level))) <;> rfl
  | false =>
    rw [hd] at hacc
    simp only [Bool.false_eq_true, if_false] at hacc ⊢
    cases hA : BiasCorrectedAccelerated.acceleration L fuel c2 group data false with
    | mk r c3 =>
      rw [hA] at hacc
      simp only at hacc
      subst hacc
      simp only [hidx]
      cases BootstrapCalculator.collect values
        (self._levels.map (fun level => some (self.replicateIndex L level))) <;> rfl

end

/-- An example of a bootstrap of the mean of the data 1, 3 with two replicates, the first
resample being 1, 1 and the second 3, 3: the sorted estimates are 1, 3. -/
theorem bca_example_estimates (method : BootstrapMethod) (name : String) (rank : Nat) :
    BootstrapCalculator.computeBootstrapEstimates
      (⟨doubleLimits, fun x => x,
        fun b e => if e = 3 then b ^ 3 else if e = 2 then b ^ 2 else b,
        fun x => ⌈x - 1 / 2⌉, fun p => p - 1 / 2, fun x => max 0 (min 1 (x + 1 / 2)),
        fun s => s, fun g d => (d.map (fun _ => d.getD g 0), g + 1),
        fun g ds => (ds, g + 1), true⟩ : Library Nat ℚ)
      0 ⟨method, [1 / 2], 2, 0, name⟩ (Calculator.construct .mean ⟨"mean"⟩) [] rank [1, 3] false
      = some ([1, 3], ⟨"mean", .mean ⟨2, ⟨3⟩⟩⟩) := by
  simp [BootstrapCalculator.computeBootstrapEstimates, BootstrapCalculator.replicateLoop,
    BootstrapCalculator.resampleAct, Calculator.init, Calculator.update,
    Calculator.finalize, Calculator.get, Calculator.construct, Mean.init, Mean.update,
    Mean.finalize, Mean.get, CalculatorValue.zero, CalculatorValue.plusEq,
    CalculatorValue.divEq, CalculatorValue.get, CalculatorValue.divide, inplaceSort,
    CalculatorValue.add]

/-- In the example the mean of the data is 2. -/
theorem bca_example_value :
    Calculator.compute doubleLimits (fun x => x) 0 (⟨"mean", .mean ⟨2, ⟨3⟩⟩⟩ : Calculator ℚ)
      [] [1, 3] false = some (2, ⟨"mean", .mean ⟨2, ⟨2⟩⟩⟩) := by
  simp [Calculator.compute, Calculator.init, Calculator.update,
    Calculator.finalize, Calculator.get, Mean.init, Mean.update,
    Mean.finalize, Mean.get, CalculatorValue.zero, CalculatorValue.plusEq,
    CalculatorValue.divEq, CalculatorValue.get, CalculatorValue.divide,
    CalculatorValue.add]
  norm_num

/-- In the example the jackknife means are 3 and 1 and the acceleration is 0. -/
theorem bca_example_acceleration :
    BiasCorrectedAccelerated.acceleration
      (⟨doubleLimits, fun x => x,
        fun b e => if e = 3 then b ^ 3 else if e = 2 then b ^ 2 else b,
        fun x => ⌈x - 1 / 2⌉, fun p => p - 1 / 2, fun x => max 0 (min 1 (x + 1 / 2)),
        fun s => s, fun g d => (d.map (fun _ => d.getD g 0), g + 1),
        fun g ds => (ds, g + 1), true⟩ : Library Nat ℚ)
      0 ⟨"mean", .mean ⟨2, ⟨2⟩⟩⟩ [] [1, 3] false
      = (.value 0, ⟨"mean", .mean ⟨1, ⟨1⟩⟩⟩) := by
  simp [BiasCorrectedAccelerated.acceleration, BiasCorrectedAccelerated.jackknife,
    List.range, List.range.loop,
    Calculator.compute, Calculator.init, Calculator.update,
    Calculator.finalize, Calculator.get, Mean.init, Mean.update,
    Mean.finalize, Mean.get, CalculatorValue.zero, CalculatorValue.plusEq,
    CalculatorValue.divEq, CalculatorValue.get, CalculatorValue.divide,
    CalculatorValue.add]
  norm_num

/-- In the example `BiasCorrectedAccelerated.compute` returns the estimate 1 for the level
1/2, on every rank. -/
theorem bca_example_output (rank : Nat) :
    (BiasCorrectedAccelerated.compute
      (⟨doubleLimits, fun x => x,
        fun b e => if e = 3 then b ^ 3 else if e = 2 then b ^ 2 else b,
        fun x => ⌈x - 1 / 2⌉, fun p => p - 1 / 2, fun x => max 0 (min 1 (x + 1 / 2)),
        fun s => s, fun g d => (d.map (fun _ => d.getD g 0), g + 1),
        fun g ds => (ds, g + 1), true⟩ : Library Nat ℚ)
      0 ⟨.bca, [1 / 2], 2, 0, "bca"⟩ (Calculator.construct .mean ⟨"mean"⟩) [] rank [1, 3]
      false).1 = .value [1] := by
  have h1 : ∀ y : ℚ, |((⌈y - 1 / 2⌉ : Int) : ℚ) - y| ≤ 1 / 2 := fun y => by
    have a := Int.le_ceil (y - 1 / 2)
    have b := Int.ceil_lt_add_one (y - 1 / 2)
    rw [abs_le]
    constructor <;> linarith
  have h2 : ∀ x : ℚ, 0 ≤ max 0 (min 1 (x + 1 / 2)) ∧ max 0 (min 1 (x + 1 / 2)) ≤ 1 :=
    fun x => ⟨le_max_left _ _, max_le (by norm_num) (min_le_left _ _)⟩
  obtain ⟨values, c1, value, c2, hc, -, -, hv, H⟩ := bca_compute_returns
    (⟨doubleLimits, fun x => x,
        fun b e => if e = 3 then b ^ 3 else if e = 2 then b ^ 2 else b,
        fun x => ⌈x - 1 / 2⌉, fun p => p - 1 / 2, fun x => max 0 (min 1 (x + 1 / 2)),
        fun s => s, fun g d => (d.map (fun _ => d.getD g 0), g + 1),
        fun g ds => (ds, g + 1), true⟩ : Library Nat ℚ)
    0 ⟨.bca, [1 / 2], 2, 0, "bca"⟩ (Calculator.construct .mean ⟨"mean"⟩) [] rank [1, 3]
    (by decide) (by decide) h1 h2
  rw [bca_example_estimates] at hc
  injection hc with hc
  injection hc with e1 e2
  subst e1 e2
  have hv2 := hv.symm.trans bca_example_value
  injection hv2 with hv2
  injection hv2 with e1 e2
  subst e1 e2
  have h3 := (H 0 (by rw [bca_example_acceleration]; rfl)
    (by intro l _; simp)).1
  rw [h3]
  simp [List.countP_cons]
  norm_num

/-- In the example `Percentile.compute` returns no value on a rank other than 0. -/
theorem percentile_example_output (rank : Nat) (hrank : rank ≠ 0) :
    (Percentile.compute
      (⟨doubleLimits, fun x => x,
        fun b e => if e = 3 then b ^ 3 else if e = 2 then b ^ 2 else b,
        fun x => ⌈x - 1 / 2⌉, fun p => p - 1 / 2, fun x => max 0 (min 1 (x + 1 / 2)),
        fun s => s, fun g d => (d.map (fun _ => d.getD g 0), g + 1),
        fun g ds => (ds, g + 1), true⟩ : Library Nat ℚ)
      0 ⟨.percentile, [1 / 2], 2, 0, "percentile"⟩ (Calculator.construct .mean ⟨"mean"⟩) []
      rank [1, 3] false).1 = .value [] := by
  simp only [Percentile.compute, bca_example_estimates, hrank, if_false]

/-- C25, counterexample: the mean of the data 1, 3 with two replicates (resamples 1, 1 and
3, 3), level 1/2, serial mode, on rank 1. `cdf` inverts `quantile` on (0,1), the sorted
estimates are 1, 3, the mean of the data is 2, so that the bias factor is `quantile(1/2)`,
which is 0, and the computed acceleration is 0. `BiasCorrectedAccelerated.compute` returns
the estimate 1 while `Percentile.compute` returns the empty sequence. -/
theorem bca_differs_from_percentile_on_other_rank :
    (∀ l : ℚ, 0 < l → l < 1 → max 0 (min 1 (l - 1 / 2 + 1 / 2)) = l) ∧
    (⟨.bca, [1 / 2], 2, 0, "bca"⟩ : BootstrapCalculator ℚ).computeBootstrapEstimates
      (⟨doubleLimits, fun x => x,
        fun b e => if e = 3 then b ^ 3 else if e = 2 then b ^ 2 else b,
        fun x => ⌈x - 1 / 2⌉, fun p => p - 1 / 2, fun x => max 0 (min 1 (x + 1 / 2)),
        fun s => s, fun g d => (d.map (fun _ => d.getD g 0), g + 1),
        fun g ds => (ds, g + 1), true⟩ : Library Nat ℚ)
      0 (Calculator.construct .mean ⟨"mean"⟩) [] 1 [1, 3] false
      = some ([1, 3], ⟨"mean", .mean ⟨2, ⟨3⟩⟩⟩) ∧
    Calculator.compute doubleLimits (fun x => x) 0 (⟨"mean", .mean ⟨2, ⟨3⟩⟩⟩ : Calculator ℚ)
      [] [1, 3] false = some (2, ⟨"mean", .mean ⟨2, ⟨2⟩⟩⟩) ∧
    ((([1, 3] : List ℚ).countP (fun v => decide (v < 2)) : Nat) : ℚ) / ((2 : Nat) : ℚ) - 1 / 2
      = 0 ∧
    (BiasCorrectedAccelerated.acceleration
      (⟨doubleLimits, fun x => x,
        fun b e => if e = 3 then b ^ 3 else if e = 2 then b ^ 2 else b,
        fun x => ⌈x - 1 / 2⌉, fun p => p - 1 / 2, fun x => max 0 (min 1 (x + 1 / 2)),
        fun s => s, fun g d => (d.map (fun _ => d.getD g 0), g + 1),
        fun g ds => (ds, g + 1), true⟩ : Library Nat ℚ)
      0 ⟨"mean", .mean ⟨2, ⟨2⟩⟩⟩ [] [1, 3] false).1 = .value 0 ∧
    (BiasCorrectedAccelerated.compute
      (⟨doubleLimits, fun x => x,
        fun b e => if e = 3 then b ^ 3 else if e = 2 then b ^ 2 else b,
        fun x => ⌈x - 1 / 2⌉, fun p => p - 1 / 2, fun x => max 0 (min 1 (x + 1 / 2)),
        fun s => s, fun g d => (d.map (fun _ => d.getD g 0), g + 1),
        fun g ds => (ds, g + 1), true⟩ : Library Nat ℚ)
      0 (⟨.bca, [1 / 2], 2, 0, "bca"⟩ : BootstrapCalculator ℚ) (Calculator.construct .mean ⟨"mean"⟩) [] 1 [1, 3] false).1 = .value [1] ∧
    (Percentile.compute
      (⟨doubleLimits, fun x => x,
        fun b e => if e = 3 then b ^ 3 else if e = 2 then b ^ 2 else b,
        fun x => ⌈x - 1 / 2⌉, fun p => p - 1 / 2, fun x => max 0 (min 1 (x + 1 / 2)),
        fun s => s, fun g d => (d.map (fun _ => d.getD g 0), g + 1),
        fun g ds => (ds, g + 1), true⟩ : Library Nat ℚ)
      0 (⟨.percentile, [1 / 2], 2, 0, "percentile"⟩ : BootstrapCalculator ℚ) (Calculator.construct .mean ⟨"mean"⟩) [] 1 [1, 3] false).1 = .value [] ∧
    (BiasCorrectedAccelerated.compute
      (⟨doubleLimits, fun x => x,
        fun b e => if e = 3 then b ^ 3 else if e = 2 then b ^ 2 else b,
        fun x => ⌈x - 1 / 2⌉, fun p => p - 1 / 2, fun x => max 0 (min 1 (x + 1 / 2)),
        fun s => s, fun g d => (d.map (fun _ => d.getD g 0), g + 1),
        fun g ds => (ds, g + 1), true⟩ : Library Nat ℚ)
      0 (⟨.bca, [1 / 2], 2, 0, "bca"⟩ : BootstrapCalculator ℚ) (Calculator.construct .mean ⟨"mean"⟩) [] 1 [1, 3] false).1
      ≠ (Percentile.compute
      (⟨doubleLimits, fun x => x,
        fun b e => if e = 3 then b ^ 3 else if e = 2 then b ^ 2 else b,
        fun x => ⌈x - 1 / 2⌉, fun p => p - 1 / 2, fun x => max 0 (min 1 (x + 1 / 2)),
        fun s => s, fun g d => (d.map (fun _ => d.getD g 0), g + 1),
        fun g ds => (ds, g + 1), true⟩ : Library Nat ℚ)
      0 (⟨.percentile, [1 / 2], 2, 0, "percentile"⟩ : BootstrapCalculator ℚ) (Calculator.construct .mean ⟨"mean"⟩) [] 1 [1, 3] false).1 := by
  refine ⟨?_, bca_example_estimates _ _ 1, bca_example_value, ?_, ?_, bca_example_output 1,
    percentile_example_output 1 (by decide), ?_⟩
  · intro l h0 h1
    rw [sub_add_cancel, min_eq_right (le_of_lt h1), max_eq_right (le_of_lt h0)]
  · simp [List.countP_cons]
    norm_num
  · rw [bca_example_acceleration]
  · rw [bca_example_output 1, percentile_example_output 1 (by decide)]
    intro e
    injection e with e
    exact absurd e (by simp)

theorem bca_degenerates_to_percentile_on_rank_zero_witness :
    ((⟨.percentile, [1 / 2], 2, 0, "percentile"⟩ : BootstrapCalculator ℚ)._levels = (⟨.bca, [1 / 2], 2, 0, "bca"⟩ : BootstrapCalculator ℚ)._levels ∧
      (⟨.bca, [1 / 2], 2, 0, "bca"⟩ : BootstrapCalculator ℚ)._replicates ≠ 0 ∧
      (∀ l ∈ (⟨.bca, [1 / 2], 2, 0, "bca"⟩ : BootstrapCalculator ℚ)._levels,
        max 0 (min 1 (l - 1 / 2 + 1 / 2)) = l)) ∧
    (BiasCorrectedAccelerated.compute
      (⟨doubleLimits, fun x => x,
        fun b e => if e = 3 then b ^ 3 else if e = 2 then b ^ 2 else b,
        fun x => ⌈x - 1 / 2⌉, fun p => p - 1 / 2, fun x => max 0 (min 1 (x + 1 / 2)),
        fun s => s, fun g d => (d.map (fun _ => d.getD g 0), g + 1),
        fun g ds => (ds, g + 1), true⟩ : Library Nat ℚ)
      0 (⟨.bca, [1 / 2], 2, 0, "bca"⟩ : BootstrapCalculator ℚ) (Calculator.construct .mean ⟨"mean"⟩) [] 0 [1, 3] false).1
      = (Percentile.compute
      (⟨doubleLimits, fun x => x,
        fun b e => if e = 3 then b ^ 3 else if e = 2 then b ^ 2 else b,
        fun x => ⌈x - 1 / 2⌉, fun p => p - 1 / 2, fun x => max 0 (min 1 (x + 1 / 2)),
        fun s => s, fun g d => (d.map (fun _ => d.getD g 0), g + 1),
        fun g ds => (ds, g + 1), true⟩ : Library Nat ℚ)
      0 (⟨.percentile, [1 / 2], 2, 0, "percentile"⟩ : BootstrapCalculator ℚ) (Calculator.construct .mean ⟨"mean"⟩) [] 0 [1, 3] false).1 :=
  have hinv : ∀ l ∈ (⟨.bca, [1 / 2], 2, 0, "bca"⟩ : BootstrapCalculator ℚ)._levels,
      max 0 (min 1 (l - 1 / 2 + 1 / 2)) = l := by
    intro l hl
    rw [List.mem_singleton] at hl
    subst hl
    norm_num
  ⟨⟨rfl, by decide, hinv⟩,
    bca_degenerates_to_percentile_on_rank_zero
      (⟨doubleLimits, fun x => x,
        fun b e => if e = 3 then b ^ 3 else if e = 2 then b ^ 2 else b,
        fun x => ⌈x - 1 / 2⌉, fun p => p - 1 / 2, fun x => max 0 (min 1 (x + 1 / 2)),
        fun s => s, fun g d => (d.map (fun _ => d.getD g 0), g + 1),
        fun g ds => (ds, g + 1), true⟩ : Library Nat ℚ)
      0 (⟨.bca, [1 / 2], 2, 0, "bca"⟩ : BootstrapCalculator ℚ) (⟨.percentile, [1 / 2], 2, 0, "percentile"⟩ : BootstrapCalculator ℚ) (Calculator.construct .mean ⟨"mean"⟩) [] [1, 3] [1, 3]
      ⟨"mean", .mean ⟨2, ⟨3⟩⟩⟩ 2 ⟨"mean", .mean ⟨2, ⟨2⟩⟩⟩ rfl rfl rfl (by decide) hinv
      (bca_example_estimates _ _ 0) bca_example_value
      (by simp [List.countP_cons]; norm_num)
      (by rw [bca_example_acceleration]; rfl)⟩

section
variable {γ α : Type} [LinearOrderedField α]

omit [LinearOrderedField α] in
/-- Values that fail a test do not count for it. -/
theorem countP_filter_ne (values : List α) (p q : α → Bool) (h : ∀ v, p v = true → q v = true) :
    (values.filter q).countP p = values.countP p := by
  induction values with
  | nil => rfl
  | cons x xs ih =>
    by_cases hq : q x = true
    · rw [List.filter_cons_of_pos hq, List.countP_cons, List.countP_cons, ih]
    · have hp : ¬ p x = true := fun hp => hq (h x hp)
      rw [List.filter_cons_of_neg hq, List.countP_cons, ih, if_neg hp, Nat.add_zero]

/-- The bias factor inside serial `BiasCorrectedAccelerated.compute`: the estimates and the
statistic of the data are obtained, `bias` is the quantile of the share of estimates below
the statistic, and the rest of `compute` runs on it. -/
theorem bca_compute_bias (L : Library γ α) (fuel : Nat)
    (self : BootstrapCalculator α) (c0 : Calculator α) (group : List (List α)) (rank : Nat)
    (data : List α) (hR : self._replicates ≠ 0) :
    ∃ values c1 value c2,
      self.computeBootstrapEstimates L fuel c0 group rank data false = some (values, c1) ∧
      values.length = self._replicates ∧
      c1.compute L.limits L.sqrt fuel group data false = some (value, c2) ∧
      (c0.compute L.limits L.sqrt fuel group data false).map Prod.fst = some value ∧
      BiasCorrectedAccelerated.bias L self values value
        = some (L.quantile (((values.filter (fun v => decide (v < value))).length : α)
            / (self._replicates : α))) ∧
      BiasCorrectedAccelerated.bias L self (values.filter (fun v => decide (v ≠ value))) value
        = BiasCorrectedAccelerated.bias L self values value ∧
      ∀ b, BiasCorrectedAccelerated.bias L self values value = some b →
        BiasCorrectedAccelerated.compute L fuel self c0 group rank data false
          = match (if data.isEmpty then ((.value 0 : Result α), c2)
              else BiasCorrectedAccelerated.acceleration L fuel c2 group data false) with
            | (.mooseError message, c) => (.mooseError message, c)
            | (.undefined, c) => (.undefined, c)
            | (.value acc, c) =>
              match BootstrapCalculator.collect values
                  (self._levels.map (BiasCorrectedAccelerated.levelIndex L self b acc)) with
              | some output => (.value output, c)
              | none => (.undefined, c) := by
  obtain ⟨values, c1, reps, hc, hlen, -, -, -, -, hcls⟩ :=
    computeBootstrapEstimates_returns L fuel self c0 group rank data false (Or.inl rfl)
  obtain ⟨value, c2, hv⟩ := calculator_compute_serial_some L.limits L.sqrt fuel c1 group data
  have hv0 := calculator_compute_value_indep L.limits L.sqrt fuel c0 c1 hcls.symm group data false
  rw [hv] at hv0
  refine ⟨values, c1, value, c2, hc, hlen, hv, hv0, ?_, ?_, ?_⟩
  · simp only [BiasCorrectedAccelerated.bias, hR, if_false, List.countP_eq_length_filter]
  · simp only [BiasCorrectedAccelerated.bias]
    rw [countP_filter_ne values _ _ (fun v hv => by
      simp only [decide_eq_true_eq] at hv ⊢
      exact ne_of_lt hv)]
  · intro b hb
    simp only [BiasCorrectedAccelerated.bias, hR, if_false, Option.some.injEq] at hb
    subst hb
    simp only [BiasCorrectedAccelerated.compute, Bool.false_eq_true, if_false, hc, hv, hR]

/-- C31: the bias factor of serial `BiasCorrectedAccelerated.compute` with at least one
replicate. The point estimate `value` is the value of the wrapped calculator on the full
data; `bias` is the quantile of `p`, the number of sorted estimates strictly below `value`
divided by `_replicates` in the field of the reals (no integer division); estimates equal to
`value` are not counted, since removing them leaves `bias` unchanged; and the rest of
`compute` runs with this `bias`. -/
theorem bca_bias_factor (L : Library γ α) (fuel : Nat)
    (self : BootstrapCalculator α) (c0 : Calculator α) (group : List (List α)) (rank : Nat)
    (data : List α) (hR : self._replicates ≠ 0) :
    ∃ values c1 value c2,
      self.computeBootstrapEstimates L fuel c0 group rank data false = some (values, c1) ∧
      values.length = self._replicates ∧
      c1.compute L.limits L.sqrt fuel group data false = some (value, c2) ∧
      (c0.compute L.limits L.sqrt fuel group data false).map Prod.fst = some value ∧
      BiasCorrectedAccelerated.bias L self values value
        = some (L.quantile (((values.filter (fun v => decide (v < value))).length : α)
            / (self._replicates : α))) ∧
      BiasCorrectedAccelerated.bias L self (values.filter (fun v => decide (v ≠ value))) value
        = BiasCorrectedAccelerated.bias L self values value ∧
      ∀ b, BiasCorrectedAccelerated.bias L self values value = some b →
        BiasCorrectedAccelerated.compute L fuel self c0 group rank data false
          = match (if data.isEmpty then ((.value 0 : Result α), c2)
              else BiasCorrectedAccelerated.acceleration L fuel c2 group data false) with
            | (.mooseError message, c) => (.mooseError message, c)
            | (.undefined, c) => (.undefined, c)
            | (.value acc, c) =>
              match BootstrapCalculator.collect values
                  (self._levels.map (BiasCorrectedAccelerated.levelIndex L self b acc)) with
              | some output => (.value output, c)
              | none => (.undefined, c) :=
  bca_compute_bias L fuel self c0 group rank data hR

end

theorem bca_bias_factor_witness :
    (⟨.bca, [1 / 2], 2, 0, "bca"⟩ : BootstrapCalculator ℚ)._replicates ≠ 0 ∧
    BiasCorrectedAccelerated.bias
      (⟨doubleLimits, fun x => x,
        fun b e => if e = 3 then b ^ 3 else if e = 2 then b ^ 2 else b,
        fun x => ⌈x - 1 / 2⌉, fun p => p - 1 / 2, fun x => max 0 (min 1 (x + 1 / 2)),
        fun s => s, fun g d => (d.map (fun _ => d.getD g 0), g + 1),
        fun g ds => (ds, g + 1), true⟩ : Library Nat ℚ)
      (⟨.bca, [1 / 2], 2, 0, "bca"⟩ : BootstrapCalculator ℚ) [1, 3] 2 = some ((1 : ℚ) / 2 - 1 / 2) := by
  obtain ⟨values, c1, value, c2, hc, -, hv, -, hb, -⟩ := bca_bias_factor
    (⟨doubleLimits, fun x => x,
        fun b e => if e = 3 then b ^ 3 else if e = 2 then b ^ 2 else b,
        fun x => ⌈x - 1 / 2⌉, fun p => p - 1 / 2, fun x => max 0 (min 1 (x + 1 / 2)),
        fun s => s, fun g d => (d.map (fun _ => d.getD g 0), g + 1),
        fun g ds => (ds, g + 1), true⟩ : Library Nat ℚ)
    0 (⟨.bca, [1 / 2], 2, 0, "bca"⟩ : BootstrapCalculator ℚ) (Calculator.construct .mean ⟨"mean"⟩) [] 0 [1, 3] (by decide)
  rw [bca_example_estimates] at hc
  injection hc with hc
  injection hc with e1 e2
  subst e1 e2
  have hv2 := hv.symm.trans bca_example_value
  injection hv2 with hv2
  injection hv2 with e1 e2
  subst e1 e2
  refine ⟨by decide, ?_⟩
  rw [hb]
  simp [List.filter_cons]
  norm_num

section
variable {γ α : Type} [LinearOrderedField α]

/-- The serial jackknife loop returns, for each index listed, the value of a stand-alone
`compute` of the wrapped calculator on the data without that element, whatever the data
members of the calculator it starts from. -/
theorem jackknife_values (L : Library γ α) (fuel : Nat) (c0 : Calculator α)
    (group : List (List α)) (data : List α) :
    ∀ (idx : List Nat) (c : Calculator α),
      c.variant.statistic = c0.variant.statistic →
      ∃ thetas c1,
        BiasCorrectedAccelerated.jackknife L fuel group data false idx c
          = some (thetas, c1) ∧
        c1.variant.statistic = c0.variant.statistic ∧
        List.Forall₂ (fun i t =>
          (c0.compute L.limits L.sqrt fuel (group.map (fun d => d.eraseIdx i))
            (data.eraseIdx i) false).map Prod.fst = some t) idx thetas := by
  intro idx
  induction idx with
  | nil =>
    intro c hc
    exact ⟨[], c, rfl, hc, List.Forall₂.nil⟩
  | cons i rest ih =>
    intro c hc
    obtain ⟨t, c', ht⟩ := calculator_compute_serial_some L.limits L.sqrt fuel c
      (group.map (fun d => d.eraseIdx i)) (data.eraseIdx i)
    have hp := calculator_compute_preserves L.limits L.sqrt fuel c c' _ _ false t ht
    have hv := calculator_compute_value_indep L.limits L.sqrt fuel c0 c hc.symm
      (group.map (fun d => d.eraseIdx i)) (data.eraseIdx i) false
    rw [ht] at hv
    obtain ⟨thetas, c1, hj, hc1, hall⟩ := ih c' (hp.1.trans hc)
    refine ⟨t :: thetas, c1, ?_, hc1, List.Forall₂.cons hv hall⟩
    simp only [BiasCorrectedAccelerated.jackknife, ht, hj, Option.map_some']

/-- The left folds of `acceleration` are sums. -/
theorem foldl_add_eq_sum (f : α → α) (l : List α) :
    l.foldl (fun s t => s + f t) 0 = (l.map f).sum := by
  rw [List.sum_eq_foldl, List.foldl_map]

/-- The value of serial `acceleration` on non-empty data: the jackknife estimates are the
stand-alone values of the wrapped calculator on the data without one element, and the
result is the quotient of the source computed from them. -/
theorem acceleration_serial (L : Library γ α) (fuel : Nat) (c0 : Calculator α)
    (group : List (List α)) (data : List α) :
    ∃ thetas c1,
      BiasCorrectedAccelerated.jackknife L fuel group data false (List.range data.length) c0
        = some (thetas, c1) ∧
      thetas.length = data.length ∧
      (∀ i, i < data.length →
        (c0.compute L.limits L.sqrt fuel (group.map (fun d => d.eraseIdx i))
          (data.eraseIdx i) false).map Prod.fst = some (thetas.getD i 0)) ∧
      BiasCorrectedAccelerated.acceleration L fuel c0 group data false
        = (if L.assertsActive && decide ((thetas.map (fun t =>
              L.pow (thetas.sum / (data.length : α) - t) 2)).sum = 0) then
            .mooseError "The acceleration denomenator must not be zero."
          else if 6 * L.pow ((thetas.map (fun t =>
              L.pow (thetas.sum / (data.length : α) - t) 2)).sum) (3 / 2) = 0 then .undefined
          else .value ((thetas.map (fun t =>
              L.pow (thetas.sum / (data.length : α) - t) 3)).sum
            / (6 * L.pow ((thetas.map (fun t =>
              L.pow (thetas.sum / (data.length : α) - t) 2)).sum) (3 / 2))), c1) := by
  obtain ⟨thetas, c1, hj, -, hall⟩ := jackknife_values L fuel c0 group data
    (List.range data.length) c0 rfl
  have hlen : thetas.length = data.length := by
    rw [← hall.length_eq, List.length_range]
  refine ⟨thetas, c1, hj, hlen, ?_, ?_⟩
  · intro i hi
    have h := List.Forall₂.get hall (i := i) (by rw [List.length_range]; exact hi)
      (by rw [hlen]; exact hi)
    simp only [List.get_eq_getElem, List.getElem_range] at h
    rw [h, List.getD_eq_getElem _ _ (by rw [hlen]; exact hi)]
  · simp only [BiasCorrectedAccelerated.acceleration, hj]
    have e0 : thetas.foldl (fun s t => s + t) 0 = thetas.sum := by
      have := foldl_add_eq_sum (fun t => t) thetas
      simpa using this
    simp only [e0, foldl_add_eq_sum]
    split
    · rfl
    · split <;> rfl

end

section
variable {γ α : Type} [LinearOrderedField α]

/-- Serial `BiasCorrectedAccelerated.compute` on empty data: the acceleration is 0 and the
calculator returned is the one the statistic of the data left. -/
theorem bca_compute_empty (L : Library γ α) (fuel : Nat)
    (self : BootstrapCalculator α) (c0 : Calculator α) (group : List (List α)) (rank : Nat)
    (hR : self._replicates ≠ 0) :
    ∃ values c1 value c2,
      self.computeBootstrapEstimates L fuel c0 group rank [] false = some (values, c1) ∧
      c1.compute L.limits L.sqrt fuel group [] false = some (value, c2) ∧
      ∀ b, BiasCorrectedAccelerated.bias L self values value = some b →
        (BiasCorrectedAccelerated.compute L fuel self c0 group rank [] false).1
            = (match BootstrapCalculator.collect values
                (self._levels.map (BiasCorrectedAccelerated.levelIndex L self b 0)) with
              | some output => .value output
              | none => .undefined) ∧
        (BiasCorrectedAccelerated.compute L fuel self c0 group rank [] false).2 = c2 := by
  obtain ⟨values, c1, value, c2, hc, -, hv, -, -, -, hb⟩ :=
    bca_compute_bias L fuel self c0 group rank [] hR
  refine ⟨values, c1, value, c2, hc, hv, ?_⟩
  intro b h
  rw [hb b h]
  simp only [List.isEmpty_nil, if_true]
  cases BootstrapCalculator.collect values
    (self._levels.map (BiasCorrectedAccelerated.levelIndex L self b 0)) <;> exact ⟨rfl, rfl⟩

/-- The value of serial `acceleration` when `pow` gives cubes and squares: the quotient of
the sum of the cubes of `m - t_i` by six times the power 3/2 of the sum of their squares. -/
theorem acceleration_formula (L : Library γ α) (fuel : Nat) (c0 : Calculator α)
    (group : List (List α)) (data : List α)
    (hp3 : ∀ x, L.pow x 3 = x ^ 3) (hp2 : ∀ x, L.pow x 2 = x ^ 2) :
    ∃ (thetas : List α) (c1 : Calculator α),
      thetas.length = data.length ∧
      (∀ i, i < data.length →
        (c0.compute L.limits L.sqrt fuel (group.map (fun d => d.eraseIdx i))
          (data.eraseIdx i) false).map Prod.fst = some (thetas.getD i 0)) ∧
      ((L.assertsActive = false ∨
          (thetas.map (fun t => (thetas.sum / (data.length : α) - t) ^ 2)).sum ≠ 0) →
        6 * L.pow ((thetas.map (fun t => (thetas.sum / (data.length : α) - t) ^ 2)).sum)
          (3 / 2) ≠ 0 →
        BiasCorrectedAccelerated.acceleration L fuel c0 group data false
          = (.value ((thetas.map (fun t => (thetas.sum / (data.length : α) - t) ^ 3)).sum
              / (6 * L.pow
                ((thetas.map (fun t => (thetas.sum / (data.length : α) - t) ^ 2)).sum)
                (3 / 2))), c1)) := by
  obtain ⟨thetas, c1, -, hlen, hval, hacc⟩ := acceleration_serial L fuel c0 group data
  refine ⟨thetas, c1, hlen, hval, ?_⟩
  intro h1 h2
  rw [hacc]
  simp only [hp3, hp2]
  have hcond : (L.assertsActive && decide ((thetas.map (fun t =>
      (thetas.sum / (data.length : α) - t) ^ 2)).sum = 0)) = false := by
    rcases h1 with h1 | h1
    · rw [h1]; rfl
    · rw [decide_eq_false h1, Bool.and_false]
  rw [hcond]
  simp only [Bool.false_eq_true, if_false, h2]

/-- C32, amended: the acceleration of the bias corrected accelerated method, with `pow`
giving cubes and squares. The jackknife estimates `t_i` are the values of the wrapped
calculator on the data without element `i`, the others kept in order, and whenever the
quotient has a value (the sum of the squares `(m - t_i)^2` is not zero, so that the
assertion passes, or assertions are compiled out, and the divisor is not zero)
`acceleration` returns the sum of `(m - t_i)^3` divided by six times the power 3/2 of the
sum of `(m - t_i)^2`, with `m` the average of the `t_i`. For empty data `compute` runs with
the acceleration 0 and the calculator it returns is the one the statistic of the data left:
no jackknife ran. -/
theorem bca_acceleration_jackknife_formula (L : Library γ α) (fuel : Nat)
    (self : BootstrapCalculator α) (c0 : Calculator α) (group : List (List α)) (rank : Nat)
    (data : List α)
    (hp3 : ∀ x, L.pow x 3 = x ^ 3) (hp2 : ∀ x, L.pow x 2 = x ^ 2) :
    (∃ (thetas : List α) (c1 : Calculator α),
      thetas.length = data.length ∧
      (∀ i, i < data.length →
        (c0.compute L.limits L.sqrt fuel (group.map (fun d => d.eraseIdx i))
          (data.eraseIdx i) false).map Prod.fst = some (thetas.getD i 0)) ∧
      ((L.assertsActive = false ∨
          (thetas.map (fun t => (thetas.sum / (data.length : α) - t) ^ 2)).sum ≠ 0) →
        6 * L.pow ((thetas.map (fun t => (thetas.sum / (data.length : α) - t) ^ 2)).sum)
          (3 / 2) ≠ 0 →
        BiasCorrectedAccelerated.acceleration L fuel c0 group data false
          = (.value ((thetas.map (fun t => (thetas.sum / (data.length : α) - t) ^ 3)).sum
              / (6 * L.pow
                ((thetas.map (fun t => (thetas.sum / (data.length : α) - t) ^ 2)).sum)
                (3 / 2))), c1))) ∧
    (self._replicates ≠ 0 →
      ∃ values c1 value c2,
        self.computeBootstrapEstimates L fuel c0 group rank [] false = some (values, c1) ∧
        c1.compute L.limits L.sqrt fuel group [] false = some (value, c2) ∧
        ∀ b, BiasCorrectedAccelerated.bias L self values value = some b →
          (BiasCorrectedAccelerated.compute L fuel self c0 group rank [] false).1
              = (match BootstrapCalculator.collect values
                  (self._levels.map (BiasCorrectedAccelerated.levelIndex L self b 0)) with
                | some output => .value output
                | none => .undefined) ∧
          (BiasCorrectedAccelerated.compute L fuel self c0 group rank [] false).2 = c2) :=
  ⟨acceleration_formula L fuel c0 group data hp3 hp2,
    fun hR => bca_compute_empty L fuel self c0 group rank hR⟩

end

section
variable {γ α : Type} [LinearOrderedField α]

/-- Serial `acceleration` when all jackknife estimates are equal to `t`: the estimates are
`t` repeated, numerator and divisor are zero, and the call ends in the assertion, or in 0/0
when assertions are compiled out. -/
theorem acceleration_equal_estimates (L : Library γ α) (fuel : Nat) (c0 : Calculator α)
    (group : List (List α)) (data : List α)
    (hz2 : L.pow 0 2 = 0) (hz3 : L.pow 0 3 = 0) (hz : L.pow 0 (3 / 2) = 0)
    (hne : data ≠ []) (t : α)
    (heq : ∀ i, i < data.length →
      (c0.compute L.limits L.sqrt fuel (group.map (fun d => d.eraseIdx i))
        (data.eraseIdx i) false).map Prod.fst = some t) :
    ∃ c1,
      BiasCorrectedAccelerated.jackknife L fuel group data false (List.range data.length) c0
        = some (List.replicate data.length t, c1) ∧
      ((List.replicate data.length t).map (fun u =>
        L.pow ((List.replicate data.length t).sum / (data.length : α) - u) 2)).sum = 0 ∧
      ((List.replicate data.length t).map (fun u =>
        L.pow ((List.replicate data.length t).sum / (data.length : α) - u) 3)).sum = 0 ∧
      6 * L.pow (((List.replicate data.length t).map (fun u =>
        L.pow ((List.replicate data.length t).sum / (data.length : α) - u) 2)).sum)
          (3 / 2) = 0 ∧
      BiasCorrectedAccelerated.acceleration L fuel c0 group data false
        = (if L.assertsActive then
            .mooseError "The acceleration denomenator must not be zero."
          else .undefined, c1) := by
  obtain ⟨thetas, c1, hj, hlen, hval, hacc⟩ := acceleration_serial L fuel c0 group data
  have hrep : thetas = List.replicate data.length t := by
    rw [List.eq_replicate_iff]
    refine ⟨hlen, ?_⟩
    intro b hb
    obtain ⟨i, hi, hib⟩ := List.getElem_of_mem hb
    have h1 := hval i (by rw [← hlen]; exact hi)
    rw [heq i (by rw [← hlen]; exact hi), List.getD_eq_getElem _ _ hi, hib] at h1
    injection h1 with h1
    exact h1.symm
  subst hrep
  have hn : (data.length : α) ≠ 0 := by
    have := List.length_pos.mpr hne
    exact_mod_cast (Nat.pos_iff_ne_zero.mp this)
  have hm : (List.replicate data.length t).sum / (data.length : α) = t := by
    rw [List.sum_replicate, nsmul_eq_mul, mul_comm, mul_div_assoc, div_self hn, mul_one]
  have hden : ((List.replicate data.length t).map (fun u =>
      L.pow ((List.replicate data.length t).sum / (data.length : α) - u) 2)).sum = 0 := by
    rw [hm, List.map_replicate, sub_self, hz2, List.sum_replicate, smul_zero]
  have hnum : ((List.replicate data.length t).map (fun u =>
      L.pow ((List.replicate data.length t).sum / (data.length : α) - u) 3)).sum = 0 := by
    rw [hm, List.map_replicate, sub_self, hz3, List.sum_replicate, smul_zero]
  have hdiv : 6 * L.pow (((List.replicate data.length t).map (fun u =>
      L.pow ((List.replicate data.length t).sum / (data.length : α) - u) 2)).sum)
        (3 / 2) = 0 := by
    rw [hden, hz, mul_zero]
  refine ⟨c1, hj, hden, hnum, hdiv, ?_⟩
  rw [hacc, hdiv, hden]
  cases L.assertsActive <;> simp

/-- Serial `acceleration` on data of one element, whatever the calculator. -/
theorem acceleration_single (L : Library γ α) (fuel : Nat) (c0 : Calculator α)
    (group : List (List α)) (x : α)
    (hz2 : L.pow 0 2 = 0) (hz3 : L.pow 0 3 = 0) (hz : L.pow 0 (3 / 2) = 0) :
    (BiasCorrectedAccelerated.acceleration L fuel c0 group [x] false).1
      = if L.assertsActive then .mooseError "The acceleration denomenator must not be zero."
        else .undefined := by
  obtain ⟨t, c', ht⟩ := calculator_compute_serial_some L.limits L.sqrt fuel c0
    (group.map (fun d => d.eraseIdx 0)) ([x].eraseIdx 0)
  obtain ⟨c1, -, -, -, -, h⟩ := acceleration_equal_estimates L fuel c0 group [x] hz2 hz3 hz
    (by simp) t (by
      intro i hi
      have : i = 0 := by simpa using hi
      subst this
      rw [ht]
      rfl)
  rw [h]

/-- Serial `acceleration` with `Mean` wrapped on two or more equal values. -/
theorem acceleration_mean_constant (L : Library γ α) (fuel : Nat) (c0 : Calculator α)
    (group : List (List α)) (k : Nat) (x : α) (hmean : c0.variant.statistic = .mean)
    (hz2 : L.pow 0 2 = 0) (hz3 : L.pow 0 3 = 0) (hz : L.pow 0 (3 / 2) = 0) :
    (BiasCorrectedAccelerated.acceleration L fuel c0 group (List.replicate (k + 2) x) false).1
      = if L.assertsActive then .mooseError "The acceleration denomenator must not be zero."
        else .undefined := by
  obtain ⟨n, w⟩ := c0
  cases w <;> simp only [Variant.statistic] at hmean <;> try exact absurd hmean (by decide)
  rename_i m
  obtain ⟨c1, -, -, -, -, h⟩ := acceleration_equal_estimates L fuel ⟨n, .mean m⟩ group
    (List.replicate (k + 2) x) hz2 hz3 hz (by simp) x (by
      intro i hi
      rw [List.length_replicate] at hi
      rw [calculator_compute_mean, Option.map_some', mean_compute_serial,
        List.eraseIdx_replicate, if_pos hi]
      have hk : k + 2 - 1 = k + 1 := by omega
      rw [hk, List.length_replicate, if_pos (Nat.succ_pos k), List.sum_replicate,
        nsmul_eq_mul]
      have hne : ((k + 1 : Nat) : α) ≠ 0 := by exact_mod_cast Nat.succ_ne_zero k
      rw [mul_comm, mul_div_assoc, div_self hne, mul_one])
  rw [h]

end

section
variable {γ α : Type} [LinearOrderedField α]

/-- The running minimum over a list of elements of `D` is not below that over `D`. -/
theorem foldl_min_subset (D E : List α) (a : α) (h : ∀ x ∈ E, x ∈ D) :
    D.foldl min a ≤ E.foldl min a := by
  rcases foldl_min_mem E a with e | e
  · rw [e]; exact (foldl_min_le D a).1
  · exact (foldl_min_le D a).2 _ (h _ e)

/-- A serial replicate of the minimum: the running minimum of the resample from
`numeric_limits::max()`. -/
theorem replicateAt_min_serial (L : Library γ α) (fuel : Nat) (self : BootstrapCalculator α)
    (name : String) (m : Min α) (group : List (List α)) (rank : Nat) (data : List α)
    (i : Nat) :
    self.replicateAt L fuel ⟨name, .min m⟩ group rank data false i
      = some ((L.resampleLocal (self.generatorAt L group rank data false i) data).1.foldl min
          L.limits.max) := by
  simp only [BootstrapCalculator.replicateAt, calculator_compute_min, Option.map_some',
    min_compute_serial]
  rfl

/-- Serial bias corrected accelerated bootstrap of the minimum: no estimate is below the
minimum of the data, and the bias factor is the quantile of 0. -/
theorem bca_min_bias (L : Library γ α) (fuel : Nat)
    (self : BootstrapCalculator α) (c0 : Calculator α) (group : List (List α)) (rank : Nat)
    (data : List α) (hmin : c0.variant.statistic = .min)
    (hres : ∀ g, ∀ x ∈ (L.resampleLocal g data).1, x ∈ data)
    (hR : self._replicates ≠ 0) :
    ∃ values c1 value c2,
      self.computeBootstrapEstimates L fuel c0 group rank data false = some (values, c1) ∧
      values.length = self._replicates ∧
      c1.compute L.limits L.sqrt fuel group data false = some (value, c2) ∧
      value = data.foldl min L.limits.max ∧
      (∀ m : Min α, value = Min.compute L.limits m group data false) ∧
      (∀ v ∈ values, value ≤ v) ∧
      values.countP (fun v => decide (v < value)) = 0 ∧
      ((values.countP (fun v => decide (v < value)) : Nat) : α) / (self._replicates : α) = 0 ∧
      BiasCorrectedAccelerated.bias L self values value = some (L.quantile 0) := by
  obtain ⟨values, c1, value, c2, hc, hlen, hv, hv0, -, -, -⟩ :=
    bca_compute_bias L fuel self c0 group rank data hR
  obtain ⟨values', c1', reps, hc', -, -, hrl, hrep, hperm, -⟩ :=
    computeBootstrapEstimates_returns L fuel self c0 group rank data false (Or.inl rfl)
  rw [hc] at hc'
  injection hc' with hc'
  injection hc' with e1 e2
  subst e1 e2
  obtain ⟨n, w⟩ := c0
  cases w <;> simp only [Variant.statistic] at hmin <;> try exact absurd hmin (by decide)
  rename_i m
  rw [calculator_compute_min, Option.map_some', min_compute_serial] at hv0
  injection hv0 with hv0
  simp only at hv0
  have hge : ∀ v ∈ values, value ≤ v := by
    intro v hv
    obtain ⟨j, hj, hjv⟩ := List.getElem_of_mem (hperm.subset hv)
    have h1 := hrep j (by rw [← hrl]; exact hj)
    rw [replicateAt_min_serial, List.getD_eq_getElem _ _ hj, hjv] at h1
    injection h1 with h1
    rw [← h1, ← hv0]
    exact foldl_min_subset data _ _ (hres _)
  have hcount : values.countP (fun v => decide (v < value)) = 0 := by
    rw [List.countP_eq_zero]
    intro v hv
    simp only [decide_eq_true_eq, not_lt]
    exact hge v hv
  refine ⟨values, c1, value, c2, hc, hlen, hv, hv0.symm, ?_, hge, hcount, ?_, ?_⟩
  · intro m'
    rw [min_compute_serial, hv0]
  · rw [hcount, Nat.cast_zero, zero_div]
  · simp only [BiasCorrectedAccelerated.bias, hR, if_false, hcount, Nat.cast_zero, zero_div]

/-- C37: with the `Min` calculator wrapped, in serial mode, with at least one replicate, any
seed and every resample made of elements of the data, every bootstrap estimate is at least
the point estimate `Min.compute(D)`; so the number of estimates strictly below it is 0, the
proportion handed to the normal quantile is exactly 0 and the bias factor is
`quantile(0)`. -/
theorem bca_min_bias_at_boundary (L : Library γ α) (fuel : Nat)
    (self : BootstrapCalculator α) (c0 : Calculator α) (group : List (List α)) (rank : Nat)
    (data : List α) (hmin : c0.variant.statistic = .min)
    (hres : ∀ g, ∀ x ∈ (L.resampleLocal g data).1, x ∈ data)
    (hR : self._replicates ≠ 0) :
    ∃ values c1 value c2,
      self.computeBootstrapEstimates L fuel c0 group rank data false = some (values, c1) ∧
      values.length = self._replicates ∧
      c1.compute L.limits L.sqrt fuel group data false = some (value, c2) ∧
      value = data.foldl min L.limits.max ∧
      (∀ m : Min α, value = Min.compute L.limits m group data false) ∧
      (∀ v ∈ values, value ≤ v) ∧
      values.countP (fun v => decide (v < value)) = 0 ∧
      ((values.countP (fun v => decide (v < value)) : Nat) : α) / (self._replicates : α) = 0 ∧
      BiasCorrectedAccelerated.bias L self values value = some (L.quantile 0) :=
  bca_min_bias L fuel self c0 group rank data hmin hres hR

end

theorem bca_min_bias_at_boundary_witness :
    ((Calculator.construct .min ⟨"min"⟩ : Calculator ℚ).variant.statistic = .min ∧
      (∀ g : Nat, ∀ x ∈ ([3, 1, 2] : List ℚ).rotate g, x ∈ ([3, 1, 2] : List ℚ)) ∧
      (⟨.bca, [1 / 2], 3, 7, "bca"⟩ : BootstrapCalculator ℚ)._replicates ≠ 0) ∧
    ∃ values c1 value,
      (⟨.bca, [1 / 2], 3, 7, "bca"⟩ : BootstrapCalculator ℚ).computeBootstrapEstimates
        (⟨doubleLimits, fun x => x, fun x _ => x, fun x => round x, fun x => x, fun x => x,
        fun s => s, fun g d => (d.rotate g, g + 1), fun g ds => (ds, g + 1), true⟩ :
        Library Nat ℚ)
        0 (Calculator.construct .min ⟨"min"⟩) [] 0 [3, 1, 2] false = some (values, c1) ∧
      (∀ v ∈ values, value ≤ v) ∧
      values.countP (fun v => decide (v < value)) = 0 ∧
      BiasCorrectedAccelerated.bias
        (⟨doubleLimits, fun x => x, fun x _ => x, fun x => round x, fun x => x, fun x => x,
        fun s => s, fun g d => (d.rotate g, g + 1), fun g ds => (ds, g + 1), true⟩ :
        Library Nat ℚ)
        (⟨.bca, [1 / 2], 3, 7, "bca"⟩ : BootstrapCalculator ℚ) values value = some 0 := by
  have h0 : ∀ g : Nat, ∀ x ∈ ([3, 1, 2] : List ℚ).rotate g, x ∈ ([3, 1, 2] : List ℚ) :=
    fun g x hx => List.mem_rotate.mp hx
  obtain ⟨values, c1, value, c2, hc, -, -, -, -, hge, hcount, -, hb⟩ :=
    bca_min_bias_at_boundary
      (⟨doubleLimits, fun x => x, fun x _ => x, fun x => round x, fun x => x, fun x => x,
        fun s => s, fun g d => (d.rotate g, g + 1), fun g ds => (ds, g + 1), true⟩ :
        Library Nat ℚ)
      0 (⟨.bca, [1 / 2], 3, 7, "bca"⟩ : BootstrapCalculator ℚ) (Calculator.construct .min ⟨"min"⟩) [] 0 [3, 1, 2] rfl h0 (by decide)
  exact ⟨⟨rfl, h0, by decide⟩, values, c1, value, hc, hge, hcount, hb⟩

section
variable {γ α : Type} [LinearOrderedField α]

/-- With no replicate, `computeBootstrapEstimates` returns the empty sequence and
`Percentile.compute` on rank 0 reads past it for the first level. -/
theorem percentile_no_replicates (L : Library γ α) (fuel : Nat)
    (self : BootstrapCalculator α) (c0 : Calculator α) (group : List (List α)) (rank : Nat)
    (data : List α) (is_distributed : Bool) (hR : self._replicates = 0) :
    self.computeBootstrapEstimates L fuel c0 group rank data is_distributed = some ([], c0) ∧
    (self._levels ≠ [] →
      Percentile.compute L fuel self c0 group 0 data is_distributed = (.undefined, c0)) := by
  have hc : ∀ r, self.computeBootstrapEstimates L fuel c0 group r data is_distributed
      = some ([], c0) := by
    intro r
    simp only [BootstrapCalculator.computeBootstrapEstimates, hR,
      BootstrapCalculator.replicateLoop, Option.map_some', inplaceSort,
      List.insertionSort]
  refine ⟨hc rank, ?_⟩
  intro hl
  obtain ⟨l, ls, hls⟩ := List.exists_cons_of_ne_nil hl
  simp only [Percentile.compute, hc 0, if_true, hls, List.map_cons,
    BootstrapCalculator.collect, List.getElem?_nil]

/-- C35: replicate indexing is in bounds exactly when there is a replicate. For a level in
(0,1), `_replicates` below `2^32` and `lrint` rounding to a nearest integer, the index
`lrint(level * (_replicates - 1))`, with the subtraction made in `unsigned int`, is less
than `_replicates`, the length of the sequence of estimates, if and only if
`1 ≤ _replicates`. With `_replicates = 0` the subtraction wraps to `2^32 - 1`, the sequence
of estimates is empty, any index is past its end and `Percentile.compute` has no defined
result on rank 0 when there is a level. -/
theorem replicate_index_in_bounds_iff (L : Library γ α) (self : BootstrapCalculator α)
    (level : α) (hR : self._replicates < 4294967296)
    (hround : ∀ y : α, |((L.lrint y : Int) : α) - y| ≤ 1 / 2)
    (h0 : 0 < level) (h1 : level < 1) :
    (self.replicateIndex L level < self._replicates ↔ 1 ≤ self._replicates) ∧
    (∀ (fuel : Nat) (c0 : Calculator α) (group : List (List α)) (rank : Nat) (data : List α),
      1 ≤ self._replicates →
      ∃ values c1,
        self.computeBootstrapEstimates L fuel c0 group rank data false = some (values, c1) ∧
        values.length = self._replicates ∧
        self.replicateIndex L level < values.length) ∧
    (self._replicates = 0 →
      self.replicateIndex L level
        = (L.lrint (level * 4294967295) % 18446744073709551616).toNat ∧
      ∀ (fuel : Nat) (c0 : Calculator α) (group : List (List α)) (rank : Nat) (data : List α)
        (is_distributed : Bool),
        self.computeBootstrapEstimates L fuel c0 group rank data is_distributed
          = some ([], c0) ∧
        ¬ self.replicateIndex L level < ([] : List α).length ∧
        (self._levels ≠ [] →
          Percentile.compute L fuel self c0 group 0 data is_distributed
            = (.undefined, c0))) := by
  refine ⟨⟨fun h => by omega, fun h =>
    (replicateIndex_round L self level hround h hR (le_of_lt h0) (le_of_lt h1)).2⟩, ?_, ?_⟩
  · intro fuel c0 group rank data h
    obtain ⟨values, c1, reps, hc, hlen, -⟩ :=
      computeBootstrapEstimates_returns L fuel self c0 group rank data false (Or.inl rfl)
    refine ⟨values, c1, hc, hlen, ?_⟩
    rw [hlen]
    exact (replicateIndex_round L self level hround h hR (le_of_lt h0) (le_of_lt h1)).2
  · intro hz
    refine ⟨?_, ?_⟩
    · simp only [BootstrapCalculator.replicateIndex, hz]
      norm_num
    · intro fuel c0 group rank data is_distributed
      have h := percentile_no_replicates L fuel self c0 group rank data is_distributed hz
      exact ⟨h.1, by simp, h.2⟩

end

theorem replicate_index_in_bounds_iff_witness :
    ((⟨.percentile, [1 / 2], 1000, 7, "percentile"⟩ : BootstrapCalculator ℚ)._replicates
        < 4294967296 ∧
      (∀ y : ℚ, |((round y : Int) : ℚ) - y| ≤ 1 / 2) ∧ (0 : ℚ) < 1 / 2 ∧ (1 / 2 : ℚ) < 1) ∧
    ((⟨.percentile, [1 / 2], 1000, 7, "percentile"⟩ : BootstrapCalculator ℚ).replicateIndex
        (⟨doubleLimits, fun x => x, fun x _ => x, fun x => round x, fun x => x, fun x => x,
          fun s => s, fun g d => (d.rotate g, g + 1), fun g ds => (ds, g + 1), true⟩ :
          Library Nat ℚ) (1 / 2)
      < 1000) ∧
    ¬ ((⟨.percentile, [1 / 2], 0, 7, "percentile"⟩ : BootstrapCalculator ℚ).replicateIndex
        (⟨doubleLimits, fun x => x, fun x _ => x, fun x => round x, fun x => x, fun x => x,
          fun s => s, fun g d => (d.rotate g, g + 1), fun g ds => (ds, g + 1), true⟩ :
          Library Nat ℚ) (1 / 2)
      < 0) :=
  have h2 : ∀ y : ℚ, |((round y : Int) : ℚ) - y| ≤ 1 / 2 := fun y => by
    rw [abs_sub_comm]
    exact abs_sub_round y
  ⟨⟨by decide, h2, by norm_num, by norm_num⟩,
    (replicate_index_in_bounds_iff
      (⟨doubleLimits, fun x => x, fun x _ => x, fun x => round x, fun x => x, fun x => x,
        fun s => s, fun g d => (d.rotate g, g + 1), fun g ds => (ds, g + 1), true⟩ :
        Library Nat ℚ)
      ⟨.percentile, [1 / 2], 1000, 7, "percentile"⟩ (1 / 2) (by decide) h2 (by norm_num)
      (by norm_num)).1.mpr (by decide),
    fun h => absurd ((replicate_index_in_bounds_iff
      (⟨doubleLimits, fun x => x, fun x _ => x, fun x => round x, fun x => x, fun x => x,
        fun s => s, fun g d => (d.rotate g, g + 1), fun g ds => (ds, g + 1), true⟩ :
        Library Nat ℚ)
      ⟨.percentile, [1 / 2], 0, 7, "percentile"⟩ (1 / 2) (by decide) h2 (by norm_num)
      (by norm_num)).1.mp h) (by decide)⟩

section
variable {α : Type} [LinearOrderedField α]

/-- The invariant of the loop of `Median::finalize` holds when the loop is entered. -/
theorem median_invariant_init (self : Median α) (group : List (List α))
    (hne : group.flatten ≠ []) :
    (group.flatten.length % 2 = 0 → 1 ≤ group.flatten.length / 2) ∧
    ((group.map self.accumulate).map (fun p => p._storage)).flatten.length
      = (if group.flatten.length % 2 ≠ 0 then group.flatten.length / 2
          else group.flatten.length / 2 - 1)
        + (if group.flatten.length % 2 ≠ 0 then group.flatten.length / 2
          else group.flatten.length / 2 - 1)
        + (if group.flatten.length % 2 ≠ 0 then 1 else 2) := by
  have hpos : 0 < group.flatten.length := List.length_pos.mpr hne
  rw [median_storages_flatten, List.length_map]
  constructor
  · intro h; omega
  · split <;> omega

/-- The invariant of the loop of `Median::finalize` through one pass: what it implies for
the pass, and that the pass restores it. -/
theorem median_invariant_step (lim : NumericLimits α) (count : Nat)
    (L : List (List (CalculatorValue α))) (mine : List (CalculatorValue α))
    (m : CalculatorValue α) (kgt klt : Nat)
    (hinv : L.flatten.length = kgt + klt + (if count % 2 ≠ 0 then 1 else 2)) :
    L.flatten ≠ [] ∧
    Median.pivot m L ∈ L.flatten ∧
    commSumNat (L.map (fun s => (Median.tally (Median.pivot m L) s).1))
        + commSumNat (L.map (fun s => (Median.tally (Median.pivot m L) s).2))
      ≤ commSumNat (L.map List.length) ∧
    ¬ (L.flatten.countP (fun v => decide ((Median.pivot m L)._value < v._value))
          + L.flatten.countP (fun v => decide (v._value = (Median.pivot m L)._value)) ≤ kgt ∧
        L.flatten.countP (fun v => decide (v._value < (Median.pivot m L)._value))
          + L.flatten.countP (fun v => decide (v._value = (Median.pivot m L)._value))
          ≤ klt) ∧
    ∀ (L1 : List (List (CalculatorValue α))) (mine1 : List (CalculatorValue α))
      (m1 : CalculatorValue α) (kgt1 klt1 : Nat),
      Median.iteration lim count L mine m kgt klt = .next L1 mine1 m1 kgt1 klt1 →
      L1.flatten.length = kgt1 + klt1 + (if count % 2 ≠ 0 then 1 else 2) ∧
      ((kgt1 + (L.flatten.countP (fun v => decide ((Median.pivot m L)._value < v._value))
            + L.flatten.countP (fun v => decide (v._value = (Median.pivot m L)._value)))
          = kgt ∧ klt1 = klt) ∨
        (kgt1 = kgt ∧
          klt1 + (L.flatten.countP (fun v => decide (v._value < (Median.pivot m L)._value))
            + L.flatten.countP (fun v => decide (v._value = (Median.pivot m L)._value)))
          = klt)) := by
  have he : 1 ≤ (if count % 2 ≠ 0 then 1 else 2) := by split <;> omega
  have hne : L.flatten ≠ [] := by
    intro h; rw [h, List.length_nil] at hinv; omega
  have hmem := median_pivot_mem m L hne
  have h1 := count_gt_add_le (Median.pivot m L)._value L.flatten
  have h2 := count_lt_add_eq (Median.pivot m L)._value L.flatten
  have hpos : 0 < L.flatten.countP (fun v => decide (v._value = (Median.pivot m L)._value)) :=
    List.countP_pos_iff.mpr ⟨_, hmem, by simp⟩
  refine ⟨hne, hmem, ?_, ?_, ?_⟩
  · have e0 : (fun s => (Median.tally (Median.pivot m L) s).1)
        = fun s : List (CalculatorValue α) =>
          s.countP (fun v => decide ((Median.pivot m L)._value < v._value)) := by
      funext s; rw [median_tally_eq]
    have e1 : (fun s => (Median.tally (Median.pivot m L) s).2)
        = fun s : List (CalculatorValue α) =>
          s.countP (fun v => decide (v._value < (Median.pivot m L)._value)) := by
      funext s; rw [median_tally_eq]
    rw [e0, e1, median_sum_counts, median_sum_counts, median_sum_sizes]
    omega
  · intro h
    omega
  · intro L1 mine1 m1 kgt1 klt1 h
    rw [median_iteration_eq] at h
    split at h
    · rename_i hc
      injection h with e1 e2 e3 e4 e5
      subst e1 e4 e5
      have hf : (L.map (fun s => s.filter
          (fun v => decide (v._value < (Median.pivot m L)._value)))).flatten
          = L.flatten.filter (fun v => decide (v._value < (Median.pivot m L)._value)) := by
        rw [List.filter_flatten]
      rw [hf, ← List.countP_eq_length_filter]
      constructor
      · omega
      · left; omega
    · split at h
      · rename_i hc1 hc2
        injection h with e1 e2 e3 e4 e5
        subst e1 e4 e5
        have hf : (L.map (fun s => s.filter
            (fun v => decide ((Median.pivot m L)._value < v._value)))).flatten
            = L.flatten.filter (fun v => decide ((Median.pivot m L)._value < v._value)) := by
          rw [List.filter_flatten]
        rw [hf, ← List.countP_eq_length_filter]
        constructor
        · omega
        · right; omega
      · split at h <;> exact absurd h (by simp)

end

section
variable {α : Type} [LinearOrderedField α]

/-- The all-reduced minimum does not depend on the value of the calling rank outside the
group list. -/
theorem commMin_indep (group : List (CalculatorValue α)) (c c' : CalculatorValue α)
    (h : group ≠ []) : c.commMin group = c'.commMin group := by
  cases group with
  | nil => exact absurd rfl h
  | cons v vs => rfl

theorem commMax_indep (group : List (CalculatorValue α)) (c c' : CalculatorValue α)
    (h : group ≠ []) : c.commMax group = c'.commMax group := by
  cases group with
  | nil => exact absurd rfl h
  | cons v vs => rfl

/-- The `_median` at the `break` of the loop is the same on every rank: it does not depend
on the `_storage` of the calling rank, only on those of the whole group. -/
theorem median_loop_rank_indep (lim : NumericLimits α) (count : Nat) :
    ∀ (fuel : Nat) (L : List (List (CalculatorValue α)))
      (mine mine1 : List (CalculatorValue α)) (m : CalculatorValue α) (kgt klt : Nat),
      L ≠ [] →
      (Median.loop lim count fuel L mine m kgt klt).map Prod.snd
        = (Median.loop lim count fuel L mine1 m kgt klt).map Prod.snd := by
  intro fuel
  induction fuel with
  | zero => intro L mine mine1 m kgt klt _; rfl
  | succ fuel ih =>
    intro L mine mine1 m kgt klt hL
    have hmap : ∀ f : List (CalculatorValue α) → List (CalculatorValue α), L.map f ≠ [] := by
      intro f h
      exact hL (List.map_eq_nil_iff.mp h)
    have hmap2 : ∀ f : List (CalculatorValue α) → CalculatorValue α, L.map f ≠ [] := by
      intro f h
      exact hL (List.map_eq_nil_iff.mp h)
    simp only [Median.loop]
    split
    · exact ih _ _ _ _ _ _ (hmap _)
    · split
      · exact ih _ _ _ _ _ _ (hmap _)
      · split
        · rfl
        · simp only [Option.map_some']
          rw [commMin_indep _ (Median.nextGreater lim (Median.pivot m L) mine)
              (Median.nextGreater lim (Median.pivot m L) mine1) (hmap2 _),
            commMax_indep _ (Median.nextLess lim (Median.pivot m L) mine)
              (Median.nextLess lim (Median.pivot m L) mine1) (hmap2 _)]

/-- Distributed `Median.compute` gives the same result on any two ranks of the group. -/
theorem median_compute_same_on_ranks (lim : NumericLimits α) (fuel : Nat)
    (self1 self2 : Median α) (group : List (List α)) (d1 d2 : List α)
    (h1 : d1 ∈ group) (h2 : d2 ∈ group) :
    Median.compute lim fuel self1 group d1 true
      = Median.compute lim fuel self2 group d2 true := by
  rw [median_compute_indep lim fuel group d2 true self2 self1]
  have hg : group ≠ [] := List.ne_nil_of_mem h1
  by_cases hlen : group.length = 1
  · obtain ⟨d, hd⟩ := List.length_eq_one.mp hlen
    rw [hd, List.mem_singleton] at h1 h2
    rw [h1, h2]
  · have hg2 : (group.map self1.accumulate).length ≠ 1 := by
      rw [List.length_map]; exact hlen
    have hL : (group.map self1.accumulate).map (fun p => p._storage) ≠ [] := by
      intro h
      exact hg (List.map_eq_nil_iff.mp (List.map_eq_nil_iff.mp h))
    simp only [Median.compute, Median.finalize, if_true, Bool.not_true, Bool.false_or,
      decide_eq_true_eq, hg2, if_false, (median_accumulate self1 d1).2,
      (median_accumulate self1 d2).2]
    split
    · rfl
    · have h := median_loop_rank_indep lim
        (commSumNat ((group.map self1.accumulate).map (fun p => p._storage.length))) fuel
        ((group.map self1.accumulate).map (fun p => p._storage))
        (self1.accumulate d1)._storage (self1.accumulate d2)._storage self1._median.zero
        (if commSumNat ((group.map self1.accumulate).map (fun p => p._storage.length)) % 2 ≠ 0
          then commSumNat ((group.map self1.accumulate).map (fun p => p._storage.length)) / 2
          else commSumNat ((group.map self1.accumulate).map (fun p => p._storage.length)) / 2
            - 1)
        (if commSumNat ((group.map self1.accumulate).map (fun p => p._storage.length)) % 2 ≠ 0
          then commSumNat ((group.map self1.accumulate).map (fun p => p._storage.length)) / 2
          else commSumNat ((group.map self1.accumulate).map (fun p => p._storage.length)) / 2
            - 1) hL
      have h3 := congrArg (Option.map (fun c : CalculatorValue α => c._value)) h
      simp only [Option.map_map] at h3 ⊢
      exact h3

/-- With one rank in the group the distributed call is the serial one. -/
theorem median_compute_single_rank (lim : NumericLimits α) (fuel : Nat)
    (self : Median α) (data : List α) :
    Median.compute lim fuel self [data] data true
      = Median.compute lim fuel self [data] data false := by
  simp [Median.compute, Median.finalize, commSumNat]

/-- Distributed `Median.compute` returns on every rank once the fuel covers the distinct
values, and on every rank the same value. -/
theorem median_compute_common_value (lim : NumericLimits α) (fuel : Nat)
    (group : List (List α)) (hfuel : group.flatten.toFinset.card ≤ fuel) :
    ∃ v, ∀ (self : Median α) (d : List α), d ∈ group →
      Median.compute lim fuel self group d true = some v := by
  cases hgroup : group with
  | nil => exact ⟨0, fun _ d hd => absurd hd (List.not_mem_nil d)⟩
  | cons d0 rest =>
    rw [← hgroup]
    have hd0 : d0 ∈ group := by rw [hgroup]; exact List.mem_cons_self _ _
    have hone : ∃ v, Median.compute lim fuel ⟨[], ⟨0⟩⟩ group d0 true = some v := by
      by_cases hlen : group.length = 1
      · have hr : rest = [] := by
          rw [hgroup, List.length_cons] at hlen
          exact List.length_eq_zero.mp (by omega)
        rw [hgroup, hr, median_compute_single_rank,
          median_compute_serial_eq lim fuel _ _ d0 _
            (List.sorted_insertionSort (fun a b : α => a ≤ b) d0)
            (List.perm_insertionSort (fun a b : α => a ≤ b) d0)]
        exact ⟨_, rfl⟩
      · by_cases hne : group.flatten = []
        · have hcount := median_storages_count (⟨[], ⟨0⟩⟩ : Median α) group
          rw [hne, List.length_nil] at hcount
          simp only [Median.compute, Median.finalize, if_true, hcount, Option.map_some']
          exact ⟨_, rfl⟩
        · have h2 : 2 ≤ group.length := by
            have : group.length ≠ 0 := by rw [hgroup]; simp
            omega
          exact median_compute_distributed_returns lim fuel _ group d0 h2 hne hfuel
    obtain ⟨v, hv⟩ := hone
    exact ⟨v, fun self d hd =>
      (median_compute_same_on_ranks lim fuel self ⟨[], ⟨0⟩⟩ group d d0 hd hd0).trans hv⟩

/-- C38: distributed `Median.compute` gives the same result on every rank of the group, for
every global dataset and partition and whatever the objects hold before the call; it
returns, with that common value, once the number of passes allowed is at least the number of
distinct values; and with exactly one rank in the group the distributed call gives exactly
the result of the serial call. -/
theorem median_distributed_same_on_all_ranks (lim : NumericLimits α) (fuel : Nat)
    (group : List (List α)) :
    (∀ (self1 self2 : Median α) (d1 d2 : List α), d1 ∈ group → d2 ∈ group →
      Median.compute lim fuel self1 group d1 true
        = Median.compute lim fuel self2 group d2 true) ∧
    (group.flatten.toFinset.card ≤ fuel →
      ∃ v, ∀ (self : Median α) (d : List α), d ∈ group →
        Median.compute lim fuel self group d true = some v) ∧
    (∀ (self : Median α) (data : List α),
      Median.compute lim fuel self [data] data true
        = Median.compute lim fuel self [data] data false) :=
  ⟨fun self1 self2 d1 d2 h1 h2 =>
      median_compute_same_on_ranks lim fuel self1 self2 group d1 d2 h1 h2,
    fun hfuel => median_compute_common_value lim fuel group hfuel,
    fun self data => median_compute_single_rank lim fuel self data⟩

end

theorem median_distributed_same_on_all_ranks_witness :
    (([3] : List ℚ) ∈ ([[3], [1, 2]] : List (List ℚ)) ∧
      ([1, 2] : List ℚ) ∈ ([[3], [1, 2]] : List (List ℚ)) ∧
      ([[3], [1, 2]] : List (List ℚ)).flatten.toFinset.card ≤ 3) ∧
    Median.compute doubleLimits 3 ⟨[], ⟨0⟩⟩ [[3], [1, 2]] [3] true
      = Median.compute doubleLimits 3 ⟨[⟨5⟩], ⟨7⟩⟩ [[3], [1, 2]] [1, 2] true ∧
    ∃ v, ∀ (self : Median ℚ) (d : List ℚ), d ∈ ([[3], [1, 2]] : List (List ℚ)) →
      Median.compute doubleLimits 3 self [[3], [1, 2]] d true = some v :=
  ⟨⟨by simp, by simp, by decide⟩,
    (median_distributed_same_on_all_ranks doubleLimits 3 [[3], [1, 2]]).1 _ _ [3] [1, 2]
      (by simp) (by simp),
    (median_distributed_same_on_all_ranks doubleLimits 3 [[3], [1, 2]]).2.1 (by decide)⟩

section
variable {γ α : Type} [LinearOrderedField α]

/-- C26: for an output type other than `Real`, with levels that pass the assertions of the
constructor (or assertions compiled out), `makeBootstrapCalculator` with the token "bca"
does not fail: it returns an object of class `BiasCorrectedAccelerated`. Every virtual call
of `compute` on that object, for any wrapped calculator, any data and either value of
`is_distributed`, ends in `mooseError` with a message that carries the name of the output
type, and leaves the wrapped calculator as it was. With the output type `Real` the same
call on the same object is the call of the specialisation, which has no such error. -/
theorem bca_placeholder_error_at_first_use (L : Library γ α) (item : MooseEnum)
    (levels : List α) (replicates seed : Nat)
    (h : L.assertsActive = false ∨ (levels ≠ [] ∧ ∀ l ∈ levels, 0 < l ∧ l < 1))
    (hb : item.current.eq "bca" = true) :
    ∃ p : BootstrapCalculator α,
      makeBootstrapCalculator L item levels replicates seed = .value p ∧
      p.method = .bca ∧
      (∀ (β σ δ : Type) (fuel : Nat) (group : List (List α)) (rank : Nat)
        (percentile : BootstrapCalculator α → σ → δ → Bool → Result (List β) × σ)
        (pretty : String) (c : σ) (data : δ) (is_distributed : Bool),
        BootstrapCalculator.computeFor L fuel group rank percentile (.other pretty) p c data
            is_distributed
          = ((.mooseError ("Cannot compute bias corrected accelerated statistics with "
              ++ "calculator output value type " ++ pretty ++ ".") : Result (List β)), c)) ∧
      (∀ (β σ δ : Type) (fuel : Nat) (group : List (List α)) (rank : Nat)
        (percentile : BootstrapCalculator α → σ → δ → Bool → Result (List β) × σ)
        (c : Calculator α) (data : List α) (is_distributed : Bool),
        BootstrapCalculator.computeFor L fuel group rank percentile .real p c data
            is_distributed
          = BiasCorrectedAccelerated.compute L fuel p c group rank data is_distributed) := by
  have hp := item_eq_exclusive item.current "bca" "percentile" hb (by decide)
  refine ⟨⟨.bca, levels, replicates, seed, item.current.name⟩, ?_, rfl, ?_, ?_⟩
  · simp [makeBootstrapCalculator, hp, hb, bootstrap_construct_value L _ _ _ _ _ h]
  · intro β σ δ fuel group rank percentile pretty c data is_distributed
    simp [BootstrapCalculator.computeFor, BiasCorrectedAccelerated.computePlaceholder,
      String.append_assoc]
  · intro β σ δ fuel group rank percentile c data is_distributed
    simp [BootstrapCalculator.computeFor, BootstrapCalculator.compute]

end

theorem bca_placeholder_error_at_first_use_witness :
    (((true = false) ∨ (([1 / 2] : List ℚ) ≠ [] ∧ ∀ l ∈ ([1 / 2] : List ℚ), 0 < l ∧ l < 1)) ∧
      MooseEnumItem.eq ⟨"BCA"⟩ "bca" = true) ∧
    ∃ p : BootstrapCalculator ℚ,
      makeBootstrapCalculator
          (⟨doubleLimits, fun x => x, fun x _ => x, fun _ => 0, fun x => x, fun x => x,
            fun s => s, fun g d => (d, g + 1), fun g ds => (ds, g + 1), true⟩ :
            Library Nat ℚ)
          ⟨⟨"BCA"⟩⟩ [1 / 2] 1000 7 = .value p ∧
      BootstrapCalculator.computeFor
          (⟨doubleLimits, fun x => x, fun x _ => x, fun _ => 0, fun x => x, fun x => x,
            fun s => s, fun g d => (d, g + 1), fun g ds => (ds, g + 1), true⟩ :
            Library Nat ℚ)
          0 [] 0
          (fun _ (c : Calculator ℚ) (_ : List (List ℚ)) _ =>
            ((.value [] : Result (List (List ℚ))), c))
          (.other "std::vector<double>") p (Calculator.construct .mean ⟨"mean"⟩)
          [[(1 : ℚ), 2], [3]] false
        = ((.mooseError ("Cannot compute bias corrected accelerated statistics with "
            ++ "calculator output value type " ++ "std::vector<double>" ++ ".") :
            Result (List (List ℚ))), (Calculator.construct .mean ⟨"mean"⟩ : Calculator ℚ)) := by
  have h : (true = false) ∨ (([1 / 2] : List ℚ) ≠ [] ∧
      ∀ l ∈ ([1 / 2] : List ℚ), 0 < l ∧ l < 1) := by
    right
    refine ⟨by decide, ?_⟩
    intro l hl
    rw [List.mem_singleton] at hl
    subst hl
    norm_num
  obtain ⟨p, hp, -, hother, -⟩ := bca_placeholder_error_at_first_use
    (⟨doubleLimits, fun x => x, fun x _ => x, fun _ => 0, fun x => x, fun x => x,
      fun s => s, fun g d => (d, g + 1), fun g ds => (ds, g + 1), true⟩ : Library Nat ℚ)
    ⟨⟨"BCA"⟩⟩ [1 / 2] 1000 7 h (by decide)
  exact ⟨⟨h, by decide⟩, p, hp, hother _ _ _ _ _ _ _ _ _ _ _⟩

section
variable {α : Type} [LinearOrderedField α]

/-- The loop goes through the states of `Median.passes`: when pass `k` is reached, the loop
with `k` more units of fuel is the loop started from the variables at the head of pass
`k`. -/
theorem median_loop_passes (lim : NumericLimits α) (count : Nat) :
    ∀ (k fuel : Nat) (L L1 : List (List (CalculatorValue α)))
      (mine mine1 : List (CalculatorValue α)) (m m1 : CalculatorValue α)
      (kgt klt kgt1 klt1 : Nat),
      Median.passes lim count k L mine m kgt klt = some (L1, mine1, m1, kgt1, klt1) →
      Median.loop lim count (fuel + k) L mine m kgt klt
        = Median.loop lim count fuel L1 mine1 m1 kgt1 klt1 := by
  intro k
  induction k with
  | zero =>
    intro fuel L L1 mine mine1 m m1 kgt klt kgt1 klt1 h
    simp only [Median.passes, Option.some.injEq, Prod.mk.injEq] at h
    obtain ⟨e1, e2, e3, e4, e5⟩ := h
    subst e1 e2 e3 e4 e5
    rfl
  | succ k ih =>
    intro fuel L L1 mine mine1 m m1 kgt klt kgt1 klt1 h
    have e : fuel + (k + 1) = (fuel + k) + 1 := by omega
    rw [e, median_loop_iteration]
    simp only [Median.passes] at h
    cases hi : Median.iteration lim count L mine m kgt klt with
    | next L2 mine2 m2 kgt2 klt2 =>
      rw [hi] at h
      exact ih fuel L2 L1 mine2 mine1 m2 m1 kgt2 klt2 kgt1 klt1 h
    | done mine2 m2 =>
      rw [hi] at h
      exact absurd h (by simp)

/-- The invariant holds at the head of every pass of a loop entered with it. -/
theorem median_passes_invariant (lim : NumericLimits α) (count : Nat) :
    ∀ (k : Nat) (L L1 : List (List (CalculatorValue α)))
      (mine mine1 : List (CalculatorValue α)) (m m1 : CalculatorValue α)
      (kgt klt kgt1 klt1 : Nat),
      L.flatten.length = kgt + klt + (if count % 2 ≠ 0 then 1 else 2) →
      Median.passes lim count k L mine m kgt klt = some (L1, mine1, m1, kgt1, klt1) →
      L1.flatten.length = kgt1 + klt1 + (if count % 2 ≠ 0 then 1 else 2) := by
  intro k
  induction k with
  | zero =>
    intro L L1 mine mine1 m m1 kgt klt kgt1 klt1 hinv h
    simp only [Median.passes, Option.some.injEq, Prod.mk.injEq] at h
    obtain ⟨e1, e2, e3, e4, e5⟩ := h
    subst e1 e2 e3 e4 e5
    exact hinv
  | succ k ih =>
    intro L L1 mine mine1 m m1 kgt klt kgt1 klt1 hinv h
    simp only [Median.passes] at h
    cases hi : Median.iteration lim count L mine m kgt klt with
    | next L2 mine2 m2 kgt2 klt2 =>
      rw [hi] at h
      have hstep := ((median_invariant_step lim count L mine m kgt klt hinv).2.2.2.2
        L2 mine2 m2 kgt2 klt2 hi).1
      exact ih L2 L1 mine2 mine1 m2 m1 kgt2 klt2 kgt1 klt1 hstep h
    | done mine2 m2 =>
      rw [hi] at h
      exact absurd h (by simp)

/-- The loop `Median::finalize` enters in distributed mode on two or more ranks holding at
least one value: its arguments are the storages of all ranks, the storage of the calling
rank, the zeroed `_median`, and `kgt = klt = count / 2` or `count / 2 - 1`. -/
theorem median_finalize_enters_loop (lim : NumericLimits α) (fuel : Nat)
    (group : List (Median α)) (self : Median α) (count : Nat)
    (hcount : count = commSumNat (group.map (fun p => p._storage.length)))
    (h0 : count ≠ 0) (hw : group.length ≠ 1) :
    Median.finalize lim fuel group true self
      = (Median.loop lim count fuel (group.map (fun p => p._storage)) self._storage
          self._median.zero (if count % 2 ≠ 0 then count / 2 else count / 2 - 1)
          (if count % 2 ≠ 0 then count / 2 else count / 2 - 1)).map
        (fun r => { _storage := r.1, _median := r.2 }) := by
  subst hcount
  simp only [Median.finalize, if_true, h0, if_false, Bool.not_true, Bool.false_or,
    decide_eq_true_eq, hw]

omit [LinearOrderedField α] in
/-- The storages of all ranks hold `count` values. -/
theorem median_group_flatten_length (group : List (Median α)) :
    (group.map (fun p => p._storage)).flatten.length
      = commSumNat (group.map (fun p => p._storage.length)) := by
  rw [List.length_flatten, commSumNat, List.map_map]
  rfl

/-- C33: the loop invariant of the distributed median, for `Median::finalize` called in
distributed mode on a group of two or more ranks that hold `count > 0` values in all. The
loop is entered with the storages of all ranks and `kgt = klt = count / 2` for an odd
`count`, `count / 2 - 1` (no underflow) for an even one. At the head of every pass the
loop reaches, the values held by all ranks number `kgt + klt + 1` (odd `count`) or
`kgt + klt + 2` (even `count`); consequently some value remains and the pivot is one of
them, `m[0] + m[1]` does not exceed `n`, the two pruning tests do not both hold, and a pass
that goes on subtracts from `kgt` or from `klt` a number that is not above it. -/
theorem median_loop_invariant (lim : NumericLimits α) (fuel : Nat)
    (group : List (Median α)) (self : Median α) (count : Nat)
    (hcount : count = commSumNat (group.map (fun p => p._storage.length)))
    (h0 : count ≠ 0) (hw : group.length ≠ 1) :
    Median.finalize lim fuel group true self
      = (Median.loop lim count fuel (group.map (fun p => p._storage)) self._storage
          self._median.zero (if count % 2 ≠ 0 then count / 2 else count / 2 - 1)
          (if count % 2 ≠ 0 then count / 2 else count / 2 - 1)).map
        (fun r => { _storage := r.1, _median := r.2 }) ∧
    (count % 2 = 0 → 1 ≤ count / 2) ∧
    ∀ (k : Nat) (L : List (List (CalculatorValue α))) (mine : List (CalculatorValue α))
      (m : CalculatorValue α) (kgt klt : Nat),
      Median.passes lim count k (group.map (fun p => p._storage)) self._storage
          self._median.zero (if count % 2 ≠ 0 then count / 2 else count / 2 - 1)
          (if count % 2 ≠ 0 then count / 2 else count / 2 - 1)
        = some (L, mine, m, kgt, klt) →
      (∀ rest : Nat,
        Median.loop lim count (rest + k) (group.map (fun p => p._storage)) self._storage
            self._median.zero (if count % 2 ≠ 0 then count / 2 else count / 2 - 1)
            (if count % 2 ≠ 0 then count / 2 else count / 2 - 1)
          = Median.loop lim count rest L mine m kgt klt) ∧
      L.flatten.length = kgt + klt + (if count % 2 ≠ 0 then 1 else 2) ∧
      L.flatten ≠ [] ∧
      Median.pivot m L ∈ L.flatten ∧
      commSumNat (L.map (fun s => (Median.tally (Median.pivot m L) s).1))
          + commSumNat (L.map (fun s => (Median.tally (Median.pivot m L) s).2))
        ≤ commSumNat (L.map List.length) ∧
      ¬ (L.flatten.countP (fun v => decide ((Median.pivot m L)._value < v._value))
            + L.flatten.countP (fun v => decide (v._value = (Median.pivot m L)._value))
            ≤ kgt ∧
          L.flatten.countP (fun v => decide (v._value < (Median.pivot m L)._value))
            + L.flatten.countP (fun v => decide (v._value = (Median.pivot m L)._value))
            ≤ klt) ∧
      ∀ (L1 : List (List (CalculatorValue α))) (mine1 : List (CalculatorValue α))
        (m1 : CalculatorValue α) (kgt1 klt1 : Nat),
        Median.iteration lim count L mine m kgt klt = .next L1 mine1 m1 kgt1 klt1 →
        ((kgt1 + (L.flatten.countP (fun v => decide ((Median.pivot m L)._value < v._value))
              + L.flatten.countP (fun v => decide (v._value = (Median.pivot m L)._value)))
            = kgt ∧ klt1 = klt) ∨
          (kgt1 = kgt ∧
            klt1 + (L.flatten.countP (fun v => decide (v._value < (Median.pivot m L)._value))
              + L.flatten.countP (fun v => decide (v._value = (Median.pivot m L)._value)))
            = klt)) := by
  have hlen := median_group_flatten_length group
  rw [← hcount] at hlen
  have hinit : (group.map (fun p => p._storage)).flatten.length
      = (if count % 2 ≠ 0 then count / 2 else count / 2 - 1)
        + (if count % 2 ≠ 0 then count / 2 else count / 2 - 1)
        + (if count % 2 ≠ 0 then 1 else 2) := by
    rw [hlen]
    split <;> omega
  refine ⟨median_finalize_enters_loop lim fuel group self count hcount h0 hw,
    fun h => by omega, ?_⟩
  intro k L mine m kgt klt hk
  have hinv := median_passes_invariant lim count k _ L _ mine _ m _ _ kgt klt hinit hk
  have hstep := median_invariant_step lim count L mine m kgt klt hinv
  refine ⟨fun rest => median_loop_passes lim count k rest _ L _ mine _ m _ _ kgt klt hk,
    hinv, hstep.1, hstep.2.1, hstep.2.2.1, hstep.2.2.2.1, ?_⟩
  intro L1 mine1 m1 kgt1 klt1 hi
  exact (hstep.2.2.2.2 L1 mine1 m1 kgt1 klt1 hi).2

end

theorem median_loop_invariant_witness :
    (3 = commSumNat (([⟨[⟨3⟩], ⟨0⟩⟩, ⟨[⟨1⟩, ⟨2⟩], ⟨0⟩⟩] : List (Median ℚ)).map
        (fun p => p._storage.length)) ∧
      (3 : Nat) ≠ 0 ∧
      ([⟨[⟨3⟩], ⟨0⟩⟩, ⟨[⟨1⟩, ⟨2⟩], ⟨0⟩⟩] : List (Median ℚ)).length ≠ 1 ∧
      Median.passes doubleLimits 3 1 [[⟨3⟩], [⟨1⟩, ⟨2⟩]] [⟨3⟩] ⟨0⟩ 1 1
        = some ([[], [⟨1⟩, ⟨2⟩]], [], ⟨3⟩, 0, 1)) ∧
    ([[], [⟨1⟩, ⟨2⟩]] : List (List (CalculatorValue ℚ))).flatten.length
      = 0 + 1 + (if 3 % 2 ≠ 0 then 1 else 2) ∧
    ([[], [⟨1⟩, ⟨2⟩]] : List (List (CalculatorValue ℚ))).flatten ≠ [] := by
  have hstep : Median.iteration doubleLimits 3 [[⟨3⟩], [⟨1⟩, ⟨2⟩]] [⟨3⟩] ⟨0⟩ 1 1
      = .next [[], [⟨1⟩, ⟨2⟩]] [] ⟨3⟩ 0 1 := by
    rw [median_iteration_eq, median_pivot_example_a]
    simp [List.countP_cons, List.filter_cons]
    norm_num
  have hpass : Median.passes doubleLimits 3 1 [[⟨3⟩], [⟨1⟩, ⟨2⟩]] [⟨3⟩] ⟨0⟩ 1 1
      = some ([[], [⟨1⟩, ⟨2⟩]], [], ⟨3⟩, 0, 1) := by
    simp only [Median.passes, hstep]
  have hc : 3 = commSumNat (([⟨[⟨3⟩], ⟨0⟩⟩, ⟨[⟨1⟩, ⟨2⟩], ⟨0⟩⟩] : List (Median ℚ)).map
      (fun p => p._storage.length)) := by decide
  have hw : ([⟨[⟨3⟩], ⟨0⟩⟩, ⟨[⟨1⟩, ⟨2⟩], ⟨0⟩⟩] : List (Median ℚ)).length ≠ 1 := by decide
  have h := (median_loop_invariant doubleLimits 3
    [⟨[⟨3⟩], ⟨0⟩⟩, ⟨[⟨1⟩, ⟨2⟩], ⟨0⟩⟩] ⟨[⟨3⟩], ⟨0⟩⟩ 3 hc (by decide) hw).2.2 1
    [[], [⟨1⟩, ⟨2⟩]] [] ⟨3⟩ 0 1 hpass
  exact ⟨⟨hc, by decide, hw, hpass⟩, h.2.1, h.2.2.1⟩

/-- A second example of a bootstrap of the mean: the data 24, 0, 6, 6 with four
replicates, resample number `g` being four copies of element `g` of the data: the sorted
estimates are 0, 6, 6, 24.  The library of the example has `pow(36, 3/2) = 216`. -/
theorem bca_skewed_estimates (method : BootstrapMethod) (levels : List ℚ) (name : String)
    (rank : Nat) :
    BootstrapCalculator.computeBootstrapEstimates
      (⟨doubleLimits, fun x => x,
        fun b e => if e = 3 then b ^ 3 else if e = 2 then b ^ 2 else if b = 36 then 216 else b,
        fun x => ⌈x - 1 / 2⌉, fun p => p - 1 / 2, fun x => max 0 (min 1 (x + 1 / 2)),
        fun s => s, fun g d => (d.map (fun _ => d.getD g 0), g + 1),
        fun g ds => (ds, g + 1), true⟩ : Library Nat ℚ)
      0 ⟨method, levels, 4, 0, name⟩ (Calculator.construct .mean ⟨"mean"⟩) [] rank
      [24, 0, 6, 6] false
      = some ([0, 6, 6, 24], ⟨"mean", .mean ⟨4, ⟨6⟩⟩⟩) := by
  simp [BootstrapCalculator.computeBootstrapEstimates, BootstrapCalculator.replicateLoop,
    BootstrapCalculator.resampleAct, Calculator.init, Calculator.update,
    Calculator.finalize, Calculator.get, Calculator.construct, Mean.init, Mean.update,
    Mean.finalize, Mean.get, CalculatorValue.zero, CalculatorValue.plusEq,
    CalculatorValue.divEq, CalculatorValue.get, CalculatorValue.divide, inplaceSort,
    CalculatorValue.add]
  norm_num

/-- In the second example the mean of the data is 9. -/
theorem bca_skewed_value :
    Calculator.compute doubleLimits (fun x => x) 0 (⟨"mean", .mean ⟨4, ⟨6⟩⟩⟩ : Calculator ℚ)
      [] [24, 0, 6, 6] false = some (9, ⟨"mean", .mean ⟨4, ⟨9⟩⟩⟩) := by
  simp [Calculator.compute, Calculator.init, Calculator.update,
    Calculator.finalize, Calculator.get, Mean.init, Mean.update,
    Mean.finalize, Mean.get, CalculatorValue.zero, CalculatorValue.plusEq,
    CalculatorValue.divEq, CalculatorValue.get, CalculatorValue.divide,
    CalculatorValue.add]
  norm_num

/-- In the second example the jackknife means are 4, 12, 10, 10, their average is 9, the
sum of the cubes of the differences is 96, that of their squares is 36, and the
acceleration is 96 / (6 * 216) = 2/27. -/
theorem bca_skewed_acceleration :
    BiasCorrectedAccelerated.acceleration
      (⟨doubleLimits, fun x => x,
        fun b e => if e = 3 then b ^ 3 else if e = 2 then b ^ 2 else if b = 36 then 216 else b,
        fun x => ⌈x - 1 / 2⌉, fun p => p - 1 / 2, fun x => max 0 (min 1 (x + 1 / 2)),
        fun s => s, fun g d => (d.map (fun _ => d.getD g 0), g + 1),
        fun g ds => (ds, g + 1), true⟩ : Library Nat ℚ)
      0 ⟨"mean", .mean ⟨4, ⟨9⟩⟩⟩ [] [24, 0, 6, 6] false
      = (.value (2 / 27), ⟨"mean", .mean ⟨3, ⟨10⟩⟩⟩) := by
  simp [BiasCorrectedAccelerated.acceleration, BiasCorrectedAccelerated.jackknife,
    List.range, List.range.loop,
    Calculator.compute, Calculator.init, Calculator.update,
    Calculator.finalize, Calculator.get, Mean.init, Mean.update,
    Mean.finalize, Mean.get, CalculatorValue.zero, CalculatorValue.plusEq,
    CalculatorValue.divEq, CalculatorValue.get, CalculatorValue.divide,
    CalculatorValue.add]
  norm_num

section
variable {γ α : Type} [LinearOrderedField α]

/-- Serial `BiasCorrectedAccelerated.compute` on data of one element, whatever the
calculator: the call ends in the assertion of `acceleration`, or in 0/0 when assertions are
compiled out, and returns no output. -/
theorem bca_compute_single (L : Library γ α) (fuel : Nat)
    (self : BootstrapCalculator α) (c0 : Calculator α) (group : List (List α)) (rank : Nat)
    (x : α) (hR : self._replicates ≠ 0)
    (hz2 : L.pow 0 2 = 0) (hz3 : L.pow 0 3 = 0) (hz : L.pow 0 (3 / 2) = 0) :
    (BiasCorrectedAccelerated.compute L fuel self c0 group rank [x] false).1
      = if L.assertsActive then .mooseError "The acceleration denomenator must not be zero."
        else .undefined := by
  obtain ⟨values, c1, value, c2, -, -, -, -, hbias, -, hfact⟩ :=
    bca_compute_bias L fuel self c0 group rank [x] hR
  rw [hfact _ hbias]
  have hA := acceleration_single L fuel c2 group x hz2 hz3 hz
  cases hacc : BiasCorrectedAccelerated.acceleration L fuel c2 group [x] false with
  | mk r c3 =>
    rw [hacc] at hA
    simp only at hA
    subst hA
    simp only [List.isEmpty_cons, Bool.false_eq_true, if_false]
    cases L.assertsActive <;> rfl

end

/-- C30, counterexample: the mean of the one-element data 5, two replicates, level 1/2,
serial mode. The only jackknife estimate is the mean of no value, so the sum of squares in
`acceleration` is 0: with assertions `compute` ends in "The acceleration denomenator must
not be zero.", without them in the quotient 0/0, and in neither case does it return the
sorted replicate of any index. -/
theorem bca_compute_single_element_fails :
    (BiasCorrectedAccelerated.compute
      (⟨doubleLimits, fun x => x,
        fun b e => if e = 3 then b ^ 3 else if e = 2 then b ^ 2 else b,
        fun x => ⌈x - 1 / 2⌉, fun p => p - 1 / 2, fun x => max 0 (min 1 (x + 1 / 2)),
        fun s => s, fun g d => (d.map (fun _ => d.getD g 0), g + 1),
        fun g ds => (ds, g + 1), true⟩ : Library Nat ℚ)
      0 (⟨.bca, [1 / 2], 2, 0, "bca"⟩ : BootstrapCalculator ℚ) (Calculator.construct .mean ⟨"mean"⟩) [] 0 [5] false).1
      = .mooseError "The acceleration denomenator must not be zero." ∧
    (BiasCorrectedAccelerated.compute
      (⟨doubleLimits, fun x => x,
        fun b e => if e = 3 then b ^ 3 else if e = 2 then b ^ 2 else b,
        fun x => ⌈x - 1 / 2⌉, fun p => p - 1 / 2, fun x => max 0 (min 1 (x + 1 / 2)),
        fun s => s, fun g d => (d.map (fun _ => d.getD g 0), g + 1),
        fun g ds => (ds, g + 1), false⟩ : Library Nat ℚ)
      0 (⟨.bca, [1 / 2], 2, 0, "bca"⟩ : BootstrapCalculator ℚ) (Calculator.construct .mean ⟨"mean"⟩) [] 0 [5] false).1
      = .undefined ∧
    ∀ output : List ℚ,
      (BiasCorrectedAccelerated.compute
        (⟨doubleLimits, fun x => x,
        fun b e => if e = 3 then b ^ 3 else if e = 2 then b ^ 2 else b,
        fun x => ⌈x - 1 / 2⌉, fun p => p - 1 / 2, fun x => max 0 (min 1 (x + 1 / 2)),
        fun s => s, fun g d => (d.map (fun _ => d.getD g 0), g + 1),
        fun g ds => (ds, g + 1), true⟩ : Library Nat ℚ)
        0 (⟨.bca, [1 / 2], 2, 0, "bca"⟩ : BootstrapCalculator ℚ) (Calculator.construct .mean ⟨"mean"⟩) [] 0 [5] false).1
        ≠ .value output ∧
      (BiasCorrectedAccelerated.compute
        (⟨doubleLimits, fun x => x,
        fun b e => if e = 3 then b ^ 3 else if e = 2 then b ^ 2 else b,
        fun x => ⌈x - 1 / 2⌉, fun p => p - 1 / 2, fun x => max 0 (min 1 (x + 1 / 2)),
        fun s => s, fun g d => (d.map (fun _ => d.getD g 0), g + 1),
        fun g ds => (ds, g + 1), false⟩ : Library Nat ℚ)
        0 (⟨.bca, [1 / 2], 2, 0, "bca"⟩ : BootstrapCalculator ℚ) (Calculator.construct .mean ⟨"mean"⟩) [] 0 [5] false).1
        ≠ .value output := by
  have h1 := bca_compute_single
    (⟨doubleLimits, fun x => x,
        fun b e => if e = 3 then b ^ 3 else if e = 2 then b ^ 2 else b,
        fun x => ⌈x - 1 / 2⌉, fun p => p - 1 / 2, fun x => max 0 (min 1 (x + 1 / 2)),
        fun s => s, fun g d => (d.map (fun _ => d.getD g 0), g + 1),
        fun g ds => (ds, g + 1), true⟩ : Library Nat ℚ)
    0 (⟨.bca, [1 / 2], 2, 0, "bca"⟩ : BootstrapCalculator ℚ) (Calculator.construct .mean ⟨"mean"⟩) [] 0 5 (by decide)
    (by norm_num) (by norm_num) (by norm_num)
  have h2 := bca_compute_single
    (⟨doubleLimits, fun x => x,
        fun b e => if e = 3 then b ^ 3 else if e = 2 then b ^ 2 else b,
        fun x => ⌈x - 1 / 2⌉, fun p => p - 1 / 2, fun x => max 0 (min 1 (x + 1 / 2)),
        fun s => s, fun g d => (d.map (fun _ => d.getD g 0), g + 1),
        fun g ds => (ds, g + 1), false⟩ : Library Nat ℚ)
    0 (⟨.bca, [1 / 2], 2, 0, "bca"⟩ : BootstrapCalculator ℚ) (Calculator.construct .mean ⟨"mean"⟩) [] 0 5 (by decide)
    (by norm_num) (by norm_num) (by norm_num)
  refine ⟨h1, h2, fun output => ⟨?_, ?_⟩⟩
  · rw [h1]; intro e; exact absurd e (by simp)
  · rw [h2]; intro e; exact absurd e (by simp)

/-- C32, counterexample: `acceleration` with `Mean` wrapped on the one-element data 5. The
only jackknife estimate is the mean of no value, the sum of the squares `(m - t_i)^2` is 0,
and the call does not return the quotient of the formula: with assertions it ends in "The
acceleration denomenator must not be zero.", without them the quotient is 0/0. -/
theorem bca_acceleration_single_element_fails :
    (BiasCorrectedAccelerated.acceleration
      (⟨doubleLimits, fun x => x,
        fun b e => if e = 3 then b ^ 3 else if e = 2 then b ^ 2 else b,
        fun x => ⌈x - 1 / 2⌉, fun p => p - 1 / 2, fun x => max 0 (min 1 (x + 1 / 2)),
        fun s => s, fun g d => (d.map (fun _ => d.getD g 0), g + 1),
        fun g ds => (ds, g + 1), true⟩ : Library Nat ℚ)
      0 (Calculator.construct .mean ⟨"mean"⟩) [] [5] false).1
      = .mooseError "The acceleration denomenator must not be zero." ∧
    (BiasCorrectedAccelerated.acceleration
      (⟨doubleLimits, fun x => x,
        fun b e => if e = 3 then b ^ 3 else if e = 2 then b ^ 2 else b,
        fun x => ⌈x - 1 / 2⌉, fun p => p - 1 / 2, fun x => max 0 (min 1 (x + 1 / 2)),
        fun s => s, fun g d => (d.map (fun _ => d.getD g 0), g + 1),
        fun g ds => (ds, g + 1), false⟩ : Library Nat ℚ)
      0 (Calculator.construct .mean ⟨"mean"⟩) [] [5] false).1
      = .undefined ∧
    ∀ a : ℚ,
      (BiasCorrectedAccelerated.acceleration
        (⟨doubleLimits, fun x => x,
        fun b e => if e = 3 then b ^ 3 else if e = 2 then b ^ 2 else b,
        fun x => ⌈x - 1 / 2⌉, fun p => p - 1 / 2, fun x => max 0 (min 1 (x + 1 / 2)),
        fun s => s, fun g d => (d.map (fun _ => d.getD g 0), g + 1),
        fun g ds => (ds, g + 1), true⟩ : Library Nat ℚ)
        0 (Calculator.construct .mean ⟨"mean"⟩) [] [5] false).1 ≠ .value a ∧
      (BiasCorrectedAccelerated.acceleration
        (⟨doubleLimits, fun x => x,
        fun b e => if e = 3 then b ^ 3 else if e = 2 then b ^ 2 else b,
        fun x => ⌈x - 1 / 2⌉, fun p => p - 1 / 2, fun x => max 0 (min 1 (x + 1 / 2)),
        fun s => s, fun g d => (d.map (fun _ => d.getD g 0), g + 1),
        fun g ds => (ds, g + 1), false⟩ : Library Nat ℚ)
        0 (Calculator.construct .mean ⟨"mean"⟩) [] [5] false).1 ≠ .value a := by
  have h1 := acceleration_single
    (⟨doubleLimits, fun x => x,
        fun b e => if e = 3 then b ^ 3 else if e = 2 then b ^ 2 else b,
        fun x => ⌈x - 1 / 2⌉, fun p => p - 1 / 2, fun x => max 0 (min 1 (x + 1 / 2)),
        fun s => s, fun g d => (d.map (fun _ => d.getD g 0), g + 1),
        fun g ds => (ds, g + 1), true⟩ : Library Nat ℚ)
    0 (Calculator.construct .mean ⟨"mean"⟩) [] 5 (by norm_num) (by norm_num) (by norm_num)
  have h2 := acceleration_single
    (⟨doubleLimits, fun x => x,
        fun b e => if e = 3 then b ^ 3 else if e = 2 then b ^ 2 else b,
        fun x => ⌈x - 1 / 2⌉, fun p => p - 1 / 2, fun x => max 0 (min 1 (x + 1 / 2)),
        fun s => s, fun g d => (d.map (fun _ => d.getD g 0), g + 1),
        fun g ds => (ds, g + 1), false⟩ : Library Nat ℚ)
    0 (Calculator.construct .mean ⟨"mean"⟩) [] 5 (by norm_num) (by norm_num) (by norm_num)
  refine ⟨h1, h2, fun a => ⟨?_, ?_⟩⟩
  · rw [h1]; intro e; exact absurd e (by simp)
  · rw [h2]; intro e; exact absurd e (by simp)

theorem bca_compute_adjusted_index_witness :
    ((1 ≤ (⟨.bca, [1 / 8], 4, 0, "bca"⟩ : BootstrapCalculator ℚ)._replicates) ∧
      (⟨.bca, [1 / 8], 4, 0, "bca"⟩ : BootstrapCalculator ℚ)._replicates < 4294967296 ∧
      (∀ y : ℚ, |((⌈y - 1 / 2⌉ : Int) : ℚ) - y| ≤ 1 / 2) ∧
      (∀ x : ℚ, 0 ≤ max 0 (min 1 (x + 1 / 2)) ∧ max 0 (min 1 (x + 1 / 2)) ≤ 1) ∧
      (BiasCorrectedAccelerated.acceleration
        (⟨doubleLimits, fun x => x,
        fun b e => if e = 3 then b ^ 3 else if e = 2 then b ^ 2 else if b = 36 then 216 else b,
        fun x => ⌈x - 1 / 2⌉, fun p => p - 1 / 2, fun x => max 0 (min 1 (x + 1 / 2)),
        fun s => s, fun g d => (d.map (fun _ => d.getD g 0), g + 1),
        fun g ds => (ds, g + 1), true⟩ : Library Nat ℚ)
        0 ⟨"mean", .mean ⟨4, ⟨9⟩⟩⟩ [] [24, 0, 6, 6] false).1 = .value (2 / 27) ∧
      (1 : ℚ) - 2 / 27 * ((3 / 4 - 1 / 2) + (1 / 8 - 1 / 2)) ≠ 0) ∧
    (BiasCorrectedAccelerated.compute
      (⟨doubleLimits, fun x => x,
        fun b e => if e = 3 then b ^ 3 else if e = 2 then b ^ 2 else if b = 36 then 216 else b,
        fun x => ⌈x - 1 / 2⌉, fun p => p - 1 / 2, fun x => max 0 (min 1 (x + 1 / 2)),
        fun s => s, fun g d => (d.map (fun _ => d.getD g 0), g + 1),
        fun g ds => (ds, g + 1), true⟩ : Library Nat ℚ)
      0 (⟨.bca, [1 / 8], 4, 0, "bca"⟩ : BootstrapCalculator ℚ) (Calculator.construct .mean ⟨"mean"⟩) [] 0 [24, 0, 6, 6]
      false).1 = .value [24] := by
  have h1 : ∀ y : ℚ, |((⌈y - 1 / 2⌉ : Int) : ℚ) - y| ≤ 1 / 2 := fun y => by
    have a := Int.le_ceil (y - 1 / 2)
    have b := Int.ceil_lt_add_one (y - 1 / 2)
    rw [abs_le]
    constructor <;> linarith
  have h2 : ∀ x : ℚ, 0 ≤ max 0 (min 1 (x + 1 / 2)) ∧ max 0 (min 1 (x + 1 / 2)) ≤ 1 :=
    fun x => ⟨le_max_left _ _, max_le (by norm_num) (min_le_left _ _)⟩
  obtain ⟨values, c1, value, c2, hc, -, -, hv, H⟩ := bca_compute_adjusted_index
    (⟨doubleLimits, fun x => x,
        fun b e => if e = 3 then b ^ 3 else if e = 2 then b ^ 2 else if b = 36 then 216 else b,
        fun x => ⌈x - 1 / 2⌉, fun p => p - 1 / 2, fun x => max 0 (min 1 (x + 1 / 2)),
        fun s => s, fun g d => (d.map (fun _ => d.getD g 0), g + 1),
        fun g ds => (ds, g + 1), true⟩ : Library Nat ℚ)
    0 (⟨.bca, [1 / 8], 4, 0, "bca"⟩ : BootstrapCalculator ℚ) (Calculator.construct .mean ⟨"mean"⟩) [] 0 [24, 0, 6, 6]
    (by decide) (by decide) h1 h2
  rw [bca_skewed_estimates] at hc
  injection hc with hc
  injection hc with e1 e2
  subst e1 e2
  have hv2 := hv.symm.trans bca_skewed_value
  injection hv2 with hv2
  injection hv2 with e1 e2
  subst e1 e2
  have hcount : ([0, 6, 6, 24] : List ℚ).countP (fun v => decide (v < 9)) = 3 := by
    simp [List.countP_cons]
    norm_num
  have hacc : (BiasCorrectedAccelerated.acceleration
      (⟨doubleLimits, fun x => x,
        fun b e => if e = 3 then b ^ 3 else if e = 2 then b ^ 2 else if b = 36 then 216 else b,
        fun x => ⌈x - 1 / 2⌉, fun p => p - 1 / 2, fun x => max 0 (min 1 (x + 1 / 2)),
        fun s => s, fun g d => (d.map (fun _ => d.getD g 0), g + 1),
        fun g ds => (ds, g + 1), true⟩ : Library Nat ℚ)
      0 ⟨"mean", .mean ⟨4, ⟨9⟩⟩⟩ [] [24, 0, 6, 6] false).1 = .value (2 / 27) := by
    rw [bca_skewed_acceleration]
  have hden : (1 : ℚ) - 2 / 27 * ((3 / 4 - 1 / 2) + (1 / 8 - 1 / 2)) ≠ 0 := by norm_num
  have h3 := (H (2 / 27) (by rw [bca_skewed_acceleration]; rfl) (by
    intro l hl
    rw [List.mem_singleton] at hl
    subst hl
    rw [hcount]
    norm_num)).1
  refine ⟨⟨by decide, by decide, h1, h2, hacc, hden⟩, ?_⟩
  rw [h3, hcount]
  have hidx : ⌈max (0 : ℚ) (min 1 (((3 : Nat) : ℚ) / ((4 : Nat) : ℚ) - 1 / 2
      + (((3 : Nat) : ℚ) / ((4 : Nat) : ℚ) - 1 / 2
        + (((3 : Nat) : ℚ) / ((4 : Nat) : ℚ) - 1 / 2 + (1 / 8 - 1 / 2))
          / (1 - 2 / 27 * (((3 : Nat) : ℚ) / ((4 : Nat) : ℚ) - 1 / 2 + (1 / 8 - 1 / 2))))
      + 1 / 2)) * (((4 : Nat) : ℚ) - 1) - 1 / 2⌉ = 3 := by
    rw [Int.ceil_eq_iff]
    norm_num
  simp only [List.map_cons, List.map_nil, hidx]
  rfl

theorem bca_acceleration_jackknife_formula_witness :
    ((∀ x : ℚ, (if (3 : ℚ) = 3 then x ^ 3 else if (3 : ℚ) = 2 then x ^ 2
        else if x = 36 then 216 else x) = x ^ 3) ∧
      (∀ x : ℚ, (if (2 : ℚ) = 3 then x ^ 3 else if (2 : ℚ) = 2 then x ^ 2
        else if x = 36 then 216 else x) = x ^ 2) ∧
      (([4, 12, 10, 10] : List ℚ).map (fun t =>
        (([4, 12, 10, 10] : List ℚ).sum / 4 - t) ^ 2)).sum ≠ 0) ∧
    (BiasCorrectedAccelerated.acceleration
      (⟨doubleLimits, fun x => x,
        fun b e => if e = 3 then b ^ 3 else if e = 2 then b ^ 2 else if b = 36 then 216 else b,
        fun x => ⌈x - 1 / 2⌉, fun p => p - 1 / 2, fun x => max 0 (min 1 (x + 1 / 2)),
        fun s => s, fun g d => (d.map (fun _ => d.getD g 0), g + 1),
        fun g ds => (ds, g + 1), true⟩ : Library Nat ℚ)
      0 (Calculator.construct .mean ⟨"mean"⟩) [] [24, 0, 6, 6] false).1
      = .value (2 / 27) := by
  have hp3 : ∀ x : ℚ, (if (3 : ℚ) = 3 then x ^ 3 else if (3 : ℚ) = 2 then x ^ 2
      else if x = 36 then 216 else x) = x ^ 3 :=
    fun x => by norm_num
  have hp2 : ∀ x : ℚ, (if (2 : ℚ) = 3 then x ^ 3 else if (2 : ℚ) = 2 then x ^ 2
      else if x = 36 then 216 else x) = x ^ 2 :=
    fun x => by norm_num
  have hsq : (([4, 12, 10, 10] : List ℚ).map (fun t =>
      (([4, 12, 10, 10] : List ℚ).sum / 4 - t) ^ 2)).sum ≠ 0 := by norm_num
  obtain ⟨thetas, c1, hlen, hval, hacc⟩ := (bca_acceleration_jackknife_formula
    (⟨doubleLimits, fun x => x,
        fun b e => if e = 3 then b ^ 3 else if e = 2 then b ^ 2 else if b = 36 then 216 else b,
        fun x => ⌈x - 1 / 2⌉, fun p => p - 1 / 2, fun x => max 0 (min 1 (x + 1 / 2)),
        fun s => s, fun g d => (d.map (fun _ => d.getD g 0), g + 1),
        fun g ds => (ds, g + 1), true⟩ : Library Nat ℚ)
    0 (⟨.bca, [1 / 8], 4, 0, "bca"⟩ : BootstrapCalculator ℚ) (Calculator.construct .mean ⟨"mean"⟩) [] 0 [24, 0, 6, 6] hp3 hp2).1
  have h0 := hval 0 (by decide)
  have h1 := hval 1 (by decide)
  have h2 := hval 2 (by decide)
  have h3 := hval 3 (by decide)
  match thetas, hlen, h0, h1, h2, h3, hacc with
  | [a, b, c, d], _, h0, h1, h2, h3, hacc =>
    simp [Calculator.compute, Calculator.init, Calculator.update, Calculator.finalize,
      Calculator.get, Calculator.construct, Mean.init, Mean.update, Mean.finalize, Mean.get,
      CalculatorValue.zero, CalculatorValue.plusEq, CalculatorValue.divEq,
      CalculatorValue.get, CalculatorValue.divide, CalculatorValue.add] at h0 h1 h2 h3
    have ea : a = 4 := by linarith
    have eb : b = 12 := by linarith
    have ec : c = 10 := by linarith
    have ed : d = 10 := by linarith
    subst ea eb ec ed
    refine ⟨⟨hp3, hp2, hsq⟩, ?_⟩
    rw [hacc (Or.inr (by norm_num)) (by norm_num)]
    norm_num

theorem binary64_zero : binary64 0 = 0 := by
  simp [binary64]

theorem roundHalfEven_intCast (k : Int) : roundHalfEven (k : ℚ) = k := by
  simp [roundHalfEven]

theorem roundHalfEven_of_gt (y : ℚ) (f : Int) (h1 : 1 / 2 < y - (f : ℚ))
    (h2 : y < (f : ℚ) + 1) : roundHalfEven y = f + 1 := by
  have hf : ⌊y⌋ = f := by
    rw [Int.floor_eq_iff]
    exact ⟨by linarith, h2⟩
  simp only [roundHalfEven, hf]
  rw [if_neg (not_lt.mpr (le_of_lt h1)), if_pos h1]

theorem roundHalfEven_of_tie_odd (y : ℚ) (f : Int) (h : y = (f : ℚ) + 1 / 2)
    (hodd : f % 2 = 1) : roundHalfEven y = f + 1 := by
  have hf : ⌊y⌋ = f := by
    rw [Int.floor_eq_iff]
    exact ⟨by linarith, by linarith⟩
  have e : y - (f : ℚ) = 1 / 2 := by linarith
  simp only [roundHalfEven, hf, e, lt_irrefl, if_false]
  rw [if_neg (by omega)]

/-- The binary64 value nearest to `x` when `x * 2^n` has magnitude in `[2^52, 2^53)`: the
spacing of the binary64 values around `x` is `2^-n`. -/
theorem binary64_of_scaled (x : ℚ) (n : Nat) (k : Int) (hlo : (2 : ℚ) ^ 52 ≤ |x| * 2 ^ n)
    (hhi : |x| * 2 ^ n < 2 ^ 53) (hn : n ≤ 1074) (hk : roundHalfEven (x * 2 ^ n) = k) :
    binary64 x = (k : ℚ) / 2 ^ n := by
  have hpow : (0 : ℚ) < 2 ^ n := by positivity
  have habs : 0 < |x| := by
    by_contra h
    have h0 : |x| = 0 := le_antisymm (not_lt.mp h) (abs_nonneg x)
    rw [h0, zero_mul] at hlo
    have : (0 : ℚ) < 2 ^ 52 := by positivity
    linarith
  have hx : x ≠ 0 := abs_pos.mp habs
  have hlog : Int.log 2 |x| = 52 - (n : Int) := by
    have h1 : (52 : Int) - n ≤ Int.log 2 |x| := by
      rw [← Int.zpow_le_iff_le_log (by norm_num) habs]
      rw [zpow_sub₀ (by norm_num), zpow_natCast]
      push_cast
      rw [div_le_iff₀ hpow]
      exact_mod_cast hlo
    have h2 : Int.log 2 |x| < (52 : Int) - n + 1 := by
      rw [← Int.lt_zpow_iff_log_lt (by norm_num) habs]
      have e : (52 : Int) - n + 1 = 53 - n := by ring
      rw [e, zpow_sub₀ (by norm_num), zpow_natCast]
      push_cast
      rw [lt_div_iff₀ hpow]
      exact_mod_cast hhi
    omega
  have he : max (Int.log 2 |x|) (-1022) - 52 = -(n : Int) := by
    rw [hlog, max_eq_left (by omega)]
    ring
  simp only [binary64, hx, if_false, he, zpow_neg, zpow_natCast, div_inv_eq_mul, hk]
  rw [div_eq_mul_inv]

/-- A multiple `k * 2^-n` with `|k|` in `[2^52, 2^53)` is a binary64 value. -/
theorem binary64_representable (k : Int) (n : Nat) (hlo : 2 ^ 52 ≤ |k|) (hhi : |k| < 2 ^ 53)
    (hn : n ≤ 1074) : binary64 ((k : ℚ) / 2 ^ n) = (k : ℚ) / 2 ^ n := by
  have hpow : (0 : ℚ) < 2 ^ n := by positivity
  have e : (k : ℚ) / 2 ^ n * 2 ^ n = k := by field_simp
  have ea : |(k : ℚ) / 2 ^ n| * 2 ^ n = ((|k| : Int) : ℚ) := by
    rw [abs_div, abs_of_pos hpow, div_mul_cancel₀ _ (ne_of_gt hpow), Int.cast_abs]
  apply binary64_of_scaled _ n k
  · rw [ea]; exact_mod_cast hlo
  · rw [ea]; exact_mod_cast hhi
  · exact hn
  · rw [e, roundHalfEven_intCast]


/-- The `double` nearest to 0.1, the value of the literal `0.1`. -/
theorem binary64_tenth : binary64 (1 / 10) = 7205759403792794 / 2 ^ 56 := by
  have h := binary64_of_scaled (1 / 10) 56 7205759403792794
    (by rw [abs_of_pos (by norm_num)]; norm_num)
    (by rw [abs_of_pos (by norm_num)]; norm_num) (by norm_num)
    (by
      have := roundHalfEven_of_gt (1 / 10 * 2 ^ 56) 7205759403792793 (by norm_num)
        (by norm_num)
      rw [this]; norm_num)
  rw [h]; norm_num

theorem binary64_tenth_fixed :
    binary64 (7205759403792794 / 2 ^ 56) = 7205759403792794 / 2 ^ 56 := by
  have h := binary64_representable 7205759403792794 56 (by norm_num) (by norm_num)
    (by norm_num)
  push_cast at h
  exact h

theorem binary64_two_tenths :
    binary64 (7205759403792794 / 2 ^ 56 + 7205759403792794 / 2 ^ 56)
      = 7205759403792794 / 2 ^ 55 := by
  have h := binary64_representable 7205759403792794 55 (by norm_num) (by norm_num)
    (by norm_num)
  push_cast at h
  have e : (7205759403792794 : ℚ) / 2 ^ 56 + 7205759403792794 / 2 ^ 56
      = 7205759403792794 / 2 ^ 55 := by norm_num
  rw [e, h]

theorem binary64_half_two_tenths :
    binary64 (7205759403792794 / 2 ^ 55 / ((2 : Nat) : ℚ)) = 7205759403792794 / 2 ^ 56 := by
  have e : (7205759403792794 : ℚ) / 2 ^ 55 / ((2 : Nat) : ℚ)
      = 7205759403792794 / 2 ^ 56 := by norm_num
  rw [e, binary64_tenth_fixed]

/-- The sum 0.2 + 0.1 lies halfway between two `double` values and rounds to the even
one, 0.30000000000000004. -/
theorem binary64_three_tenths :
    binary64 (7205759403792794 / 2 ^ 55 + 7205759403792794 / 2 ^ 56)
      = 5404319552844596 / 2 ^ 54 := by
  have h := binary64_of_scaled (7205759403792794 / 2 ^ 55 + 7205759403792794 / 2 ^ 56) 54
    5404319552844596
    (by rw [abs_of_pos (by norm_num)]; norm_num)
    (by rw [abs_of_pos (by norm_num)]; norm_num) (by norm_num)
    (by
      have := roundHalfEven_of_tie_odd
        ((7205759403792794 / 2 ^ 55 + 7205759403792794 / 2 ^ 56) * 2 ^ 54)
        5404319552844595 (by norm_num) (by norm_num)
      rw [this]; norm_num)
  rw [h]; norm_num

/-- The quotient 0.30000000000000004 / 3 rounds to 0.10000000000000002, the `double` next
above 0.1. -/
theorem binary64_third_three_tenths :
    binary64 (5404319552844596 / 2 ^ 54 / ((3 : Nat) : ℚ)) = 7205759403792795 / 2 ^ 56 := by
  have h := binary64_of_scaled (5404319552844596 / 2 ^ 54 / ((3 : Nat) : ℚ)) 56
    7205759403792795
    (by rw [abs_of_pos (by norm_num)]; norm_num)
    (by rw [abs_of_pos (by norm_num)]; norm_num) (by norm_num)
    (by
      have := roundHalfEven_of_gt (5404319552844596 / 2 ^ 54 / ((3 : Nat) : ℚ) * 2 ^ 56)
        7205759403792794 (by norm_num) (by norm_num)
      rw [this]; norm_num)
  rw [h]; norm_num

theorem binary64_last_bit :
    binary64 (7205759403792795 / 2 ^ 56 - 7205759403792794 / 2 ^ 56) = 1 / 2 ^ 56 := by
  have h := binary64_representable 4503599627370496 108 (by norm_num) (by norm_num)
    (by norm_num)
  push_cast at h
  have e : (7205759403792795 : ℚ) / 2 ^ 56 - 7205759403792794 / 2 ^ 56
      = 4503599627370496 / 2 ^ 108 := by norm_num
  have e2 : (1 : ℚ) / 2 ^ 56 = 4503599627370496 / 2 ^ 108 := by norm_num
  rw [e, h, e2]

theorem binary64_last_bit_squared :
    binary64 ((1 / 2 ^ 56 : ℚ) ^ 2) = 1 / 2 ^ 112 := by
  have h := binary64_representable 4503599627370496 164 (by norm_num) (by norm_num)
    (by norm_num)
  push_cast at h
  have e : ((1 : ℚ) / 2 ^ 56) ^ 2 = 4503599627370496 / 2 ^ 164 := by norm_num
  have e2 : (1 : ℚ) / 2 ^ 112 = 4503599627370496 / 2 ^ 164 := by norm_num
  rw [e, h, e2]

theorem binary64_square_fixed : binary64 (1 / 2 ^ 112) = 1 / 2 ^ 112 := by
  have h := binary64_representable 4503599627370496 164 (by norm_num) (by norm_num)
    (by norm_num)
  push_cast at h
  have e2 : (1 : ℚ) / 2 ^ 112 = 4503599627370496 / 2 ^ 164 := by norm_num
  rw [e2, h]

theorem binary64_two_squares :
    binary64 (1 / 2 ^ 112 + 1 / 2 ^ 112) = 1 / 2 ^ 111 := by
  have h := binary64_representable 4503599627370496 163 (by norm_num) (by norm_num)
    (by norm_num)
  push_cast at h
  have e : (1 : ℚ) / 2 ^ 112 + 1 / 2 ^ 112 = 4503599627370496 / 2 ^ 163 := by norm_num
  have e2 : (1 : ℚ) / 2 ^ 111 = 4503599627370496 / 2 ^ 163 := by norm_num
  rw [e, h, e2]

theorem binary64_three_squares :
    binary64 (1 / 2 ^ 111 + 1 / 2 ^ 112) = 3 / 2 ^ 112 := by
  have h := binary64_representable 6755399441055744 163 (by norm_num) (by norm_num)
    (by norm_num)
  push_cast at h
  have e : (1 : ℚ) / 2 ^ 111 + 1 / 2 ^ 112 = 6755399441055744 / 2 ^ 163 := by norm_num
  have e2 : (3 : ℚ) / 2 ^ 112 = 6755399441055744 / 2 ^ 163 := by norm_num
  rw [e, h, e2]


/-- In binary64 the mean of two values 0.1 is 0.1. -/
theorem binary64_mean_two_tenths :
    Binary64.meanCompute [7205759403792794 / 2 ^ 56, 7205759403792794 / 2 ^ 56]
      = 7205759403792794 / 2 ^ 56 := by
  simp only [Binary64.meanCompute, List.foldl, zero_add, binary64_tenth_fixed,
    binary64_two_tenths, List.length_cons, List.length_nil]
  rw [if_pos (by norm_num)]
  exact binary64_half_two_tenths

/-- In binary64 the three jackknife means of the data 0.1, 0.1, 0.1 are 0.1. -/
theorem binary64_jackknife_tenths :
    Binary64.jackknife [7205759403792794 / 2 ^ 56, 7205759403792794 / 2 ^ 56,
        7205759403792794 / 2 ^ 56]
      = [7205759403792794 / 2 ^ 56, 7205759403792794 / 2 ^ 56,
        7205759403792794 / 2 ^ 56] := by
  simp only [Binary64.jackknife, List.length_cons, List.length_nil, List.range,
    List.range.loop, List.map_cons, List.map_nil, List.eraseIdx, binary64_mean_two_tenths]

/-- In binary64 the average of three values 0.1 is 0.10000000000000002. -/
theorem binary64_thetaDot_tenths :
    Binary64.thetaDot [7205759403792794 / 2 ^ 56, 7205759403792794 / 2 ^ 56,
        7205759403792794 / 2 ^ 56] 3
      = 7205759403792795 / 2 ^ 56 := by
  simp only [Binary64.thetaDot, List.foldl, zero_add, binary64_tenth_fixed,
    binary64_two_tenths, binary64_three_tenths]
  exact binary64_third_three_tenths

/-- The loop of `denomenator` over three equal jackknife estimates, step by step. -/
theorem binary64_denomenator_three (pow : ℚ → ℚ → ℚ) (t m d p p2 p3 : ℚ)
    (hm : Binary64.thetaDot [t, t, t] 3 = m) (hd : binary64 (m - t) = d)
    (hp : pow d 2 = p) (h1 : binary64 p = p) (h2 : binary64 (p + p) = p2)
    (h3 : binary64 (p2 + p) = p3) :
    Binary64.denomenator pow [t, t, t] 3 = p3 := by
  simp only [Binary64.denomenator, List.foldl, hm, hd, hp, zero_add, h1, h2, h3]

/-- In binary64 the variable `denomenator` for three jackknife means 0.1 is `3 * 2^-112`. -/
theorem binary64_denomenator_tenths :
    Binary64.denomenator (fun b e => if e = 2 then binary64 (b ^ 2) else binary64 b)
      [7205759403792794 / 2 ^ 56, 7205759403792794 / 2 ^ 56, 7205759403792794 / 2 ^ 56] 3
      = 3 / 2 ^ 112 :=
  binary64_denomenator_three _ _ _ _ _ _ _ binary64_thetaDot_tenths binary64_last_bit
    ((if_pos rfl).trans binary64_last_bit_squared) binary64_square_fixed
    binary64_two_squares binary64_three_squares

/-- In binary64 the variable `denomenator` for data of one element, with `Mean` wrapped,
is 0. -/
theorem binary64_denomenator_single (pow : ℚ → ℚ → ℚ) (x : ℚ) (hp : pow 0 2 = 0) :
    Binary64.jackknife [x] = [0] ∧
    Binary64.thetaDot (Binary64.jackknife [x]) 1 = 0 ∧
    Binary64.denomenator pow (Binary64.jackknife [x]) 1 = 0 := by
  have hj : Binary64.jackknife [x] = [0] := by
    simp [Binary64.jackknife, Binary64.meanCompute, List.range, List.range.loop]
  have ht : Binary64.thetaDot [0] 1 = 0 := by
    simp [Binary64.thetaDot, binary64_zero]
  refine ⟨hj, by rw [hj, ht], ?_⟩
  rw [hj]
  simp [Binary64.denomenator, ht, binary64_zero, hp]

/-- C36, counterexample: `acceleration` with `Mean` wrapped on the data 0.1, 0.1, 0.1 in
binary64 arithmetic. The three leave-one-out means are all equal to 0.1, but their computed
average is 0.10000000000000002 (0.2 + 0.1 rounds up to 0.30000000000000004), each
difference `theta_dot - jk` is `2^-56`, and `denomenator` is `3 * 2^-112`, not 0: the
assertion `denomenator != 0` passes. -/
theorem bca_acceleration_binary64_passes :
    binary64 (1 / 10) = 7205759403792794 / 2 ^ 56 ∧
    Binary64.jackknife [binary64 (1 / 10), binary64 (1 / 10), binary64 (1 / 10)]
      = [binary64 (1 / 10), binary64 (1 / 10), binary64 (1 / 10)] ∧
    Binary64.thetaDot
        (Binary64.jackknife [binary64 (1 / 10), binary64 (1 / 10), binary64 (1 / 10)]) 3
      = 7205759403792795 / 2 ^ 56 ∧
    Binary64.denomenator (fun b e => if e = 2 then binary64 (b ^ 2) else binary64 b)
        (Binary64.jackknife [binary64 (1 / 10), binary64 (1 / 10), binary64 (1 / 10)]) 3
      = 3 / 2 ^ 112 ∧
    Binary64.denomenator (fun b e => if e = 2 then binary64 (b ^ 2) else binary64 b)
        (Binary64.jackknife [binary64 (1 / 10), binary64 (1 / 10), binary64 (1 / 10)]) 3
      ≠ 0 := by
  rw [binary64_tenth, binary64_jackknife_tenths, binary64_thetaDot_tenths,
    binary64_denomenator_tenths]
  refine ⟨rfl, rfl, rfl, rfl, by norm_num⟩

section
variable {γ α : Type} [LinearOrderedField α]

/-- Serial `acceleration` on data of one element, whatever the calculator: the only
jackknife estimate is its own average, numerator, denominator and divisor are 0. -/
theorem acceleration_single_sums (L : Library γ α) (fuel : Nat) (c0 : Calculator α)
    (group : List (List α)) (x : α)
    (hz2 : L.pow 0 2 = 0) (hz3 : L.pow 0 3 = 0) (hz : L.pow 0 (3 / 2) = 0) :
    ∃ (t : α) (c1 : Calculator α),
      BiasCorrectedAccelerated.jackknife L fuel group [x] false (List.range 1) c0
        = some ([t], c1) ∧
      (([t] : List α).map (fun u => L.pow (([t] : List α).sum / ((1 : Nat) : α) - u) 2)).sum
        = 0 ∧
      (([t] : List α).map (fun u => L.pow (([t] : List α).sum / ((1 : Nat) : α) - u) 3)).sum
        = 0 ∧
      6 * L.pow ((([t] : List α).map (fun u =>
        L.pow (([t] : List α).sum / ((1 : Nat) : α) - u) 2)).sum) (3 / 2) = 0 ∧
      BiasCorrectedAccelerated.acceleration L fuel c0 group [x] false
        = (if L.assertsActive then
            .mooseError "The acceleration denomenator must not be zero."
          else .undefined, c1) := by
  obtain ⟨t, c', ht⟩ := calculator_compute_serial_some L.limits L.sqrt fuel c0
    (group.map (fun d => d.eraseIdx 0)) ([x].eraseIdx 0)
  obtain ⟨c1, h1, h2, h3, h4, h5⟩ := acceleration_equal_estimates L fuel c0 group [x]
    hz2 hz3 hz (by simp) t (by
      intro i hi
      have : i = 0 := by simpa using hi
      subst this
      rw [ht]
      rfl)
  exact ⟨t, c1, h1, h2, h3, h4, h5⟩

/-- C36, amended: the precondition asserted in `acceleration` fails for every dataset of
one element, with any calculator (and `pow` of 0 being 0 for the exponents 2, 3 and 3/2).
In serial mode the only leave-one-out estimate `t` is its own average, the sum of the
squares `(m - t_i)^2` is exactly 0, so are the numerator and the divisor, and the call ends
in the assertion "The acceleration denomenator must not be zero.", or in the quotient 0/0
when assertions are compiled out. With `Mean` wrapped the same holds in binary64
arithmetic: the estimate is the mean of no value, 0, and `denomenator` is 0. -/
theorem bca_acceleration_zero_denominator (L : Library γ α) (fuel : Nat)
    (c0 : Calculator α) (group : List (List α))
    (hz2 : L.pow 0 2 = 0) (hz3 : L.pow 0 3 = 0) (hz : L.pow 0 (3 / 2) = 0) :
    (∀ x : α, ∃ (t : α) (c1 : Calculator α),
      BiasCorrectedAccelerated.jackknife L fuel group [x] false (List.range 1) c0
        = some ([t], c1) ∧
      (([t] : List α).map (fun u => L.pow (([t] : List α).sum / ((1 : Nat) : α) - u) 2)).sum
        = 0 ∧
      (([t] : List α).map (fun u => L.pow (([t] : List α).sum / ((1 : Nat) : α) - u) 3)).sum
        = 0 ∧
      6 * L.pow ((([t] : List α).map (fun u =>
        L.pow (([t] : List α).sum / ((1 : Nat) : α) - u) 2)).sum) (3 / 2) = 0 ∧
      BiasCorrectedAccelerated.acceleration L fuel c0 group [x] false
        = (if L.assertsActive then
            .mooseError "The acceleration denomenator must not be zero."
          else .undefined, c1)) ∧
    (∀ (pow : ℚ → ℚ → ℚ) (x : ℚ), pow 0 2 = 0 →
      Binary64.jackknife [x] = [0] ∧
      Binary64.thetaDot (Binary64.jackknife [x]) 1 = 0 ∧
      Binary64.denomenator pow (Binary64.jackknife [x]) 1 = 0) :=
  ⟨fun x => acceleration_single_sums L fuel c0 group x hz2 hz3 hz,
    fun pow x hp => binary64_denomenator_single pow x hp⟩

end

theorem bca_acceleration_zero_denominator_witness :
    (((if (2 : ℚ) = 3 then (0 : ℚ) ^ 3 else if (2 : ℚ) = 2 then (0 : ℚ) ^ 2 else 0) = 0) ∧
      ((if (3 : ℚ) = 3 then (0 : ℚ) ^ 3 else if (3 : ℚ) = 2 then (0 : ℚ) ^ 2 else 0) = 0) ∧
      ((if (3 / 2 : ℚ) = 3 then (0 : ℚ) ^ 3 else if (3 / 2 : ℚ) = 2 then (0 : ℚ) ^ 2 else 0)
        = 0) ∧
      (if (2 : ℚ) = 2 then binary64 ((0 : ℚ) ^ 2) else binary64 0) = 0) ∧
    (BiasCorrectedAccelerated.acceleration
      (⟨doubleLimits, fun x => x,
        fun b e => if e = 3 then b ^ 3 else if e = 2 then b ^ 2 else b,
        fun x => ⌈x - 1 / 2⌉, fun p => p - 1 / 2, fun x => max 0 (min 1 (x + 1 / 2)),
        fun s => s, fun g d => (d.map (fun _ => d.getD g 0), g + 1),
        fun g ds => (ds, g + 1), true⟩ : Library Nat ℚ)
      0 (Calculator.construct .median ⟨"median"⟩) [] [5] false).1
      = .mooseError "The acceleration denomenator must not be zero." ∧
    Binary64.denomenator (fun b e => if e = 2 then binary64 (b ^ 2) else binary64 b)
      (Binary64.jackknife [binary64 (1 / 10)]) 1 = 0 := by
  have h2 : (if (2 : ℚ) = 3 then (0 : ℚ) ^ 3 else if (2 : ℚ) = 2 then (0 : ℚ) ^ 2 else 0)
      = 0 := by norm_num
  have h3 : (if (3 : ℚ) = 3 then (0 : ℚ) ^ 3 else if (3 : ℚ) = 2 then (0 : ℚ) ^ 2 else 0)
      = 0 := by norm_num
  have h32 : (if (3 / 2 : ℚ) = 3 then (0 : ℚ) ^ 3
      else if (3 / 2 : ℚ) = 2 then (0 : ℚ) ^ 2 else 0) = 0 := by norm_num
  have hp : (if (2 : ℚ) = 2 then binary64 ((0 : ℚ) ^ 2) else binary64 0) = 0 := by
    norm_num [binary64_zero]
  have h := bca_acceleration_zero_denominator
    (⟨doubleLimits, fun x => x,
      fun b e => if e = 3 then b ^ 3 else if e = 2 then b ^ 2 else b,
      fun x => ⌈x - 1 / 2⌉, fun p => p - 1 / 2, fun x => max 0 (min 1 (x + 1 / 2)),
      fun s => s, fun g d => (d.map (fun _ => d.getD g 0), g + 1),
      fun g ds => (ds, g + 1), true⟩ : Library Nat ℚ)
    0 (Calculator.construct .median ⟨"median"⟩) [] h2 h3 h32
  obtain ⟨t, c1, -, -, -, -, hacc⟩ := h.1 5
  exact ⟨⟨h2, h3, h32, hp⟩, congrArg Prod.fst hacc, (h.2 _ (binary64 (1 / 10)) hp).2.2⟩

end StochasticTools
